import Mathlib

/-!
# Ghost navigation engine of the Pac-Man clone (tutorial 06)

A shallow embedding of `src/ghost.cpp`, `src/include/ghost.h` and `src/blinky.cpp`.

* C++ `double` values (sprite and player coordinates, velocities) are exact rationals.
* `Uint16` cell indices are natural numbers; the two places where the code casts an
  `int` expression back to `Uint16` wrap modulo 65536.
* The `int` products and sum of the distance expression wrap modulo 2^32 into the range of
  `int`, and the square root of a negative `int` is NaN, with which every comparison is false.
* A failed `SDL_assert` or a dereferenced null pointer is the result `none`.
* The Maze, the Sprite base class, the Player, `StateTimer`, `Direction` and the value of
  `Constants::GhostBaseSpeed` are declared in files that are not among the sources; the Maze
  queries and the unknown Sprite queries are fields of parameter records, the rest is
  modelled as documented at each definition.
-/

namespace PacManClone

/-! ## Collaborators -/

/-- Modelled from the spec: the `Direction` enum (utils.h is not among the sources). The
comments in `Blinky::MakeBranchDecision` and `Ghost::GetNextDirection` require the four
cardinal directions to be numbered 0..3 in the order Up, Down, Left, Right. -/
inductive Direction where
  | Up
  | Down
  | Left
  | Right
  | None
  deriving DecidableEq, Repr

/-- The cast `static_cast<size_t>(direction)`. -/
def Direction.toIndex : Direction → Nat
  | .Up => 0
  | .Down => 1
  | .Left => 2
  | .Right => 3
  | .None => 4

/-- The cast `static_cast<Direction>(index)`, used by the code for `index` in 0..3. -/
def Direction.ofIndex : Nat → Direction
  | 0 => .Up
  | 1 => .Down
  | 2 => .Left
  | 3 => .Right
  | _ => .None

/-- Modelled from the spec: `Opposite` (utils.h is not among the sources), "a total
involution on {Up,Down,Left,Right}; None has no opposite". -/
def Opposite : Direction → Direction
  | .Up => .Down
  | .Down => .Up
  | .Left => .Right
  | .Right => .Left
  | .None => .None

/-- The conversion of an `int` expression to `Uint16`. -/
def toUint16 (i : Int) : Nat := (i % 65536).toNat

/-- Modelled from the spec: `TranslateCell` (utils.h is not among the sources), "translate one
cell in the direction"; the arithmetic is that of the `options` table of
`Blinky::MakeBranchDecision`, on `Uint16`. -/
def TranslateCell (row col : Nat) : Direction → Nat × Nat
  | .Up => (toUint16 ((row : Int) - 1), col)
  | .Down => (toUint16 ((row : Int) + 1), col)
  | .Left => (row, toUint16 ((col : Int) - 1))
  | .Right => (row, toUint16 ((col : Int) + 1))
  | .None => (row, col)

/-- The SDL point: integer pixel coordinates. -/
structure SDL_Point where
  x : Int
  y : Int
  deriving DecidableEq, Repr

/-- The SDL rectangle. -/
structure SDL_Rect where
  x : Int
  y : Int
  w : Int
  h : Int
  deriving DecidableEq, Repr

/-- The conversion `static_cast<int>(d)` of a double: truncation toward zero. -/
def toInt (d : ℚ) : Int := if 0 ≤ d then ⌊d⌋ else -⌊-d⌋

/-- The SDL function `int SDL_abs(int)`. -/
def SDL_abs (i : Int) : Int := |i|

/-- The value of an `int` operation whose exact result is `i`: the 32-bit two's complement
wraparound of `i` into the range -2147483648 .. 2147483647. -/
def toInt32 (i : Int) : Int := (i + 2147483648) % 4294967296 - 2147483648

/-- The double `SDL_sqrt(radicand)` of an `int` radicand, kept as that radicand. A negative
radicand is NaN. The square root is strictly increasing and the correctly rounded double
square roots of distinct non-negative integers that fit an `int` are distinct, so the order of
the doubles that are not NaN is the order of the radicands. -/
structure Root where
  radicand : Int
  deriving DecidableEq, Repr

/-- The SDL function `SDL_sqrt`, applied by the code to an `int` value. -/
def SDL_sqrt (n : Int) : Root := ⟨n⟩

/-- Whether the double is NaN. -/
def Root.IsNaN (a : Root) : Prop := a.radicand < 0

instance (a : Root) : Decidable a.IsNaN := inferInstanceAs (Decidable (a.radicand < 0))

/-- The comparison `<` of doubles: false when either side is NaN. -/
instance : LT Root := ⟨fun a b => 0 ≤ a.radicand ∧ a.radicand < b.radicand⟩

/-- The comparison `<=` of doubles: false when either side is NaN. -/
instance : LE Root := ⟨fun a b => 0 ≤ a.radicand ∧ a.radicand ≤ b.radicand⟩

instance (a b : Root) : Decidable (a < b) :=
  inferInstanceAs (Decidable (0 ≤ a.radicand ∧ a.radicand < b.radicand))

instance (a b : Root) : Decidable (a ≤ b) :=
  inferInstanceAs (Decidable (0 ≤ a.radicand ∧ a.radicand ≤ b.radicand))

/-- Modelled from the spec: the state of the Sprite base class (sprite.h is not among the
sources), "a moving entity with continuous position, velocity"; the selected animation is
kept as well. -/
structure Sprite where
  x : ℚ
  y : ℚ
  dx : ℚ
  dy : ℚ
  animation : Nat
  deriving DecidableEq, Repr

/-- Modelled from the spec: `Sprite::SetVelocity` (sprite.h is not among the sources). -/
def Sprite.SetVelocity (s : Sprite) (dx dy : ℚ) : Sprite := { s with dx := dx, dy := dy }

/-- Modelled from the spec: `Sprite::ResetPosition` (sprite.h is not among the sources). -/
def Sprite.ResetPosition (s : Sprite) (x y : ℚ) : Sprite := { s with x := x, y := y }

/-- Modelled from the spec: `Sprite::SetAnimation` (sprite.h is not among the sources). -/
def Sprite.SetAnimation (s : Sprite) (index : Nat) : Sprite := { s with animation := index }

/-- Modelled from the spec: `Sprite::Update` (sprite.h is not among the sources), "advance
continuous position by current velocity". -/
def Sprite.Update (s : Sprite) : Sprite := { s with x := s.x + s.dx, y := s.y + s.dy }

/-- The player, of which the ghost code reads `X()` and `Y()` only. -/
structure Player where
  x : ℚ
  y : ℚ
  deriving DecidableEq, Repr

/-- The read-only Maze queries used by the ghost code (maze.h is not among the sources): each
is a parameter. -/
structure Maze where
  IsTileSolid : Nat → Nat → Bool
  IsTileIntersection : Nat → Nat → Bool
  GetTileCoordinates : Nat → Nat → SDL_Point
  GetTileRowCol : SDL_Point → Nat × Nat
  IsSpritePastCenter : Nat → Nat → Sprite → Bool
  GetMapBounds : SDL_Rect

/-- What the ghost code uses of the Sprite base class and of Constants without their
definitions being among the sources: each is a parameter. -/
structure Externals where
  GhostBaseSpeed : ℚ
  CurrentDirection : Sprite → Direction
  IsOutOfView : Sprite → SDL_Rect → Bool
  Width : Nat

/-- Modelled from the spec: `StateTimer` (utils.h is not among the sources), a "countdown
timer" of "fixed duration", "advanced implicitly by elapsed real time and polled". The clock
value `now` (milliseconds) is an input of every operation that reads the clock. -/
structure StateTimer where
  started : Bool
  startTicks : Nat
  targetTicks : Nat
  deriving DecidableEq, Repr

/-- Modelled from the spec: `StateTimer::Start`. -/
def StateTimer.Start (_t : StateTimer) (ms now : Nat) : StateTimer := ⟨true, now, ms⟩

/-- Modelled from the spec: `StateTimer::Reset`. -/
def StateTimer.Reset (_t : StateTimer) : StateTimer := ⟨false, 0, 0⟩

/-- Modelled from the spec: `StateTimer::IsStarted`. -/
def StateTimer.IsStarted (t : StateTimer) : Bool := t.started

/-- Modelled from the spec: `StateTimer::IsDone`, the duration has elapsed since `Start`. -/
def StateTimer.IsDone (t : StateTimer) (now : Nat) : Bool :=
  t.started && decide (t.startTicks + t.targetTicks ≤ now)

/-! ## Constants (`src/include/constants.h`) -/

def Constants.WarpRow : Nat := 17
def Constants.WarpColGhostLeft : Nat := 1
def Constants.WarpColGhostRight : Nat := 26
def Constants.GhostPenRowExit : Nat := 14
def Constants.GhostPenRow : Nat := 17
def Constants.GhostPenCol : Nat := 13
def Constants.AnimationIndexUp : Nat := 0
def Constants.AnimationIndexDown : Nat := 1
def Constants.AnimationIndexLeft : Nat := 2
def Constants.AnimationIndexRight : Nat := 3

/-! ## Ghost state (`src/include/ghost.h`) -/

/-- The struct `Ghost::Decision`. -/
structure Decision where
  row : Nat
  col : Nat
  direction : Direction
  deriving DecidableEq, Repr

/-- The enum `Ghost::Mode`. -/
inductive Mode where
  | Chase
  | Scatter
  | WarpingOut
  | WarpingIn
  | ExitingPen
  deriving DecidableEq, Repr

/-- The members of `Ghost` on top of its `Sprite` base; a null `Decision*` is `none`. -/
structure Ghost where
  sprite : Sprite
  penTimer : StateTimer
  currentRow : Nat
  currentCol : Nat
  mode : Mode
  pNextDecision : Option Decision
  pCurrentDecision : Option Decision
  deriving DecidableEq, Repr

/-- The method `Ghost::IsGhostPenned`. -/
def Ghost.IsGhostPenned (g : Ghost) : Bool :=
  decide (g.currentCol > 10) && decide (g.currentCol < 17) &&
    decide (g.currentRow > 15) && decide (g.currentRow < 18)

/-- The method `Ghost::Stop`. -/
def Ghost.Stop (g : Ghost) : Ghost := { g with sprite := g.sprite.SetVelocity 0 0 }

/-- The method `Ghost::IsStopped`. -/
def Ghost.IsStopped (g : Ghost) : Bool := decide (g.sprite.dx = 0) && decide (g.sprite.dy = 0)

/-! ## `src/blinky.cpp` -/

/-- The method `Blinky::Reset`; the heading stored in the new Decision is `CurrentDirection()`
read after the velocity has been set. The result `true` is the second component. -/
def Blinky.Reset (K : Externals) (pMaze : Maze) (g : Ghost) : Ghost × Bool :=
  let s0 := g.sprite.SetAnimation Constants.AnimationIndexUp
  let playerStartCoord := pMaze.GetTileCoordinates Constants.GhostPenRow Constants.GhostPenCol
  let s1 := s0.ResetPosition playerStartCoord.x playerStartCoord.y
  let s2 := s1.SetVelocity 0 (K.GhostBaseSpeed * (-7 / 4))
  ({ g with
      sprite := s2
      currentRow := Constants.GhostPenRow
      currentCol := Constants.GhostPenCol
      pNextDecision := none
      pCurrentDecision :=
        some ⟨Constants.GhostPenRow, Constants.GhostPenCol, K.CurrentDirection s2⟩
      penTimer := g.penTimer.Reset }, true)

/-- The local struct `MAZECELL` of `Blinky::MakeBranchDecision`. -/
structure MAZECELL where
  row : Nat
  col : Nat
  distance : Root
  valid : Bool
  deriving DecidableEq, Repr

/-- The array `options` of `Blinky::MakeBranchDecision` as initialised, by index. -/
def Blinky.options (nRow nCol : Nat) : Nat → MAZECELL
  | 0 => ⟨toUint16 ((nRow : Int) - 1), nCol, SDL_sqrt 0, false⟩
  | 1 => ⟨toUint16 ((nRow : Int) + 1), nCol, SDL_sqrt 0, false⟩
  | 2 => ⟨nRow, toUint16 ((nCol : Int) - 1), SDL_sqrt 0, false⟩
  | _ => ⟨nRow, toUint16 ((nCol : Int) + 1), SDL_sqrt 0, false⟩

/-- The distance expression of `Blinky::MakeBranchDecision` (lines 93-94) for the tile centre
`point`; each argument of `SDL_abs` is a double, converted to its `int` parameter, and the two
products and their sum are `int` operations, which wrap. The conversion of a difference
beyond the range of `int` is undefined in C++; the statements about distances bound the
differences. -/
def Blinky.distance (pPlayer : Player) (point : SDL_Point) : Root :=
  SDL_sqrt (toInt32
    (toInt32 (SDL_abs (toInt (pPlayer.x - point.x)) * SDL_abs (toInt (pPlayer.x - point.x))) +
      toInt32 (SDL_abs (toInt (pPlayer.y - point.y)) * SDL_abs (toInt (pPlayer.y - point.y)))))

/-- The body of the first loop of `Blinky::MakeBranchDecision` at one `index`. -/
def Blinky.evaluate (K : Externals) (g : Ghost) (pPlayer : Player) (pMaze : Maze)
    (index : Nat) (o : MAZECELL) : MAZECELL :=
  let v0 := !(pMaze.IsTileSolid o.row o.col)
  let v1 := if Opposite (Direction.ofIndex index) = K.CurrentDirection g.sprite then false else v0
  if v1 then
    { o with
        valid := v1
        distance := Blinky.distance pPlayer (pMaze.GetTileCoordinates o.row o.col) }
  else { o with valid := v1 }

/-- The second loop of `Blinky::MakeBranchDecision`: the first valid index from `index` on, and
the initial value 0 of `shortest` when the loop ends without a hit. -/
def Blinky.findFirst (options : Nat → MAZECELL) : Nat → Nat → Nat
  | 0, _ => 0
  | fuel + 1, index =>
    if (options index).valid then index else Blinky.findFirst options fuel (index + 1)

/-- The third loop of `Blinky::MakeBranchDecision`, from `index` on for `fuel` rounds. -/
def Blinky.scan (options : Nat → MAZECELL) : Nat → Nat → Nat → Nat
  | 0, _, shortest => shortest
  | fuel + 1, index, shortest =>
    Blinky.scan options fuel (index + 1)
      (if (options index).distance < (options shortest).distance && (options index).valid
        then index else shortest)

/-- The method `Blinky::MakeBranchDecision`; `none` is a failed `SDL_assert`. -/
def Blinky.MakeBranchDecision (K : Externals) (g : Ghost) (nRow nCol : Nat) (pPlayer : Player)
    (pMaze : Maze) : Option Direction :=
  let result := K.CurrentDirection g.sprite
  if pMaze.IsTileIntersection nRow nCol = true then
    let options : Nat → MAZECELL :=
      fun index => Blinky.evaluate K g pPlayer pMaze index (Blinky.options nRow nCol index)
    let shortest0 := Blinky.findFirst options 4 0
    let shortest := Blinky.scan options (4 - (shortest0 + 1)) (shortest0 + 1) shortest0
    if (options shortest).valid then
      match shortest with
      | 0 => some Direction.Up
      | 1 => some Direction.Down
      | 2 => some Direction.Left
      | 3 => some Direction.Right
      | _ => some result
    else none
  else none

/-! ## `src/ghost.cpp` -/

/-- The loop of `Ghost::GetNextDirection` over `options`, from the head of the list on. -/
def Ghost.GetNextDirection.loop (oppositeOption r c : Nat) (pMaze : Maze) : List Direction → Direction
  | [] => Direction.None
  | d :: rest =>
    if d.toIndex ≠ oppositeOption ∧ pMaze.IsTileSolid (TranslateCell r c d).1 (TranslateCell r c d).2 = false
      then d
      else Ghost.GetNextDirection.loop oppositeOption r c pMaze rest

/-- The method `Ghost::GetNextDirection`; `none` is a null `_pCurrentDecision` or the failed
`SDL_assert`. The loop index of the code is the index of the direction in `options`. -/
def Ghost.GetNextDirection (g : Ghost) (r c : Nat) (pMaze : Maze) : Option Direction :=
  match g.pCurrentDecision with
  | none => none
  | some cur =>
    let oppositeOption := (Opposite cur.direction).toIndex
    if oppositeOption ≠ Direction.None.toIndex then
      some (Ghost.GetNextDirection.loop oppositeOption r c pMaze
        [Direction.Up, Direction.Down, Direction.Left, Direction.Right])
    else none

/-- The method `Ghost::GetNextDecision`: the ghost with the recorded cell updated, and the new
Decision; `none` is a null `_pCurrentDecision` or a failed `SDL_assert`. -/
def Ghost.GetNextDecision (K : Externals) (pPlayer : Player) (pMaze : Maze) (g : Ghost) :
    Option (Ghost × Decision) :=
  let ghostPoint : SDL_Point := ⟨toInt g.sprite.x, toInt g.sprite.y⟩
  let cell := pMaze.GetTileRowCol ghostPoint
  let g1 := { g with currentRow := cell.1, currentCol := cell.2 }
  match g1.pCurrentDecision with
  | none => none
  | some cur =>
    let rc := TranslateCell g1.currentRow g1.currentCol cur.direction
    if pMaze.IsTileSolid rc.1 rc.2 = false then
      let newDirection :=
        if pMaze.IsTileIntersection rc.1 rc.2 = true
          then Blinky.MakeBranchDecision K g1 rc.1 rc.2 pPlayer pMaze
          else Ghost.GetNextDirection g1 rc.1 rc.2 pMaze
      match newDirection with
      | none => none
      | some d => if d ≠ Direction.None then some (g1, ⟨rc.1, rc.2, d⟩) else none
    else none

/-- The method `Ghost::IsGhostWarpingOut`. -/
def Ghost.IsGhostWarpingOut (g : Ghost) (pMaze : Maze) : Bool :=
  let updatedPoint : SDL_Point := ⟨toInt g.sprite.x, toInt g.sprite.y⟩
  let cell := pMaze.GetTileRowCol updatedPoint
  decide (cell.1 = Constants.WarpRow) &&
    (decide (cell.2 = Constants.WarpColGhostLeft) || decide (cell.2 = Constants.WarpColGhostRight))

/-- The method `Ghost::OnExitingPen`. -/
def Ghost.OnExitingPen (K : Externals) (pPlayer : Player) (pMaze : Maze) (g : Ghost) : Ghost :=
  let g1 := { g with sprite := g.sprite.Update }
  let centerPoint := pMaze.GetTileCoordinates 14 13
  if pMaze.IsSpritePastCenter Constants.GhostPenRowExit Constants.GhostPenCol g1.sprite = true then
    let s1 := g1.sprite.ResetPosition centerPoint.x centerPoint.y
    let speed0 := K.GhostBaseSpeed * (7 / 4)
    let speed := if pPlayer.x < s1.x then speed0 * (-1) else speed0
    let s2 := s1.SetVelocity speed 0
    { g1 with
        sprite := s2
        currentRow := Constants.GhostPenRowExit
        currentCol := Constants.GhostPenCol
        pNextDecision := none
        pCurrentDecision :=
          some ⟨Constants.GhostPenRowExit, Constants.GhostPenCol, K.CurrentDirection s2⟩
        mode := Mode.Chase }
  else g1

/-- The method `Ghost::OnWarpingOut`. -/
def Ghost.OnWarpingOut (K : Externals) (pMaze : Maze) (g : Ghost) : Ghost :=
  let g1 := { g with sprite := g.sprite.Update }
  let mapRect := pMaze.GetMapBounds
  if K.IsOutOfView g1.sprite mapRect = true then
    if g1.sprite.dx > 0 then
      { g1 with
          sprite := g1.sprite.ResetPosition (mapRect.x - (K.Width : Int)) g1.sprite.y
          mode := Mode.WarpingIn }
    else if g1.sprite.dx < 0 then
      { g1 with
          sprite := g1.sprite.ResetPosition (mapRect.x + mapRect.w + (K.Width : Int)) g1.sprite.y
          mode := Mode.WarpingIn }
    else g1
  else g1

/-- The method `Ghost::OnWarpingIn`. -/
def Ghost.OnWarpingIn (K : Externals) (pMaze : Maze) (g : Ghost) : Ghost :=
  let g1 := { g with sprite := g.sprite.Update }
  let ghostPoint : SDL_Point := ⟨toInt g1.sprite.x, toInt g1.sprite.y⟩
  let cell := pMaze.GetTileRowCol ghostPoint
  if cell.1 = Constants.WarpRow ∧ (cell.2 = 2 ∨ cell.2 = 25) then
    let s1 := g1.sprite.SetVelocity (2 * g1.sprite.dx) (2 * g1.sprite.dy)
    { g1 with
        sprite := s1
        currentRow := cell.1
        currentCol := cell.2
        mode := Mode.Chase
        pNextDecision := none
        pCurrentDecision := some ⟨cell.1, cell.2, K.CurrentDirection s1⟩ }
  else g1

/-- The method `Ghost::UpdateAnimation`. -/
def Ghost.UpdateAnimation (K : Externals) (g : Ghost) : Direction → Ghost
  | .Up =>
    let s1 := g.sprite.SetVelocity 0 (K.GhostBaseSpeed * (-7 / 4))
    { g with sprite := s1.SetAnimation Constants.AnimationIndexUp }
  | .Down =>
    let s1 := g.sprite.SetVelocity 0 (K.GhostBaseSpeed * (7 / 4))
    { g with sprite := s1.SetAnimation Constants.AnimationIndexDown }
  | .Left =>
    let s1 := g.sprite.SetVelocity (K.GhostBaseSpeed * (-7 / 4)) 0
    { g with sprite := s1.SetAnimation Constants.AnimationIndexLeft }
  | .Right =>
    let s1 := g.sprite.SetVelocity (K.GhostBaseSpeed * (7 / 4)) 0
    { g with sprite := s1.SetAnimation Constants.AnimationIndexRight }
  | .None => g

/-- The first statement of `Ghost::OnChasing` (lines 197-214): the pen release. -/
def Ghost.OnChasing.release (K : Externals) (now : Nat) (pMaze : Maze) (g : Ghost) : Ghost :=
  if g.IsGhostPenned = true then
    if g.penTimer.IsStarted = false then
      { g with penTimer := g.penTimer.Start 5000 now }
    else if g.penTimer.IsDone now = true then
      let exitPoint := pMaze.GetTileCoordinates 17 13
      let s1 := g.sprite.ResetPosition exitPoint.x exitPoint.y
      let s2 := s1.SetAnimation Constants.AnimationIndexUp
      let s3 := s2.SetVelocity 0 (K.GhostBaseSpeed * (-7 / 4))
      { g with sprite := s3, mode := Mode.ExitingPen }
    else g
  else g

/-- The else-branch of the stop test of `Ghost::OnChasing` (lines 231-267), where `cur` is the
non-null `_pCurrentDecision`. -/
def Ghost.OnChasing.advance (K : Externals) (pPlayer : Player) (pMaze : Maze) (g2 : Ghost)
    (cur : Decision) : Option Ghost :=
  let looked : Option Ghost :=
    match g2.pNextDecision with
    | none =>
      match Ghost.GetNextDecision K pPlayer pMaze g2 with
      | none => none
      | some (g', d) => some { g' with pNextDecision := some d }
    | some _ => some g2
  match looked with
  | none => none
  | some g3 =>
    let updatedPoint : SDL_Point := ⟨toInt g3.sprite.x, toInt g3.sprite.y⟩
    let cell := pMaze.GetTileRowCol updatedPoint
    if cell.1 ≠ g3.currentRow ∨ cell.2 ≠ g3.currentCol then
      match g3.pNextDecision with
      | none => none
      | some next =>
        let g4 := { g3 with
          currentRow := cell.1
          currentCol := cell.2
          pCurrentDecision := some next
          pNextDecision := none }
        if g4.IsGhostWarpingOut pMaze = true then
          some { g4 with
            sprite := g4.sprite.SetVelocity (1 / 2 * g4.sprite.dx) (1 / 2 * g4.sprite.dy)
            mode := Mode.WarpingOut }
        else some g4
    else if g3.IsStopped = true then some (Ghost.UpdateAnimation K g3 cur.direction)
    else some g3

/-- The lookahead that opens the else-branch of the stop test of `Ghost::OnChasing` (lines
232-235): a null `_pNextDecision` is computed by `GetNextDecision`. -/
def Ghost.OnChasing.lookahead (K : Externals) (pPlayer : Player) (pMaze : Maze) (g2 : Ghost) :
    Option Ghost :=
  match g2.pNextDecision with
  | none =>
    match Ghost.GetNextDecision K pPlayer pMaze g2 with
    | none => none
    | some (g', d) => some { g' with pNextDecision := some d }
  | some _ => some g2

/-- The rest of the else-branch of the stop test of `Ghost::OnChasing` (lines 238-267), on the
state `g3` that the lookahead leaves: the new-cell test, the promotion and the turn. -/
def Ghost.OnChasing.enter (K : Externals) (pMaze : Maze) (g3 : Ghost) (cur : Decision) :
    Option Ghost :=
  let updatedPoint : SDL_Point := ⟨toInt g3.sprite.x, toInt g3.sprite.y⟩
  let cell := pMaze.GetTileRowCol updatedPoint
  if cell.1 ≠ g3.currentRow ∨ cell.2 ≠ g3.currentCol then
    match g3.pNextDecision with
    | none => none
    | some next =>
      let g4 := { g3 with
        currentRow := cell.1
        currentCol := cell.2
        pCurrentDecision := some next
        pNextDecision := none }
      if g4.IsGhostWarpingOut pMaze = true then
        some { g4 with
          sprite := g4.sprite.SetVelocity (1 / 2 * g4.sprite.dx) (1 / 2 * g4.sprite.dy)
          mode := Mode.WarpingOut }
      else some g4
  else if g3.IsStopped = true then some (Ghost.UpdateAnimation K g3 cur.direction)
  else some g3

/-- The second statement of `Ghost::OnChasing` (lines 217-269), entered when the mode is not
ExitingPen; `none` is a null `_pCurrentDecision` or a failed `SDL_assert`. A null
`_pCurrentDecision` is either dereferenced by the stop test or fails the assertion that opens
the else-branch, so it is `none` before the test. -/
def Ghost.OnChasing.motion (K : Externals) (pPlayer : Player) (pMaze : Maze) (g1 : Ghost) :
    Option Ghost :=
  let centerPoint := pMaze.GetTileCoordinates g1.currentRow g1.currentCol
  let g2 := { g1 with sprite := g1.sprite.Update }
  match g2.pCurrentDecision with
  | none => none
  | some cur =>
    if pMaze.IsSpritePastCenter g2.currentRow g2.currentCol g2.sprite = true ∧
        cur.direction ≠ K.CurrentDirection g2.sprite then
      some ({ g2 with sprite := g2.sprite.ResetPosition centerPoint.x centerPoint.y }).Stop
    else Ghost.OnChasing.advance K pPlayer pMaze g2 cur

/-- The method `Ghost::OnChasing`. -/
def Ghost.OnChasing (K : Externals) (now : Nat) (pPlayer : Player) (pMaze : Maze) (g : Ghost) :
    Option Ghost :=
  let g1 := Ghost.OnChasing.release K now pMaze g
  if g1.mode ≠ Mode.ExitingPen then Ghost.OnChasing.motion K pPlayer pMaze g1 else some g1

/-- The method `Ghost::Update`; `now` is the clock read by the pen timer on this tick. -/
def Ghost.Update (K : Externals) (now : Nat) (pPlayer : Player) (pMaze : Maze) (g : Ghost) :
    Option Ghost :=
  match g.mode with
  | .ExitingPen => some (Ghost.OnExitingPen K pPlayer pMaze g)
  | .WarpingOut => some (Ghost.OnWarpingOut K pMaze g)
  | .WarpingIn => some (Ghost.OnWarpingIn K pMaze g)
  | .Chase => Ghost.OnChasing K now pPlayer pMaze g
  | .Scatter => some g

/-- The constructor `Ghost::Ghost`, on a freshly constructed sprite `s`. -/
def Ghost.new (s : Sprite) : Ghost :=
  { sprite := s
    penTimer := ⟨false, 0, 0⟩
    currentRow := 0
    currentCol := 0
    mode := Mode.Chase
    pNextDecision := none
    pCurrentDecision := none }

/-- The inputs of one tick that change from tick to tick: the clock read by the pen timer
and the player. -/
structure Tick where
  now : Nat
  pPlayer : Player
  deriving DecidableEq, Repr

/-- The calls `_pBlinky->Update(_pPlayer, _pMaze)` of `GameHarness::OnRunning` on successive
ticks of one level; `none` as soon as one of them fails an assertion. -/
def Ghost.run (K : Externals) (pMaze : Maze) : List Tick → Ghost → Option Ghost
  | [], g => some g
  | t :: ts, g =>
    match Ghost.Update K t.now t.pPlayer pMaze g with
    | none => none
    | some g' => Ghost.run K pMaze ts g'

/-! ## Vocabulary of the statements -/

/-- Whether the neighbour of `(r, c)` in direction `d` is non-solid. -/
def Ghost.IsOpen (pMaze : Maze) (r c : Nat) (d : Direction) : Prop :=
  pMaze.IsTileSolid (TranslateCell r c d).1 (TranslateCell r c d).2 = false

instance (pMaze : Maze) (r c : Nat) (d : Direction) : Decidable (Ghost.IsOpen pMaze r c d) := by
  unfold Ghost.IsOpen; infer_instance

/-- A valid candidate of the intersection decision at `(nRow, nCol)` as the spec words it: one
of the four cardinal directions, whose neighbour is non-solid, and which is not the exact
opposite of the heading `CurrentDirection()`. -/
def Blinky.IsCandidate (K : Externals) (g : Ghost) (nRow nCol : Nat) (pMaze : Maze)
    (d : Direction) : Prop :=
  d ≠ Direction.None ∧
    pMaze.IsTileSolid (TranslateCell nRow nCol d).1 (TranslateCell nRow nCol d).2 = false ∧
    d ≠ Opposite (K.CurrentDirection g.sprite)

instance (K : Externals) (g : Ghost) (nRow nCol : Nat) (pMaze : Maze) (d : Direction) :
    Decidable (Blinky.IsCandidate K g nRow nCol pMaze d) := by
  unfold Blinky.IsCandidate; infer_instance

/-- The distance by which the code ranks the neighbour of `(nRow, nCol)` in direction `d`. -/
def Blinky.candidateDistance (pPlayer : Player) (pMaze : Maze) (nRow nCol : Nat)
    (d : Direction) : Root :=
  Blinky.distance pPlayer
    (pMaze.GetTileCoordinates (TranslateCell nRow nCol d).1 (TranslateCell nRow nCol d).2)

/-- Whether the player is near enough to the pixel `point` for the `int` arithmetic of the
distance expression to be exact: both differences are below 32768 pixels in magnitude, so
that the sum of the squares of their truncations fits an `int`. -/
def Blinky.InRange (pPlayer : Player) (point : SDL_Point) : Prop :=
  |pPlayer.x - (point.x : ℚ)| < 32768 ∧ |pPlayer.y - (point.y : ℚ)| < 32768

/-- The invariant of the third loop of `Blinky::MakeBranchDecision`: `s` is the earliest best
valid index below `k`. -/
def Blinky.Best (options : Nat → MAZECELL) (k s : Nat) : Prop :=
  s < k ∧ (options s).valid = true ∧
    ∀ j, j < k → (options j).valid = true →
      (options s).distance ≤ (options j).distance ∧
        ((options j).distance ≤ (options s).distance → s ≤ j)

/-- The index that `Blinky::MakeBranchDecision` switches on. -/
def Blinky.shortest (K : Externals) (g : Ghost) (nRow nCol : Nat) (pPlayer : Player)
    (pMaze : Maze) : Nat :=
  let options : Nat → MAZECELL :=
    fun index => Blinky.evaluate K g pPlayer pMaze index (Blinky.options nRow nCol index)
  Blinky.scan options (4 - (Blinky.findFirst options 4 0 + 1)) (Blinky.findFirst options 4 0 + 1)
    (Blinky.findFirst options 4 0)

/-- The cell of the ghost's truncated position, as `Ghost::GetNextDecision` records it. -/
def Ghost.cell (pMaze : Maze) (g : Ghost) : Nat × Nat :=
  pMaze.GetTileRowCol ⟨toInt g.sprite.x, toInt g.sprite.y⟩

/-- The candidate next cell of `Ghost::GetNextDecision`: one cell from the ghost's cell in the
direction of the current Decision `cur`. -/
def Ghost.lookaheadCell (pMaze : Maze) (g : Ghost) (cur : Decision) : Nat × Nat :=
  TranslateCell (Ghost.cell pMaze g).1 (Ghost.cell pMaze g).2 cur.direction

/-- The square of the exact Euclidean distance from the player's continuous position to the
pixel `point`. -/
def Blinky.euclideanSq (pPlayer : Player) (point : SDL_Point) : ℚ :=
  (pPlayer.x - point.x) ^ 2 + (pPlayer.y - point.y) ^ 2

/-- The mode after the ticks `ticks`, when no assertion fails. -/
def Ghost.modeAfter (K : Externals) (pMaze : Maze) (ticks : List Tick) (g : Ghost) :
    Option Mode :=
  match Ghost.run K pMaze ticks g with
  | none => none
  | some g' => some g'.mode

/-- One complete warp: the ghost is in Chase before the first tick of `ticks`, in WarpingOut
or WarpingIn after each tick but the last, and back in Chase, as `gEnd`, after the last. -/
def Ghost.IsWarpTrip (K : Externals) (pMaze : Maze) (g : Ghost) (ticks : List Tick)
    (gEnd : Ghost) : Prop :=
  g.mode = Mode.Chase ∧ 2 ≤ ticks.length ∧
    (∀ k, k < ticks.length → 0 < k →
      Ghost.modeAfter K pMaze (ticks.take k) g = some Mode.WarpingOut ∨
        Ghost.modeAfter K pMaze (ticks.take k) g = some Mode.WarpingIn) ∧
    Ghost.run K pMaze ticks g = some gEnd ∧ gEnd.mode = Mode.Chase

instance (K : Externals) (pMaze : Maze) (g : Ghost) (ticks : List Tick) (gEnd : Ghost) :
    Decidable (Ghost.IsWarpTrip K pMaze g ticks gEnd) := by
  unfold Ghost.IsWarpTrip; infer_instance

/-- The number of non-solid cardinal neighbours of `(r, c)`. -/
def Ghost.openCount (pMaze : Maze) (r c : Nat) : Nat :=
  ([Direction.Up, Direction.Down, Direction.Left, Direction.Right].filter
    (fun d => decide (Ghost.IsOpen pMaze r c d))).length

/-- The state of a Chase tick after the release step and `Sprite::Update` (line 222). -/
def Ghost.afterAdvance (K : Externals) (now : Nat) (pMaze : Maze) (g : Ghost) : Ghost :=
  { Ghost.OnChasing.release K now pMaze g with
    sprite := (Ghost.OnChasing.release K now pMaze g).sprite.Update }

/-! ## A concrete level

Tiles of 16 by 16 pixels on a 28 by 36 grid at the origin. The open cells are the tunnel row
17, the row 14 above the pen, and the columns 6, 13 and 21 between them. -/

/-- The open cells of the concrete level. -/
def demoOpen (r c : Nat) : Bool :=
  (decide (r = 17) && decide (c < 28)) || (decide (r = 14) && decide (1 ≤ c) && decide (c ≤ 26)) ||
    ((decide (c = 6) || decide (c = 13) || decide (c = 21)) && decide (14 ≤ r) && decide (r ≤ 17))

/-- The concrete level. -/
def demoMaze : Maze where
  IsTileSolid := fun r c => !demoOpen r c
  IsTileIntersection := fun r c =>
    decide (3 ≤ ([Direction.Up, Direction.Down, Direction.Left, Direction.Right].filter
      (fun d => demoOpen (TranslateCell r c d).1 (TranslateCell r c d).2)).length)
  GetTileCoordinates := fun r c => ⟨16 * (c : Int) + 8, 16 * (r : Int) + 8⟩
  GetTileRowCol := fun p => (toUint16 (p.y / 16), toUint16 (p.x / 16))
  IsSpritePastCenter := fun r c s =>
    if s.dx > 0 then decide (((16 * (c : Int) + 8 : Int) : ℚ) ≤ s.x)
    else if s.dx < 0 then decide (s.x ≤ ((16 * (c : Int) + 8 : Int) : ℚ))
    else if s.dy > 0 then decide (((16 * (r : Int) + 8 : Int) : ℚ) ≤ s.y)
    else if s.dy < 0 then decide (s.y ≤ ((16 * (r : Int) + 8 : Int) : ℚ))
    else false
  GetMapBounds := ⟨0, 0, 448, 576⟩

/-- Concrete Sprite queries: the heading is read off the velocity, a sprite of width 32 is
out of view when it is wholly left or right of the map. -/
def demoK : Externals where
  GhostBaseSpeed := 1
  CurrentDirection := fun s =>
    if s.dx > 0 then Direction.Right
    else if s.dx < 0 then Direction.Left
    else if s.dy > 0 then Direction.Down
    else if s.dy < 0 then Direction.Up
    else Direction.None
  IsOutOfView := fun s rect =>
    decide (s.x + 32 < (rect.x : ℚ)) || decide (((rect.x + rect.w : Int) : ℚ) < s.x)
  Width := 32

/-- A ghost at the centre of cell (14, 12), heading right toward the intersection (14, 13). -/
def demoGhost : Ghost :=
  { sprite := ⟨200, 232, 7 / 4, 0, Constants.AnimationIndexRight⟩
    penTimer := ⟨false, 0, 0⟩
    currentRow := 14
    currentCol := 12
    mode := Mode.Chase
    pNextDecision := none
    pCurrentDecision := some ⟨14, 12, Direction.Right⟩ }

/-- A player at the centre of cell (17, 13), below the intersection (14, 13). -/
def demoPlayer : Player := ⟨216, 280⟩

/-- The ticks of a run: `n` ticks 16 ms apart, the player standing still. -/
def demoTicks (n : Nat) : List Tick := (List.range n).map (fun i => ⟨16 * i, demoPlayer⟩)

/-- A newly constructed ghost after `Blinky::Reset`. -/
def demoFreshGhost : Ghost := (Blinky.Reset demoK demoMaze (Ghost.new ⟨0, 0, 0, 0, 0⟩)).1

/-- The fresh ghost four ticks later. -/
def demoFreshGhost4 : Ghost :=
  { sprite := ⟨216, 273, 0, -7 / 4, Constants.AnimationIndexUp⟩
    penTimer := ⟨true, 0, 5000⟩
    currentRow := 17
    currentCol := 13
    mode := Mode.Chase
    pNextDecision := some ⟨16, 13, Direction.Up⟩
    pCurrentDecision := some ⟨17, 13, Direction.Up⟩ }

/-- A ghost in the tunnel at the centre of cell (17, 2), heading left. -/
def demoTunnelGhost : Ghost :=
  { sprite := ⟨40, 280, -7 / 4, 0, Constants.AnimationIndexLeft⟩
    penTimer := ⟨false, 0, 0⟩
    currentRow := 17
    currentCol := 2
    mode := Mode.Chase
    pNextDecision := none
    pCurrentDecision := some ⟨17, 2, Direction.Left⟩ }

/-- The tunnel ghost five ticks later: it has entered the warp cell (17, 1). -/
def demoTunnelGhost5 : Ghost :=
  { sprite := ⟨125 / 4, 280, -7 / 8, 0, Constants.AnimationIndexLeft⟩
    penTimer := ⟨false, 0, 0⟩
    currentRow := 17
    currentCol := 1
    mode := Mode.WarpingOut
    pNextDecision := none
    pCurrentDecision := some ⟨17, 1, Direction.Left⟩ }

/-- The fresh ghost after its first tick, at time 10. -/
def demoFreshGhost1 : Ghost :=
  { sprite := ⟨216, 1113 / 4, 0, -7 / 4, Constants.AnimationIndexUp⟩
    penTimer := ⟨true, 10, 5000⟩
    currentRow := 17
    currentCol := 13
    mode := Mode.Chase
    pNextDecision := some ⟨16, 13, Direction.Up⟩
    pCurrentDecision := some ⟨17, 13, Direction.Up⟩ }

/-- A ghost waiting in the pen whose release timer was started at time 0. -/
def demoPenGhost : Ghost :=
  { sprite := ⟨216, 280, 0, -7 / 4, Constants.AnimationIndexUp⟩
    penTimer := ⟨true, 0, 5000⟩
    currentRow := 17
    currentCol := 13
    mode := Mode.Chase
    pNextDecision := some ⟨16, 13, Direction.Up⟩
    pCurrentDecision := some ⟨17, 13, Direction.Up⟩ }

/-- The waiting ghost after a tick before time 5000. -/
def demoPenGhostNext : Ghost :=
  { demoPenGhost with sprite := ⟨216, 1113 / 4, 0, -7 / 4, Constants.AnimationIndexUp⟩ }

/-- The waiting ghost after the tick at time 5000. -/
def demoReleasedGhost : Ghost :=
  { demoPenGhost with
    sprite := ⟨216, 280, 0, -7 / 4, Constants.AnimationIndexUp⟩
    mode := Mode.ExitingPen }

/-- A ghost on its way out of the pen, one tick below the centre of the exit cell (14, 13). -/
def demoExitingGhost : Ghost :=
  { demoReleasedGhost with sprite := ⟨216, 233, 0, -7 / 4, Constants.AnimationIndexUp⟩ }

/-- A fast ghost in the tunnel at the centre of cell (17, 2), heading left, with its
lookahead for the warp cell (17, 1) cached. -/
def demoWarpGhost : Ghost :=
  { sprite := ⟨40, 280, -14, 0, Constants.AnimationIndexLeft⟩
    penTimer := ⟨false, 0, 0⟩
    currentRow := 17
    currentCol := 2
    mode := Mode.Chase
    pNextDecision := some ⟨17, 1, Direction.Left⟩
    pCurrentDecision := some ⟨17, 2, Direction.Left⟩ }

/-- The fast ghost after 20 ticks: out through the left edge, in through the right edge, and
back in Chase at the re-entry cell (17, 25). -/
def demoWarpGhost20 : Ghost :=
  { sprite := ⟨410, 280, -14, 0, Constants.AnimationIndexLeft⟩
    penTimer := ⟨false, 0, 0⟩
    currentRow := 17
    currentCol := 25
    mode := Mode.Chase
    pNextDecision := none
    pCurrentDecision := some ⟨17, 25, Direction.Left⟩ }

/-- The fast ghost one tick later: in the warp cell (17, 1) at half speed. -/
def demoWarpGhost1 : Ghost :=
  { sprite := ⟨26, 280, -7, 0, Constants.AnimationIndexLeft⟩
    penTimer := ⟨false, 0, 0⟩
    currentRow := 17
    currentCol := 1
    mode := Mode.WarpingOut
    pNextDecision := none
    pCurrentDecision := some ⟨17, 1, Direction.Left⟩ }

/-- The fast ghost nine ticks later: one tick before it is out of view on the left. -/
def demoWarpOutGhost : Ghost :=
  { demoWarpGhost1 with sprite := ⟨-30, 280, -7, 0, Constants.AnimationIndexLeft⟩ }

/-- The fast ghost nineteen ticks later: coming in from the right, one tick before the
re-entry cell (17, 25). -/
def demoWarpInGhost : Ghost :=
  { demoWarpGhost1 with
    sprite := ⟨417, 280, -7, 0, Constants.AnimationIndexLeft⟩
    mode := Mode.WarpingIn }

/-- A player in the tunnel row, in cell (17, 16), at a fractional X. -/
def demoFractionPlayer : Player := ⟨1059 / 4, 280⟩

/-- A stopped ghost at the centre of cell (14, 12) whose current Decision has the direction
None, with a lookahead cached. -/
def demoStoppedGhost : Ghost :=
  { sprite := ⟨200, 232, 0, 0, Constants.AnimationIndexRight⟩
    penTimer := ⟨false, 0, 0⟩
    currentRow := 14
    currentCol := 12
    mode := Mode.Chase
    pNextDecision := some ⟨14, 13, Direction.Down⟩
    pCurrentDecision := some ⟨14, 12, Direction.None⟩ }

/-- A ghost whose mode is Scatter. -/
def demoScatterGhost : Ghost := { demoGhost with mode := Mode.Scatter }

/-- A ghost in the concrete level that has just entered cell (14, 2) on its way left along
row 14, toward the dead end (14, 1). -/
def demoDeadEndGhost : Ghost :=
  { sprite := ⟨47, 232, -7 / 4, 0, Constants.AnimationIndexLeft⟩
    penTimer := ⟨false, 0, 0⟩
    currentRow := 14
    currentCol := 2
    mode := Mode.Chase
    pNextDecision := none
    pCurrentDecision := some ⟨14, 2, Direction.Left⟩ }

/-! ## Two more concrete levels -/

/-- The level of the end-to-end scenario: a corridor along row 10 crossed by column 10 at the
intersection (10, 10), tiles of 16 by 16 pixels; the tile centres of the candidates (9, 10),
(11, 10) and (10, 11) are stubbed at 8, 3 and 6 pixels from the pixel (88, 168), the distances
that the scenario gives. -/
def scenarioMaze : Maze where
  IsTileSolid := fun r c =>
    !((decide (r = 10) && decide (1 ≤ c) && decide (c ≤ 11)) ||
      (decide (c = 10) && decide (9 ≤ r) && decide (r ≤ 11)))
  IsTileIntersection := fun r c => decide (r = 10) && decide (c = 10)
  GetTileCoordinates := fun r c =>
    if r = 9 ∧ c = 10 then ⟨96, 168⟩
    else if r = 11 ∧ c = 10 then ⟨88, 171⟩
    else if r = 10 ∧ c = 11 then ⟨94, 168⟩
    else ⟨16 * (c : Int) + 8, 16 * (r : Int) + 8⟩
  GetTileRowCol := fun p => (toUint16 (p.y / 16), toUint16 (p.x / 16))
  IsSpritePastCenter := fun _ _ _ => false
  GetMapBounds := ⟨0, 0, 448, 576⟩

/-- The player of the scenario, at the pixel (88, 168) of tile (10, 5). -/
def scenarioPlayer : Player := ⟨88, 168⟩

/-- The ghost of the scenario: in cell (10, 9), heading right toward the intersection
(10, 10). -/
def scenarioGhost : Ghost :=
  { sprite := ⟨152, 168, 7 / 4, 0, Constants.AnimationIndexRight⟩
    penTimer := ⟨false, 0, 0⟩
    currentRow := 10
    currentCol := 9
    mode := Mode.Chase
    pNextDecision := none
    pCurrentDecision := some ⟨10, 9, Direction.Right⟩ }

/-- The open cells of the corner level: a corridor along row 10 from column 1 to the corner
(10, 10), column 10 from row 5 down to that corner, and a corridor along row 9 from the
intersection (9, 10) to column 15. -/
def cornerOpen (r c : Nat) : Bool :=
  (decide (r = 10) && decide (1 ≤ c) && decide (c ≤ 10)) ||
    (decide (c = 10) && decide (5 ≤ r) && decide (r ≤ 10)) ||
    (decide (r = 9) && decide (10 ≤ c) && decide (c ≤ 15))

/-- The corner level, on the grid of the first level. -/
def cornerMaze : Maze :=
  { demoMaze with
    IsTileSolid := fun r c => !cornerOpen r c
    IsTileIntersection := fun r c =>
      decide (3 ≤ ([Direction.Up, Direction.Down, Direction.Left, Direction.Right].filter
        (fun d => cornerOpen (TranslateCell r c d).1 (TranslateCell r c d).2)).length) }

/-- A ghost at the centre of cell (10, 9) of the corner level, heading right toward the
corner (10, 10). -/
def cornerGhost : Ghost := scenarioGhost

/-- The ticks of a run in the corner level: `n` ticks 16 ms apart, the player standing at the
centre of cell (10, 5). -/
def cornerTicks (n : Nat) : List Tick := (List.range n).map (fun i => ⟨16 * i, scenarioPlayer⟩)

/-- The ghost of the corner level four ticks later: one tick before it enters the corner
cell (10, 10), the turn Up at the corner cached. -/
def cornerGhost4 : Ghost :=
  { cornerGhost with
    sprite := ⟨159, 168, 7 / 4, 0, Constants.AnimationIndexRight⟩
    pNextDecision := some ⟨10, 10, Direction.Up⟩ }

/-- The ghost of the corner level five ticks later: it has entered the corner cell (10, 10),
still heading right, and its current Decision is the turn Up. -/
def cornerGhost5 : Ghost :=
  { sprite := ⟨643 / 4, 168, 7 / 4, 0, Constants.AnimationIndexRight⟩
    penTimer := ⟨false, 0, 0⟩
    currentRow := 10
    currentCol := 10
    mode := Mode.Chase
    pNextDecision := none
    pCurrentDecision := some ⟨10, 10, Direction.Up⟩ }

/-- The ghost of the corner level nine ticks later: one tick before it passes the centre of
the corner cell. -/
def cornerGhost9 : Ghost :=
  { cornerGhost5 with
    sprite := ⟨671 / 4, 168, 7 / 4, 0, Constants.AnimationIndexRight⟩
    pNextDecision := some ⟨9, 10, Direction.Down⟩ }

/-- The ghost of the corner level ten ticks later: stopped at the centre of the corner
cell. -/
def cornerGhost10 : Ghost :=
  { cornerGhost9 with sprite := ⟨168, 168, 0, 0, Constants.AnimationIndexRight⟩ }

/-- The ghost of the corner level eleven ticks later: it has made its turn Up. -/
def cornerGhost11 : Ghost :=
  { cornerGhost9 with sprite := ⟨168, 168, 0, -7 / 4, Constants.AnimationIndexUp⟩ }

/-! ## Theorems -/

/-! ### The intersection decision (C1, C2) -/

theorem Root.lt_iff (a b : Root) : a < b ↔ 0 ≤ a.radicand ∧ a.radicand < b.radicand := Iff.rfl

theorem Root.le_iff (a b : Root) : a ≤ b ↔ 0 ≤ a.radicand ∧ a.radicand ≤ b.radicand := Iff.rfl

/-- An `int` result that fits an `int` is not changed by the wraparound. -/
theorem toInt32_of_fits (i : Int) (h0 : -2147483648 ≤ i) (h1 : i < 2147483648) :
    toInt32 i = i := by
  unfold toInt32
  omega

/-- The conversion to `int` does not increase the magnitude. -/
theorem toInt_abs_le (d : ℚ) (n : Int) (h : |d| < (n : ℚ)) : |toInt d| < n := by
  unfold toInt
  split_ifs with h0
  · have hf : (0 : Int) ≤ ⌊d⌋ := Int.floor_nonneg.2 h0
    rw [abs_of_nonneg hf]
    rw [abs_of_nonneg h0] at h
    exact Int.floor_lt.2 h
  · have h0' : 0 ≤ -d := by linarith
    have hf : (0 : Int) ≤ ⌊-d⌋ := Int.floor_nonneg.2 h0'
    rw [abs_neg, abs_of_nonneg hf]
    rw [← abs_neg, abs_of_nonneg h0'] at h
    exact Int.floor_lt.2 h

/-- Within range the distance expression is exact: its radicand is the sum of the squares of
the truncated differences, and it is not NaN. -/
theorem Blinky.distance_in_range (pPlayer : Player) (point : SDL_Point)
    (h : Blinky.InRange pPlayer point) :
    (Blinky.distance pPlayer point).radicand =
        toInt (pPlayer.x - point.x) * toInt (pPlayer.x - point.x) +
          toInt (pPlayer.y - point.y) * toInt (pPlayer.y - point.y) ∧
      0 ≤ (Blinky.distance pPlayer point).radicand := by
  obtain ⟨hx, hy⟩ := h
  have ax := toInt_abs_le (pPlayer.x - point.x) 32768 (by exact_mod_cast hx)
  have ay := toInt_abs_le (pPlayer.y - point.y) 32768 (by exact_mod_cast hy)
  have sx : SDL_abs (toInt (pPlayer.x - point.x)) * SDL_abs (toInt (pPlayer.x - point.x)) =
      toInt (pPlayer.x - point.x) * toInt (pPlayer.x - point.x) := abs_mul_abs_self _
  have sy : SDL_abs (toInt (pPlayer.y - point.y)) * SDL_abs (toInt (pPlayer.y - point.y)) =
      toInt (pPlayer.y - point.y) * toInt (pPlayer.y - point.y) := abs_mul_abs_self _
  have bx : toInt (pPlayer.x - point.x) * toInt (pPlayer.x - point.x) ≤ 32767 * 32767 := by
    have := abs_lt.1 ax
    nlinarith
  have by' : toInt (pPlayer.y - point.y) * toInt (pPlayer.y - point.y) ≤ 32767 * 32767 := by
    have := abs_lt.1 ay
    nlinarith
  have px := mul_self_nonneg (toInt (pPlayer.x - point.x))
  have py := mul_self_nonneg (toInt (pPlayer.y - point.y))
  have e : (Blinky.distance pPlayer point).radicand =
      toInt (pPlayer.x - point.x) * toInt (pPlayer.x - point.x) +
        toInt (pPlayer.y - point.y) * toInt (pPlayer.y - point.y) := by
    unfold Blinky.distance SDL_sqrt
    dsimp only
    rw [sx, sy,
      toInt32_of_fits (toInt (pPlayer.x - point.x) * toInt (pPlayer.x - point.x))
        (by omega) (by omega),
      toInt32_of_fits (toInt (pPlayer.y - point.y) * toInt (pPlayer.y - point.y))
        (by omega) (by omega),
      toInt32_of_fits _ (by omega) (by omega)]
  exact ⟨e, by rw [e]; omega⟩

theorem Blinky.findFirst_spec (options : Nat → MAZECELL) :
    ∀ (fuel index : Nat),
      (∃ j, index ≤ j ∧ j < index + fuel ∧ (options j).valid = true) →
      Blinky.findFirst options fuel index < index + fuel ∧
      (options (Blinky.findFirst options fuel index)).valid = true ∧
      ∀ j, index ≤ j → j < Blinky.findFirst options fuel index → (options j).valid = false := by
  intro fuel
  induction fuel with
  | zero =>
    rintro index ⟨j, h1, h2, _⟩
    omega
  | succ n ih =>
    rintro index ⟨j, h1, h2, h3⟩
    unfold Blinky.findFirst
    by_cases hv : (options index).valid = true
    · rw [if_pos hv]
      refine ⟨by omega, hv, ?_⟩
      intro k hk1 hk2
      omega
    · rw [if_neg hv]
      have hj : index + 1 ≤ j := by
        rcases Nat.eq_or_lt_of_le h1 with h | h
        · subst h; exact absurd h3 hv
        · exact h
      obtain ⟨a, b, c⟩ := ih (index + 1) ⟨j, hj, by omega, h3⟩
      refine ⟨by omega, b, ?_⟩
      intro k hk1 hk2
      rcases Nat.eq_or_lt_of_le hk1 with h | h
      · subst h; simpa using hv
      · exact c k h hk2

theorem Blinky.scan_spec (options : Nat → MAZECELL) :
    ∀ (fuel index s : Nat),
      (∀ j, j < index + fuel → (options j).valid = true → 0 ≤ (options j).distance.radicand) →
      Blinky.Best options index s →
      Blinky.Best options (index + fuel) (Blinky.scan options fuel index s) := by
  intro fuel
  induction fuel with
  | zero => intro index s _ h; simpa [Blinky.scan] using h
  | succ n ih =>
    intro index s hreal h
    unfold Blinky.scan
    have key : Blinky.Best options (index + 1)
        (if (options index).distance < (options s).distance && (options index).valid
          then index else s) := by
      obtain ⟨h1, h2, h3⟩ := h
      by_cases hc : ((options index).distance < (options s).distance) ∧ (options index).valid = true
      · have hc' : (decide ((options index).distance < (options s).distance) &&
            (options index).valid) = true := by simp [hc.1, hc.2]
        rw [if_pos hc']
        refine ⟨by omega, hc.2, ?_⟩
        intro j hj hv
        rcases Nat.eq_or_lt_of_le (Nat.lt_succ_iff.mp hj) with e | l
        · subst e
          exact ⟨(Root.le_iff _ _).2 ⟨hreal j (by omega) hv, le_refl _⟩, fun _ => le_refl _⟩
        · obtain ⟨a, b⟩ := h3 j l hv
          have hlt := hc.1
          rw [Root.lt_iff] at hlt
          rw [Root.le_iff] at a
          constructor
          · rw [Root.le_iff]; omega
          · intro hle; rw [Root.le_iff] at hle; omega
      · have hc' : ¬ ((decide ((options index).distance < (options s).distance) &&
            (options index).valid) = true) := by
          simpa using hc
        rw [if_neg hc']
        refine ⟨by omega, h2, ?_⟩
        intro j hj hv
        rcases Nat.eq_or_lt_of_le (Nat.lt_succ_iff.mp hj) with e | l
        · subst e
          have hnl : ¬ (options j).distance < (options s).distance := fun h => hc ⟨h, hv⟩
          rw [Root.lt_iff] at hnl
          have hj0 := hreal j (by omega) hv
          have hs0 := hreal s (by omega) h2
          constructor
          · rw [Root.le_iff]; omega
          · intro _; omega
        · exact h3 j l hv
    have := ih (index + 1) _ (fun j hj hv => hreal j (by omega) hv) key
    have e : index + (n + 1) = index + 1 + n := by omega
    rw [e]
    exact this

theorem Blinky.options_cell (nRow nCol i : Nat) (hi : i < 4) :
    ((Blinky.options nRow nCol i).row, (Blinky.options nRow nCol i).col) =
      TranslateCell nRow nCol (Direction.ofIndex i) := by
  interval_cases i <;> rfl

theorem Direction.ofIndex_toIndex (d : Direction) : Direction.ofIndex d.toIndex = d := by
  cases d <;> rfl

theorem Direction.toIndex_lt (d : Direction) (h : d ≠ Direction.None) : d.toIndex < 4 := by
  cases d <;> simp [Direction.toIndex] at * 

theorem Direction.ofIndex_ne_None (i : Nat) (hi : i < 4) : Direction.ofIndex i ≠ Direction.None := by
  interval_cases i <;> simp [Direction.ofIndex]

theorem Direction.toIndex_ofIndex (i : Nat) (hi : i < 4) : (Direction.ofIndex i).toIndex = i := by
  interval_cases i <;> rfl

theorem Opposite_eq_iff (d h : Direction) (hd : d ≠ Direction.None) :
    Opposite d = h ↔ d = Opposite h := by
  cases d <;> cases h <;> simp [Opposite] at *

theorem Blinky.evaluate_valid_eq (K : Externals) (g : Ghost) (pPlayer : Player) (pMaze : Maze)
    (i : Nat) (o : MAZECELL) :
    (Blinky.evaluate K g pPlayer pMaze i o).valid =
      (if Opposite (Direction.ofIndex i) = K.CurrentDirection g.sprite then false
        else !(pMaze.IsTileSolid o.row o.col)) := by
  unfold Blinky.evaluate
  dsimp only
  split_ifs <;> rfl

theorem Blinky.evaluate_distance_eq (K : Externals) (g : Ghost) (pPlayer : Player) (pMaze : Maze)
    (i : Nat) (o : MAZECELL) (hv : (Blinky.evaluate K g pPlayer pMaze i o).valid = true) :
    (Blinky.evaluate K g pPlayer pMaze i o).distance =
      Blinky.distance pPlayer (pMaze.GetTileCoordinates o.row o.col) := by
  rw [Blinky.evaluate_valid_eq] at hv
  unfold Blinky.evaluate
  dsimp only
  rw [if_pos hv]

theorem Blinky.evaluate_valid (K : Externals) (g : Ghost) (pPlayer : Player) (pMaze : Maze)
    (nRow nCol i : Nat) (hi : i < 4) :
    (Blinky.evaluate K g pPlayer pMaze i (Blinky.options nRow nCol i)).valid = true ↔
      Blinky.IsCandidate K g nRow nCol pMaze (Direction.ofIndex i) := by
  have hc := Blinky.options_cell nRow nCol i hi
  have hr : (Blinky.options nRow nCol i).row = (TranslateCell nRow nCol (Direction.ofIndex i)).1 :=
    congrArg Prod.fst hc
  have hcol : (Blinky.options nRow nCol i).col = (TranslateCell nRow nCol (Direction.ofIndex i)).2 :=
    congrArg Prod.snd hc
  have hn := Direction.ofIndex_ne_None i hi
  have ho := Opposite_eq_iff (Direction.ofIndex i) (K.CurrentDirection g.sprite) hn
  rw [Blinky.evaluate_valid_eq, hr, hcol]
  unfold Blinky.IsCandidate
  by_cases h1 : Opposite (Direction.ofIndex i) = K.CurrentDirection g.sprite
  · rw [if_pos h1]
    constructor
    · intro h; exact absurd h (by decide)
    · intro h; exact absurd (ho.1 h1) h.2.2
  · rw [if_neg h1]
    have h2 : Direction.ofIndex i ≠ Opposite (K.CurrentDirection g.sprite) := fun e => h1 (ho.2 e)
    constructor
    · intro h
      refine ⟨hn, ?_, h2⟩
      simpa using h
    · intro h
      simpa using h.2.1

theorem Blinky.evaluate_distance (K : Externals) (g : Ghost) (pPlayer : Player) (pMaze : Maze)
    (nRow nCol i : Nat) (hi : i < 4)
    (hv : (Blinky.evaluate K g pPlayer pMaze i (Blinky.options nRow nCol i)).valid = true) :
    (Blinky.evaluate K g pPlayer pMaze i (Blinky.options nRow nCol i)).distance =
      Blinky.candidateDistance pPlayer pMaze nRow nCol (Direction.ofIndex i) := by
  have hc := Blinky.options_cell nRow nCol i hi
  have hr : (Blinky.options nRow nCol i).row = (TranslateCell nRow nCol (Direction.ofIndex i)).1 :=
    congrArg Prod.fst hc
  have hcol : (Blinky.options nRow nCol i).col = (TranslateCell nRow nCol (Direction.ofIndex i)).2 :=
    congrArg Prod.snd hc
  rw [Blinky.evaluate_distance_eq K g pPlayer pMaze i _ hv, hr, hcol]
  rfl

theorem Blinky.shortest_best (K : Externals) (g : Ghost) (nRow nCol : Nat) (pPlayer : Player)
    (pMaze : Maze) (hex : ∃ d, Blinky.IsCandidate K g nRow nCol pMaze d)
    (hreal : ∀ e, Blinky.IsCandidate K g nRow nCol pMaze e →
      ¬ (Blinky.candidateDistance pPlayer pMaze nRow nCol e).IsNaN) :
    Blinky.Best (fun index => Blinky.evaluate K g pPlayer pMaze index (Blinky.options nRow nCol index))
      4 (Blinky.shortest K g nRow nCol pPlayer pMaze) := by
  have hreal4 : ∀ j, j < 4 →
      (Blinky.evaluate K g pPlayer pMaze j (Blinky.options nRow nCol j)).valid = true →
      0 ≤ (Blinky.evaluate K g pPlayer pMaze j (Blinky.options nRow nCol j)).distance.radicand := by
    intro j hj hv
    rw [Blinky.evaluate_distance K g pPlayer pMaze nRow nCol j hj hv]
    exact not_lt.1 (hreal _ ((Blinky.evaluate_valid K g pPlayer pMaze nRow nCol j hj).1 hv))
  obtain ⟨d, hd⟩ := hex
  have hlt := Direction.toIndex_lt d hd.1
  have hv : (Blinky.evaluate K g pPlayer pMaze d.toIndex (Blinky.options nRow nCol d.toIndex)).valid
      = true := by
    rw [Blinky.evaluate_valid K g pPlayer pMaze nRow nCol _ hlt, Direction.ofIndex_toIndex]
    exact hd
  obtain ⟨a, b, c⟩ := Blinky.findFirst_spec
    (fun index => Blinky.evaluate K g pPlayer pMaze index (Blinky.options nRow nCol index)) 4 0
    ⟨d.toIndex, Nat.zero_le _, by omega, hv⟩
  have hinit : Blinky.Best
      (fun index => Blinky.evaluate K g pPlayer pMaze index (Blinky.options nRow nCol index))
      (Blinky.findFirst (fun index =>
        Blinky.evaluate K g pPlayer pMaze index (Blinky.options nRow nCol index)) 4 0 + 1)
      (Blinky.findFirst (fun index =>
        Blinky.evaluate K g pPlayer pMaze index (Blinky.options nRow nCol index)) 4 0) := by
    refine ⟨by omega, b, ?_⟩
    intro j hj hjv
    have hjs : j = Blinky.findFirst (fun index =>
        Blinky.evaluate K g pPlayer pMaze index (Blinky.options nRow nCol index)) 4 0 := by
      rcases Nat.eq_or_lt_of_le (Nat.lt_succ_iff.mp hj) with e | l
      · exact e
      · have := c j (Nat.zero_le _) l
        rw [this] at hjv
        exact absurd hjv (by decide)
    rw [← hjs]
    exact ⟨(Root.le_iff _ _).2 ⟨hreal4 j (by omega) hjv, le_refl _⟩, fun _ => le_refl _⟩
  have := Blinky.scan_spec _ (4 - (Blinky.findFirst (fun index =>
        Blinky.evaluate K g pPlayer pMaze index (Blinky.options nRow nCol index)) 4 0 + 1)) _ _
    (fun j hj hv => hreal4 j (by omega) hv) hinit
  have e : Blinky.findFirst (fun index =>
        Blinky.evaluate K g pPlayer pMaze index (Blinky.options nRow nCol index)) 4 0 + 1 +
      (4 - (Blinky.findFirst (fun index =>
        Blinky.evaluate K g pPlayer pMaze index (Blinky.options nRow nCol index)) 4 0 + 1)) = 4 := by
    omega
  rw [e] at this
  exact this

theorem Blinky.MakeBranchDecision_eq (K : Externals) (g : Ghost) (nRow nCol : Nat)
    (pPlayer : Player) (pMaze : Maze) (hI : pMaze.IsTileIntersection nRow nCol = true)
    (hs : Blinky.shortest K g nRow nCol pPlayer pMaze < 4)
    (hv : (Blinky.evaluate K g pPlayer pMaze (Blinky.shortest K g nRow nCol pPlayer pMaze)
      (Blinky.options nRow nCol (Blinky.shortest K g nRow nCol pPlayer pMaze))).valid = true) :
    Blinky.MakeBranchDecision K g nRow nCol pPlayer pMaze =
      some (Direction.ofIndex (Blinky.shortest K g nRow nCol pPlayer pMaze)) := by
  unfold Blinky.MakeBranchDecision
  rw [if_pos hI]
  dsimp only
  change (if (Blinky.evaluate K g pPlayer pMaze (Blinky.shortest K g nRow nCol pPlayer pMaze)
      (Blinky.options nRow nCol (Blinky.shortest K g nRow nCol pPlayer pMaze))).valid = true then
        (match Blinky.shortest K g nRow nCol pPlayer pMaze with
          | 0 => some Direction.Up
          | 1 => some Direction.Down
          | 2 => some Direction.Left
          | 3 => some Direction.Right
          | _ => some (K.CurrentDirection g.sprite)) else none) = _
  rw [if_pos hv]
  generalize Blinky.shortest K g nRow nCol pPlayer pMaze = s at hs
  interval_cases s <;> rfl

theorem Blinky.findFirst_range (options : Nat → MAZECELL) :
    ∀ (fuel index : Nat), Blinky.findFirst options fuel index = 0 ∨
      (index ≤ Blinky.findFirst options fuel index ∧
        Blinky.findFirst options fuel index < index + fuel) := by
  intro fuel
  induction fuel with
  | zero => intro index; left; rfl
  | succ n ih =>
    intro index
    unfold Blinky.findFirst
    split_ifs
    · right; omega
    · rcases ih (index + 1) with h | h
      · left; exact h
      · right; omega

theorem Blinky.scan_range (options : Nat → MAZECELL) :
    ∀ (fuel index s : Nat), Blinky.scan options fuel index s = s ∨
      (index ≤ Blinky.scan options fuel index s ∧
        Blinky.scan options fuel index s < index + fuel) := by
  intro fuel
  induction fuel with
  | zero => intro index s; left; rfl
  | succ n ih =>
    intro index s
    unfold Blinky.scan
    split_ifs
    · rcases ih (index + 1) index with h | h
      · right; omega
      · right; omega
    · rcases ih (index + 1) s with h | h
      · left; exact h
      · right; omega

theorem Blinky.shortest_lt (K : Externals) (g : Ghost) (nRow nCol : Nat) (pPlayer : Player)
    (pMaze : Maze) : Blinky.shortest K g nRow nCol pPlayer pMaze < 4 := by
  unfold Blinky.shortest
  dsimp only
  have h0 := Blinky.findFirst_range
    (fun index => Blinky.evaluate K g pPlayer pMaze index (Blinky.options nRow nCol index)) 4 0
  have h1 := Blinky.scan_range
    (fun index => Blinky.evaluate K g pPlayer pMaze index (Blinky.options nRow nCol index))
    (4 - (Blinky.findFirst (fun index =>
      Blinky.evaluate K g pPlayer pMaze index (Blinky.options nRow nCol index)) 4 0 + 1))
    (Blinky.findFirst (fun index =>
      Blinky.evaluate K g pPlayer pMaze index (Blinky.options nRow nCol index)) 4 0 + 1)
    (Blinky.findFirst (fun index =>
      Blinky.evaluate K g pPlayer pMaze index (Blinky.options nRow nCol index)) 4 0)
  omega

/-- The third loop of `Blinky::MakeBranchDecision` moves from a valid index to valid indices
only, whatever the distances. -/
theorem Blinky.scan_valid (options : Nat → MAZECELL) :
    ∀ (fuel index s : Nat), (options s).valid = true →
      (options (Blinky.scan options fuel index s)).valid = true := by
  intro fuel
  induction fuel with
  | zero => intro index s h; exact h
  | succ n ih =>
    intro index s h
    unfold Blinky.scan
    apply ih
    split_ifs with hc
    · simp only [Bool.and_eq_true] at hc
      exact hc.2
    · exact h

/-- With a valid candidate the index that `Blinky::MakeBranchDecision` switches on is valid,
whatever the distances. -/
theorem Blinky.shortest_valid (K : Externals) (g : Ghost) (nRow nCol : Nat) (pPlayer : Player)
    (pMaze : Maze) (hex : ∃ d, Blinky.IsCandidate K g nRow nCol pMaze d) :
    Blinky.shortest K g nRow nCol pPlayer pMaze < 4 ∧
      (Blinky.evaluate K g pPlayer pMaze (Blinky.shortest K g nRow nCol pPlayer pMaze)
        (Blinky.options nRow nCol (Blinky.shortest K g nRow nCol pPlayer pMaze))).valid = true := by
  refine ⟨Blinky.shortest_lt K g nRow nCol pPlayer pMaze, ?_⟩
  obtain ⟨d, hd⟩ := hex
  have hlt := Direction.toIndex_lt d hd.1
  have hv : (Blinky.evaluate K g pPlayer pMaze d.toIndex (Blinky.options nRow nCol d.toIndex)).valid
      = true := by
    rw [Blinky.evaluate_valid K g pPlayer pMaze nRow nCol _ hlt, Direction.ofIndex_toIndex]
    exact hd
  obtain ⟨_, b, _⟩ := Blinky.findFirst_spec
    (fun index => Blinky.evaluate K g pPlayer pMaze index (Blinky.options nRow nCol index)) 4 0
    ⟨d.toIndex, Nat.zero_le _, by omega, hv⟩
  exact Blinky.scan_valid
    (fun index => Blinky.evaluate K g pPlayer pMaze index (Blinky.options nRow nCol index)) _ _ _ b

theorem Blinky.MakeBranchDecision_some (K : Externals) (g : Ghost) (nRow nCol : Nat)
    (pPlayer : Player) (pMaze : Maze) (d : Direction)
    (h : Blinky.MakeBranchDecision K g nRow nCol pPlayer pMaze = some d) :
    pMaze.IsTileIntersection nRow nCol = true ∧
      d = Direction.ofIndex (Blinky.shortest K g nRow nCol pPlayer pMaze) ∧
      Blinky.IsCandidate K g nRow nCol pMaze d := by
  have hs := Blinky.shortest_lt K g nRow nCol pPlayer pMaze
  by_cases hI : pMaze.IsTileIntersection nRow nCol = true
  · by_cases hv : (Blinky.evaluate K g pPlayer pMaze (Blinky.shortest K g nRow nCol pPlayer pMaze)
        (Blinky.options nRow nCol (Blinky.shortest K g nRow nCol pPlayer pMaze))).valid = true
    · rw [Blinky.MakeBranchDecision_eq K g nRow nCol pPlayer pMaze hI hs hv] at h
      have hd : d = Direction.ofIndex (Blinky.shortest K g nRow nCol pPlayer pMaze) :=
        (Option.some.inj h).symm
      refine ⟨hI, hd, ?_⟩
      rw [hd]
      exact (Blinky.evaluate_valid K g pPlayer pMaze nRow nCol _ hs).1 hv
    · exfalso
      unfold Blinky.MakeBranchDecision at h
      rw [if_pos hI] at h
      dsimp only at h
      change (if (Blinky.evaluate K g pPlayer pMaze (Blinky.shortest K g nRow nCol pPlayer pMaze)
        (Blinky.options nRow nCol (Blinky.shortest K g nRow nCol pPlayer pMaze))).valid = true then
          (match Blinky.shortest K g nRow nCol pPlayer pMaze with
            | 0 => some Direction.Up
            | 1 => some Direction.Down
            | 2 => some Direction.Left
            | 3 => some Direction.Right
            | _ => some (K.CurrentDirection g.sprite)) else none) = _ at h
      rw [if_neg hv] at h
      exact Option.noConfusion h
  · exfalso
    unfold Blinky.MakeBranchDecision at h
    rw [if_neg hI] at h
    exact Option.noConfusion h

/-- Greedy choice of `Blinky::MakeBranchDecision` within range: at an intersection cell with
at least one valid candidate, when the player is within 32768 pixels of the tile centre of
every valid candidate on both axes, the call returns a valid candidate whose distance as the
code ranks it is minimal among all valid candidates, and it is the earliest of the minimal
candidates in the order Up, Down, Left, Right. -/
theorem Blinky.MakeBranchDecision_greedy_in_range (K : Externals) (g : Ghost) (nRow nCol : Nat)
    (pPlayer : Player) (pMaze : Maze) (hI : pMaze.IsTileIntersection nRow nCol = true)
    (hex : ∃ d, Blinky.IsCandidate K g nRow nCol pMaze d)
    (hrange : ∀ e, Blinky.IsCandidate K g nRow nCol pMaze e →
      Blinky.InRange pPlayer
        (pMaze.GetTileCoordinates (TranslateCell nRow nCol e).1 (TranslateCell nRow nCol e).2)) :
    ∃ d, Blinky.MakeBranchDecision K g nRow nCol pPlayer pMaze = some d ∧
      Blinky.IsCandidate K g nRow nCol pMaze d ∧
      (∀ e, Blinky.IsCandidate K g nRow nCol pMaze e →
        Blinky.candidateDistance pPlayer pMaze nRow nCol d ≤
          Blinky.candidateDistance pPlayer pMaze nRow nCol e) ∧
      (∀ e, Blinky.IsCandidate K g nRow nCol pMaze e →
        Blinky.candidateDistance pPlayer pMaze nRow nCol e ≤
          Blinky.candidateDistance pPlayer pMaze nRow nCol d → d.toIndex ≤ e.toIndex) := by
  have hreal : ∀ e, Blinky.IsCandidate K g nRow nCol pMaze e →
      ¬ (Blinky.candidateDistance pPlayer pMaze nRow nCol e).IsNaN := by
    intro e he
    exact not_lt.2 (Blinky.distance_in_range pPlayer _ (hrange e he)).2
  obtain ⟨hs, hv, hbest⟩ := Blinky.shortest_best K g nRow nCol pPlayer pMaze hex hreal
  have hcand := (Blinky.evaluate_valid K g pPlayer pMaze nRow nCol _ hs).1 hv
  have hdist := Blinky.evaluate_distance K g pPlayer pMaze nRow nCol _ hs hv
  refine ⟨Direction.ofIndex (Blinky.shortest K g nRow nCol pPlayer pMaze),
    Blinky.MakeBranchDecision_eq K g nRow nCol pPlayer pMaze hI hs hv, hcand, ?_, ?_⟩
  · intro e he
    have hlt := Direction.toIndex_lt e he.1
    have hev : (Blinky.evaluate K g pPlayer pMaze e.toIndex
        (Blinky.options nRow nCol e.toIndex)).valid = true := by
      rw [Blinky.evaluate_valid K g pPlayer pMaze nRow nCol _ hlt, Direction.ofIndex_toIndex]
      exact he
    have h1 := (hbest e.toIndex hlt hev).1
    have h2 := Blinky.evaluate_distance K g pPlayer pMaze nRow nCol _ hlt hev
    rw [Direction.ofIndex_toIndex] at h2
    dsimp only at h1
    rw [hdist, h2] at h1
    exact h1
  · intro e he hle
    have hlt := Direction.toIndex_lt e he.1
    have hev : (Blinky.evaluate K g pPlayer pMaze e.toIndex
        (Blinky.options nRow nCol e.toIndex)).valid = true := by
      rw [Blinky.evaluate_valid K g pPlayer pMaze nRow nCol _ hlt, Direction.ofIndex_toIndex]
      exact he
    have h1 := (hbest e.toIndex hlt hev).2
    have h2 := Blinky.evaluate_distance K g pPlayer pMaze nRow nCol _ hlt hev
    rw [Direction.ofIndex_toIndex] at h2
    dsimp only at h1
    rw [hdist, h2] at h1
    rw [Direction.toIndex_ofIndex _ hs]
    exact h1 hle

theorem Blinky.MakeBranchDecision_greedy_in_range_witness :
    demoMaze.IsTileIntersection 14 13 = true ∧
      (∀ e, Blinky.IsCandidate demoK demoGhost 14 13 demoMaze e →
        Blinky.InRange demoPlayer
          (demoMaze.GetTileCoordinates (TranslateCell 14 13 e).1 (TranslateCell 14 13 e).2)) ∧
      ∃ d, Blinky.MakeBranchDecision demoK demoGhost 14 13 demoPlayer demoMaze = some d ∧
        Blinky.IsCandidate demoK demoGhost 14 13 demoMaze d ∧
        (∀ e, Blinky.IsCandidate demoK demoGhost 14 13 demoMaze e →
          Blinky.candidateDistance demoPlayer demoMaze 14 13 d ≤
            Blinky.candidateDistance demoPlayer demoMaze 14 13 e) ∧
        (∀ e, Blinky.IsCandidate demoK demoGhost 14 13 demoMaze e →
          Blinky.candidateDistance demoPlayer demoMaze 14 13 e ≤
            Blinky.candidateDistance demoPlayer demoMaze 14 13 d → d.toIndex ≤ e.toIndex) :=
  have hrange : ∀ e, Blinky.IsCandidate demoK demoGhost 14 13 demoMaze e →
      Blinky.InRange demoPlayer
        (demoMaze.GetTileCoordinates (TranslateCell 14 13 e).1 (TranslateCell 14 13 e).2) := by
    intro e _
    cases e <;>
      norm_num [Blinky.InRange, demoPlayer, demoMaze, TranslateCell, toUint16, abs_lt]
  ⟨by decide, hrange,
    Blinky.MakeBranchDecision_greedy_in_range demoK demoGhost 14 13 demoPlayer demoMaze
      (by decide) ⟨Direction.Down, by with_unfolding_all decide⟩ hrange⟩

/-- Claim C2 (no illegal reversal at intersections): whenever `Blinky::MakeBranchDecision`
returns, that is whenever its final assertion passes, the returned direction is not the exact
opposite of the heading `CurrentDirection()` held when the call is made, whatever the
distances and the solidity of the neighbours; it is one of the four cardinal directions. -/
theorem Blinky.MakeBranchDecision_never_reverses (K : Externals) (g : Ghost) (nRow nCol : Nat)
    (pPlayer : Player) (pMaze : Maze) (d : Direction)
    (h : Blinky.MakeBranchDecision K g nRow nCol pPlayer pMaze = some d) :
    d ≠ Opposite (K.CurrentDirection g.sprite) ∧ Opposite d ≠ K.CurrentDirection g.sprite ∧
      d ≠ Direction.None := by
  obtain ⟨_, _, hc⟩ := Blinky.MakeBranchDecision_some K g nRow nCol pPlayer pMaze d h
  refine ⟨hc.2.2, ?_, hc.1⟩
  intro e
  exact hc.2.2 ((Opposite_eq_iff d _ hc.1).1 e)

theorem Blinky.MakeBranchDecision_never_reverses_witness :
    Blinky.MakeBranchDecision demoK demoGhost 14 13 demoPlayer demoMaze = some Direction.Down ∧
      Direction.Down ≠ Opposite (demoK.CurrentDirection demoGhost.sprite) ∧
      Opposite Direction.Down ≠ demoK.CurrentDirection demoGhost.sprite ∧
      Direction.Down ≠ Direction.None :=
  ⟨by with_unfolding_all decide,
    Blinky.MakeBranchDecision_never_reverses demoK demoGhost 14 13 demoPlayer demoMaze
      Direction.Down (by with_unfolding_all decide)⟩

/-! ### The corridor decision (C3) -/

theorem Ghost.GetNextDirection_spec (g : Ghost) (cur : Decision) (r c : Nat) (pMaze : Maze)
    (hcur : g.pCurrentDecision = some cur) (hdir : cur.direction ≠ Direction.None) :
    ∃ d, Ghost.GetNextDirection g r c pMaze = some d ∧
      (d ≠ Direction.None → d ≠ Opposite cur.direction ∧ Ghost.IsOpen pMaze r c d) ∧
      (∀ e, e ≠ Direction.None → e ≠ Opposite cur.direction → Ghost.IsOpen pMaze r c e →
        d ≠ Direction.None ∧ d.toIndex ≤ e.toIndex) := by
  unfold Ghost.GetNextDirection
  rw [hcur]
  dsimp only
  cases hd : cur.direction with
  | None => exact absurd hd hdir
  | Up =>
    simp only [Opposite, Direction.toIndex, Ghost.GetNextDirection.loop, Ghost.IsOpen]
    split_ifs <;> simp <;> (try constructor) <;> (try intro e) <;> (try cases e) <;> simp_all
  | Down =>
    simp only [Opposite, Direction.toIndex, Ghost.GetNextDirection.loop, Ghost.IsOpen]
    split_ifs <;> simp <;> (try constructor) <;> (try intro e) <;> (try cases e) <;> simp_all
  | Left =>
    simp only [Opposite, Direction.toIndex, Ghost.GetNextDirection.loop, Ghost.IsOpen]
    split_ifs <;> simp <;> (try constructor) <;> (try intro e) <;> (try cases e) <;> simp_all
  | Right =>
    simp only [Opposite, Direction.toIndex, Ghost.GetNextDirection.loop, Ghost.IsOpen]
    split_ifs <;> simp <;> (try constructor) <;> (try intro e) <;> (try cases e) <;> simp_all

/-- Claim C3 (`Ghost::GetNextDirection`): with a current Decision whose direction is not None
(the assertion of the code), the call returns a direction `d` such that: if `d` is not None it
is not the opposite of the current Decision's direction and its neighbour is non-solid; every
cardinal direction with these two properties comes no earlier than `d` in the order Up, Down,
Left, Right; `d` is None exactly when no such direction exists; and `d` is never the opposite
of the current Decision's direction. -/
theorem Ghost.GetNextDirection_first (g : Ghost) (cur : Decision) (r c : Nat) (pMaze : Maze)
    (hcur : g.pCurrentDecision = some cur) (hdir : cur.direction ≠ Direction.None) :
    ∃ d, Ghost.GetNextDirection g r c pMaze = some d ∧
      (d ≠ Direction.None → d ≠ Opposite cur.direction ∧ Ghost.IsOpen pMaze r c d) ∧
      (∀ e, e ≠ Direction.None → e ≠ Opposite cur.direction → Ghost.IsOpen pMaze r c e →
        d ≠ Direction.None ∧ d.toIndex ≤ e.toIndex) ∧
      (d = Direction.None ↔
        ¬ ∃ e, e ≠ Direction.None ∧ e ≠ Opposite cur.direction ∧ Ghost.IsOpen pMaze r c e) ∧
      d ≠ Opposite cur.direction := by
  obtain ⟨d, h1, h2, h3⟩ := Ghost.GetNextDirection_spec g cur r c pMaze hcur hdir
  refine ⟨d, h1, h2, h3, ?_, ?_⟩
  · constructor
    · rintro hN ⟨e, he1, he2, he3⟩
      exact (h3 e he1 he2 he3).1 hN
    · intro hne
      by_contra hN
      exact hne ⟨d, hN, (h2 hN).1, (h2 hN).2⟩
  · by_cases hN : d = Direction.None
    · rw [hN]
      intro e
      apply hdir
      have : Opposite (Opposite cur.direction) = cur.direction := by
        cases cur.direction <;> rfl
      rw [← this, ← e]
      rfl
    · exact (h2 hN).1

theorem Ghost.GetNextDirection_first_witness :
    demoGhost.pCurrentDecision = some ⟨14, 12, Direction.Right⟩ ∧
      Direction.Right ≠ Direction.None ∧
      ∃ d, Ghost.GetNextDirection demoGhost 14 12 demoMaze = some d ∧
        (d ≠ Direction.None → d ≠ Opposite Direction.Right ∧ Ghost.IsOpen demoMaze 14 12 d) ∧
        (∀ e, e ≠ Direction.None → e ≠ Opposite Direction.Right → Ghost.IsOpen demoMaze 14 12 e →
          d ≠ Direction.None ∧ d.toIndex ≤ e.toIndex) ∧
        (d = Direction.None ↔
          ¬ ∃ e, e ≠ Direction.None ∧ e ≠ Opposite Direction.Right ∧
            Ghost.IsOpen demoMaze 14 12 e) ∧
        d ≠ Opposite Direction.Right :=
  ⟨rfl, by decide,
    Ghost.GetNextDirection_first demoGhost ⟨14, 12, Direction.Right⟩ 14 12 demoMaze rfl
      (by decide)⟩

/-! ### The state machine, step by step -/

/-- `Ghost::GetNextDecision` changes nothing of the ghost but the recorded cell, which it
sets to the cell of the truncated position. -/
theorem Ghost.GetNextDecision_ghost (K : Externals) (pPlayer : Player) (pMaze : Maze)
    (g g' : Ghost) (d : Decision) (h : Ghost.GetNextDecision K pPlayer pMaze g = some (g', d)) :
    g' = { g with
      currentRow := (pMaze.GetTileRowCol ⟨toInt g.sprite.x, toInt g.sprite.y⟩).1
      currentCol := (pMaze.GetTileRowCol ⟨toInt g.sprite.x, toInt g.sprite.y⟩).2 } := by
  unfold Ghost.GetNextDecision at h
  dsimp only at h
  split at h
  · exact Option.noConfusion h
  · split at h
    · split at h
      · exact Option.noConfusion h
      · split at h
        · have := Option.some.inj h
          exact (congrArg Prod.fst this).symm
        · exact Option.noConfusion h
    · exact Option.noConfusion h

/-- `Ghost::UpdateAnimation` touches the sprite only. -/
theorem Ghost.UpdateAnimation_decisions (K : Externals) (g : Ghost) (d : Direction) :
    (Ghost.UpdateAnimation K g d).pCurrentDecision = g.pCurrentDecision ∧
      (Ghost.UpdateAnimation K g d).pNextDecision = g.pNextDecision ∧
      (Ghost.UpdateAnimation K g d).currentRow = g.currentRow ∧
      (Ghost.UpdateAnimation K g d).currentCol = g.currentCol ∧
      (Ghost.UpdateAnimation K g d).mode = g.mode ∧
      (Ghost.UpdateAnimation K g d).penTimer = g.penTimer := by
  cases d <;> exact ⟨rfl, rfl, rfl, rfl, rfl, rfl⟩

/-- The release step keeps the Decisions and the recorded cell. -/
theorem Ghost.release_decisions (K : Externals) (now : Nat) (pMaze : Maze) (g : Ghost) :
    (Ghost.OnChasing.release K now pMaze g).pCurrentDecision = g.pCurrentDecision ∧
      (Ghost.OnChasing.release K now pMaze g).pNextDecision = g.pNextDecision ∧
      (Ghost.OnChasing.release K now pMaze g).currentRow = g.currentRow ∧
      (Ghost.OnChasing.release K now pMaze g).currentCol = g.currentCol := by
  unfold Ghost.OnChasing.release
  split_ifs <;> exact ⟨rfl, rfl, rfl, rfl⟩

theorem Ghost.release_sprite (K : Externals) (now : Nat) (pMaze : Maze) (g : Ghost)
    (h : (Ghost.OnChasing.release K now pMaze g).mode ≠ Mode.ExitingPen) :
    (Ghost.OnChasing.release K now pMaze g).sprite = g.sprite ∧
      (Ghost.OnChasing.release K now pMaze g).mode = g.mode := by
  unfold Ghost.OnChasing.release at h ⊢
  split_ifs at h ⊢ <;> first | exact ⟨rfl, rfl⟩ | exact absurd rfl h

/-- The release step when it fires. -/
theorem Ghost.release_fires (K : Externals) (now : Nat) (pMaze : Maze) (g : Ghost)
    (hp : g.IsGhostPenned = true) (hs : g.penTimer.IsStarted = true)
    (hd : g.penTimer.IsDone now = true) :
    Ghost.OnChasing.release K now pMaze g =
      { g with
        sprite := ⟨(pMaze.GetTileCoordinates 17 13).x, (pMaze.GetTileCoordinates 17 13).y, 0,
          K.GhostBaseSpeed * (-7 / 4), Constants.AnimationIndexUp⟩
        mode := Mode.ExitingPen } := by
  unfold Ghost.OnChasing.release
  rw [if_pos hp, if_neg (by rw [hs]; decide), if_pos hd]
  rfl

/-- The release step does not fire while the timer is not done. -/
theorem Ghost.release_waits (K : Externals) (now : Nat) (pMaze : Maze) (g : Ghost)
    (hd : g.penTimer.IsDone now = false) :
    (Ghost.OnChasing.release K now pMaze g).mode = g.mode := by
  unfold Ghost.OnChasing.release
  split_ifs with h1 h2 h3
  · rfl
  · rw [hd] at h3; exact absurd h3 (by decide)
  · rfl
  · rfl

/-- The else-branch of the stop test leaves `currentDecision` set. -/
theorem Ghost.advance_current (K : Externals) (pPlayer : Player) (pMaze : Maze) (g2 g' : Ghost)
    (cur : Decision) (hc : g2.pCurrentDecision = some cur)
    (h : Ghost.OnChasing.advance K pPlayer pMaze g2 cur = some g') :
    g'.pCurrentDecision ≠ none := by
  unfold Ghost.OnChasing.advance at h
  dsimp only at h
  split at h
  · exact Option.noConfusion h
  · rename_i g3 hg3
    have h3 : g3.pCurrentDecision = some cur := by
      split at hg3
      · split at hg3
        · exact Option.noConfusion hg3
        · rename_i g1 d1 hgd
          have := Ghost.GetNextDecision_ghost K pPlayer pMaze g2 g1 d1 hgd
          have e := Option.some.inj hg3
          rw [← e, this]
          exact hc
      · have e := Option.some.inj hg3
        rw [← e]; exact hc
    split at h
    · split at h
      · exact Option.noConfusion h
      · split at h
        · have e := Option.some.inj h
          rw [← e]; simp
        · have e := Option.some.inj h
          rw [← e]; simp
    · split at h
      · have e := Option.some.inj h
        rw [← e, (Ghost.UpdateAnimation_decisions K g3 cur.direction).1, h3]
        simp
      · have e := Option.some.inj h
        rw [← e, h3]; simp

/-- The else-branch of the stop test leaves the pen timer alone and changes the mode to
WarpingOut only. -/
theorem Ghost.advance_frame (K : Externals) (pPlayer : Player) (pMaze : Maze) (g2 g' : Ghost)
    (cur : Decision) (h : Ghost.OnChasing.advance K pPlayer pMaze g2 cur = some g') :
    g'.penTimer = g2.penTimer ∧ (g'.mode = g2.mode ∨ g'.mode = Mode.WarpingOut) ∧
      (g2.pNextDecision = none → g'.mode = g2.mode) := by
  unfold Ghost.OnChasing.advance at h
  dsimp only at h
  split at h
  · exact Option.noConfusion h
  · rename_i g3 hg3
    have h3 : g3.penTimer = g2.penTimer ∧ g3.mode = g2.mode ∧ g3.sprite = g2.sprite ∧
        (g2.pNextDecision = none →
          g3.currentRow = (pMaze.GetTileRowCol ⟨toInt g2.sprite.x, toInt g2.sprite.y⟩).1 ∧
          g3.currentCol = (pMaze.GetTileRowCol ⟨toInt g2.sprite.x, toInt g2.sprite.y⟩).2) := by
      split at hg3
      · split at hg3
        · exact Option.noConfusion hg3
        · rename_i g1 d1 hgd
          have := Ghost.GetNextDecision_ghost K pPlayer pMaze g2 g1 d1 hgd
          have e := Option.some.inj hg3
          rw [← e, this]
          exact ⟨rfl, rfl, rfl, fun _ => ⟨rfl, rfl⟩⟩
      · rename_i d hd
        have e := Option.some.inj hg3
        rw [← e]
        refine ⟨rfl, rfl, rfl, fun hnone => ?_⟩
        rw [hnone] at hd
        exact Option.noConfusion hd
    split at h
    · rename_i hcell
      split at h
      · exact Option.noConfusion h
      · have hfresh : g2.pNextDecision = none → False := by
          intro hnone
          obtain ⟨a, b⟩ := h3.2.2.2 hnone
          rw [h3.2.2.1] at hcell
          rcases hcell with hc | hc
          · exact hc a.symm
          · exact hc b.symm
        split at h
        · have e := Option.some.inj h
          rw [← e]
          exact ⟨h3.1, Or.inr rfl, fun hn => (hfresh hn).elim⟩
        · have e := Option.some.inj h
          rw [← e]
          exact ⟨h3.1, Or.inl h3.2.1, fun _ => h3.2.1⟩
    · split at h
      · have e := Option.some.inj h
        have hu := Ghost.UpdateAnimation_decisions K g3 cur.direction
        rw [← e]
        exact ⟨hu.2.2.2.2.2.trans h3.1, Or.inl (hu.2.2.2.2.1.trans h3.2.1),
          fun _ => hu.2.2.2.2.1.trans h3.2.1⟩
      · have e := Option.some.inj h
        rw [← e]
        exact ⟨h3.1, Or.inl h3.2.1, fun _ => h3.2.1⟩

/-- When the else-branch of the stop test moves a ghost into WarpingOut, it halves the
velocity. -/
theorem Ghost.advance_warp (K : Externals) (pPlayer : Player) (pMaze : Maze) (g2 g' : Ghost)
    (cur : Decision) (h : Ghost.OnChasing.advance K pPlayer pMaze g2 cur = some g')
    (hm : g2.mode ≠ Mode.WarpingOut) (hw : g'.mode = Mode.WarpingOut) :
    g'.sprite.dx = 1 / 2 * g2.sprite.dx ∧ g'.sprite.dy = 1 / 2 * g2.sprite.dy := by
  unfold Ghost.OnChasing.advance at h
  dsimp only at h
  split at h
  · exact Option.noConfusion h
  · rename_i g3 hg3
    have h3 : g3.mode = g2.mode ∧ g3.sprite = g2.sprite := by
      split at hg3
      · split at hg3
        · exact Option.noConfusion hg3
        · rename_i g1 d1 hgd
          have := Ghost.GetNextDecision_ghost K pPlayer pMaze g2 g1 d1 hgd
          have e := Option.some.inj hg3
          rw [← e, this]
          exact ⟨rfl, rfl⟩
      · have e := Option.some.inj hg3
        rw [← e]
        exact ⟨rfl, rfl⟩
    split at h
    · split at h
      · exact Option.noConfusion h
      · split at h
        · have e := Option.some.inj h
          rw [← e]
          dsimp only [Sprite.SetVelocity]
          rw [h3.2]
          exact ⟨rfl, rfl⟩
        · have e := Option.some.inj h
          rw [← e] at hw
          exact absurd (h3.1.symm.trans hw) hm
    · split at h
      · have e := Option.some.inj h
        rw [← e, (Ghost.UpdateAnimation_decisions K g3 cur.direction).2.2.2.2.1] at hw
        exact absurd (h3.1.symm.trans hw) hm
      · have e := Option.some.inj h
        rw [← e] at hw
        exact absurd (h3.1.symm.trans hw) hm

/-- The motion step leaves `currentDecision` set. -/
theorem Ghost.motion_current (K : Externals) (pPlayer : Player) (pMaze : Maze) (g1 g' : Ghost)
    (h : Ghost.OnChasing.motion K pPlayer pMaze g1 = some g') : g'.pCurrentDecision ≠ none := by
  obtain ⟨s, t, r, c, md, nx, cu⟩ := g1
  unfold Ghost.OnChasing.motion at h
  dsimp only at h
  cases cu with
  | none => exact Option.noConfusion h
  | some cur =>
    dsimp only at h
    split_ifs at h
    · have e := Option.some.inj h
      rw [← e]
      simp [Ghost.Stop]
    · exact Ghost.advance_current K pPlayer pMaze _ g' cur rfl h

/-- The motion step leaves the pen timer alone and changes the mode to WarpingOut only,
and not at all on a tick that computes the lookahead. -/
theorem Ghost.motion_frame (K : Externals) (pPlayer : Player) (pMaze : Maze) (g1 g' : Ghost)
    (h : Ghost.OnChasing.motion K pPlayer pMaze g1 = some g') :
    g'.penTimer = g1.penTimer ∧ (g'.mode = g1.mode ∨ g'.mode = Mode.WarpingOut) ∧
      (g1.pNextDecision = none → g'.mode = g1.mode) := by
  obtain ⟨s, t, r, c, md, nx, cu⟩ := g1
  unfold Ghost.OnChasing.motion at h
  dsimp only at h
  cases cu with
  | none => exact Option.noConfusion h
  | some cur =>
    dsimp only at h
    split_ifs at h
    · have e := Option.some.inj h
      rw [← e]
      exact ⟨rfl, Or.inl rfl, fun _ => rfl⟩
    · exact Ghost.advance_frame K pPlayer pMaze ⟨s.Update, t, r, c, md, nx, some cur⟩ g' cur h

/-- When the motion step moves a ghost into WarpingOut, it halves the velocity. -/
theorem Ghost.motion_warp (K : Externals) (pPlayer : Player) (pMaze : Maze) (g1 g' : Ghost)
    (h : Ghost.OnChasing.motion K pPlayer pMaze g1 = some g')
    (hm : g1.mode ≠ Mode.WarpingOut) (hw : g'.mode = Mode.WarpingOut) :
    g'.sprite.dx = 1 / 2 * g1.sprite.dx ∧ g'.sprite.dy = 1 / 2 * g1.sprite.dy := by
  obtain ⟨s, t, r, c, md, nx, cu⟩ := g1
  unfold Ghost.OnChasing.motion at h
  dsimp only at h
  cases cu with
  | none => exact Option.noConfusion h
  | some cur =>
    dsimp only at h
    split_ifs at h
    · have e := Option.some.inj h
      rw [← e] at hw
      exact absurd hw hm
    · exact Ghost.advance_warp K pPlayer pMaze ⟨s.Update, t, r, c, md, nx, some cur⟩ g' cur h hm hw

/-- With the lookahead already cached the motion step returns, and it keeps both Decisions
unless it records a new cell. -/
theorem Ghost.motion_cached (K : Externals) (pPlayer : Player) (pMaze : Maze) (g1 : Ghost)
    (cur next : Decision) (hc : g1.pCurrentDecision = some cur)
    (hn : g1.pNextDecision = some next) :
    ∃ g', Ghost.OnChasing.motion K pPlayer pMaze g1 = some g' ∧
      ((g'.currentRow = g1.currentRow ∧ g'.currentCol = g1.currentCol) ∨
        pMaze.GetTileRowCol ⟨toInt g1.sprite.Update.x, toInt g1.sprite.Update.y⟩ =
          (g1.currentRow, g1.currentCol) →
        g'.pNextDecision = some next ∧ g'.pCurrentDecision = some cur) := by
  obtain ⟨s, t, r, c, md, nx, cu⟩ := g1
  dsimp only at hc hn ⊢
  subst hc hn
  unfold Ghost.OnChasing.motion
  dsimp only
  split_ifs
  · exact ⟨_, rfl, fun _ => ⟨rfl, rfl⟩⟩
  · unfold Ghost.OnChasing.advance
    dsimp only
    by_cases hcell : (pMaze.GetTileRowCol ⟨toInt s.Update.x, toInt s.Update.y⟩).1 ≠ r ∨
        (pMaze.GetTileRowCol ⟨toInt s.Update.x, toInt s.Update.y⟩).2 ≠ c
    · rw [if_pos hcell]
      have hne : ¬ pMaze.GetTileRowCol ⟨toInt s.Update.x, toInt s.Update.y⟩ = (r, c) := by
        intro e
        rw [e] at hcell
        simp at hcell
      split_ifs
      · refine ⟨_, rfl, ?_⟩
        rintro (⟨h1, h2⟩ | h)
        · exfalso
          rcases hcell with h | h
          · exact h h1
          · exact h h2
        · exact absurd h hne
      · refine ⟨_, rfl, ?_⟩
        rintro (⟨h1, h2⟩ | h)
        · exfalso
          rcases hcell with h | h
          · exact h h1
          · exact h h2
        · exact absurd h hne
    · rw [if_neg hcell]
      split_ifs
      · refine ⟨_, rfl, fun _ => ?_⟩
        exact ⟨(Ghost.UpdateAnimation_decisions K _ cur.direction).2.1,
          (Ghost.UpdateAnimation_decisions K _ cur.direction).1⟩
      · exact ⟨_, rfl, fun _ => ⟨rfl, rfl⟩⟩

theorem Ghost.run_cons (K : Externals) (pMaze : Maze) (t : Tick) (ts : List Tick)
    (g g' : Ghost) (h : Ghost.run K pMaze (t :: ts) g = some g') :
    ∃ g1, Ghost.Update K t.now t.pPlayer pMaze g = some g1 ∧ Ghost.run K pMaze ts g1 = some g' := by
  unfold Ghost.run at h
  split at h
  · exact Option.noConfusion h
  · rename_i g1 hg1
    exact ⟨g1, hg1, h⟩

theorem Ghost.modeAfter_nil (K : Externals) (pMaze : Maze) (g : Ghost) :
    Ghost.modeAfter K pMaze [] g = some g.mode := rfl

theorem Ghost.modeAfter_cons (K : Externals) (pMaze : Maze) (t : Tick) (ts : List Tick)
    (g g1 : Ghost) (h : Ghost.Update K t.now t.pPlayer pMaze g = some g1) :
    Ghost.modeAfter K pMaze (t :: ts) g = Ghost.modeAfter K pMaze ts g1 := by
  unfold Ghost.modeAfter
  rw [show Ghost.run K pMaze (t :: ts) g = Ghost.run K pMaze ts g1 by
    rw [Ghost.run, h]]

/-! ### Reset and the mode (C4) -/

/-- Claim C4 at its failing input: the tunnel ghost enters the warp cell (17, 1) and is in
WarpingOut after five ticks; `Blinky::Reset` called on it then, as the harness does when the
level restarts, leaves the mode WarpingOut and not Chase. -/
theorem Blinky.Reset_keeps_stale_mode :
    Ghost.run demoK demoMaze (demoTicks 5) demoTunnelGhost = some demoTunnelGhost5 ∧
      demoTunnelGhost5.mode = Mode.WarpingOut ∧
      (Blinky.Reset demoK demoMaze demoTunnelGhost5).1.mode = Mode.WarpingOut ∧
      (Blinky.Reset demoK demoMaze demoTunnelGhost5).1.mode ≠ Mode.Chase :=
  ⟨by with_unfolding_all rfl, rfl, rfl, by decide⟩

/-! ### The current Decision is always set (C5) -/

/-- One tick leaves `currentDecision` set. -/
theorem Ghost.Update_current (K : Externals) (now : Nat) (pPlayer : Player) (pMaze : Maze)
    (g g' : Ghost) (hc : g.pCurrentDecision ≠ none)
    (h : Ghost.Update K now pPlayer pMaze g = some g') : g'.pCurrentDecision ≠ none := by
  unfold Ghost.Update at h
  split at h
  · have e := Option.some.inj h
    rw [← e]
    unfold Ghost.OnExitingPen
    dsimp only
    split_ifs <;> first | exact hc | simp
  · have e := Option.some.inj h
    rw [← e]
    unfold Ghost.OnWarpingOut
    dsimp only
    split_ifs <;> exact hc
  · have e := Option.some.inj h
    rw [← e]
    unfold Ghost.OnWarpingIn
    dsimp only
    split_ifs <;> first | exact hc | simp
  · unfold Ghost.OnChasing at h
    dsimp only at h
    split_ifs at h
    · exact Ghost.motion_current K pPlayer pMaze _ g' h
    · have e := Option.some.inj h
      rw [← e, (Ghost.release_decisions K now pMaze g).1]
      exact hc
  · have e := Option.some.inj h
    rw [← e]; exact hc

/-- Any number of ticks leave `currentDecision` set. -/
theorem Ghost.run_current (K : Externals) (pMaze : Maze) :
    ∀ (ticks : List Tick) (g g' : Ghost), g.pCurrentDecision ≠ none →
      Ghost.run K pMaze ticks g = some g' → g'.pCurrentDecision ≠ none := by
  intro ticks
  induction ticks with
  | nil =>
    intro g g' hc h
    have e := Option.some.inj h
    rw [← e]; exact hc
  | cons t ts ih =>
    intro g g' hc h
    unfold Ghost.run at h
    split at h
    · exact Option.noConfusion h
    · rename_i g1 hg1
      exact ih g1 g' (Ghost.Update_current K t.now t.pPlayer pMaze g g1 hc hg1) h

/-- Claim C5 (`currentDecision` is never null after Reset): in every state reached from the
state `Blinky::Reset` leaves (whatever the state before the Reset) by any sequence of
`Ghost::Update` calls that do not trip an assertion, in whichever modes, `currentDecision` is
set. -/
theorem Ghost.currentDecision_never_null (K : Externals) (pMaze : Maze) (g0 g : Ghost)
    (ticks : List Tick)
    (h : Ghost.run K pMaze ticks (Blinky.Reset K pMaze g0).1 = some g) :
    g.pCurrentDecision ≠ none :=
  Ghost.run_current K pMaze ticks (Blinky.Reset K pMaze g0).1 g (by simp [Blinky.Reset]) h

theorem Ghost.currentDecision_never_null_witness :
    Ghost.run demoK demoMaze (demoTicks 4)
        (Blinky.Reset demoK demoMaze (Ghost.new ⟨0, 0, 0, 0, 0⟩)).1 = some demoFreshGhost4 ∧
      demoFreshGhost4.pCurrentDecision ≠ none :=
  ⟨by with_unfolding_all rfl,
    Ghost.currentDecision_never_null demoK demoMaze (Ghost.new ⟨0, 0, 0, 0, 0⟩) demoFreshGhost4
      (demoTicks 4) (by with_unfolding_all rfl)⟩

/-! ### The lookahead is computed once per cell (C6) -/

/-- Claim C6 (decision pipeline single-entry): in Chase mode with `nextDecision` set (and
`currentDecision` set, as it is after Reset), `Ghost::Update` returns, and if the ghost's
discrete cell does not change on that tick (the recorded cell is the same after the call, or
the cell of the advanced position is the recorded cell) then `nextDecision` and
`currentDecision` are unchanged: the lookahead is not recomputed. `Ghost::GetNextDecision`
itself never changes `currentDecision`. -/
theorem Ghost.Update_pipeline_single_entry (K : Externals) (now : Nat) (pPlayer : Player)
    (pMaze : Maze) (g : Ghost) (cur next : Decision) (hm : g.mode = Mode.Chase)
    (hc : g.pCurrentDecision = some cur) (hn : g.pNextDecision = some next) :
    (∃ g', Ghost.Update K now pPlayer pMaze g = some g' ∧
      ((g'.currentRow = g.currentRow ∧ g'.currentCol = g.currentCol) ∨
        pMaze.GetTileRowCol ⟨toInt g.sprite.Update.x, toInt g.sprite.Update.y⟩ =
          (g.currentRow, g.currentCol) →
        g'.pNextDecision = g.pNextDecision ∧ g'.pCurrentDecision = g.pCurrentDecision)) ∧
    ∀ (g1 g2 : Ghost) (d : Decision),
      Ghost.GetNextDecision K pPlayer pMaze g1 = some (g2, d) →
        g2.pCurrentDecision = g1.pCurrentDecision := by
  constructor
  · have hr := Ghost.release_decisions K now pMaze g
    have hU : Ghost.Update K now pPlayer pMaze g = Ghost.OnChasing K now pPlayer pMaze g := by
      unfold Ghost.Update
      rw [hm]
    rw [hU]
    unfold Ghost.OnChasing
    dsimp only
    by_cases hx : (Ghost.OnChasing.release K now pMaze g).mode ≠ Mode.ExitingPen
    · rw [if_pos hx]
      have hs := Ghost.release_sprite K now pMaze g hx
      obtain ⟨g', h1, h2⟩ := Ghost.motion_cached K pPlayer pMaze
        (Ghost.OnChasing.release K now pMaze g) cur next (hr.1.trans hc) (hr.2.1.trans hn)
      refine ⟨g', h1, ?_⟩
      rw [hs.1, hr.2.2.1, hr.2.2.2] at h2
      rw [hc, hn]
      exact h2
    · rw [if_neg hx]
      exact ⟨_, rfl, fun _ => ⟨hr.2.1, hr.1⟩⟩
  · intro g1 g2 d h
    rw [Ghost.GetNextDecision_ghost K pPlayer pMaze g1 g2 d h]

theorem Ghost.Update_pipeline_single_entry_witness :
    demoPenGhost.mode = Mode.Chase ∧
      demoPenGhost.pCurrentDecision = some ⟨17, 13, Direction.Up⟩ ∧
      demoPenGhost.pNextDecision = some ⟨16, 13, Direction.Up⟩ ∧
      (∃ g', Ghost.Update demoK 16 demoPlayer demoMaze demoPenGhost = some g' ∧
        ((g'.currentRow = demoPenGhost.currentRow ∧ g'.currentCol = demoPenGhost.currentCol) ∨
          demoMaze.GetTileRowCol
              ⟨toInt demoPenGhost.sprite.Update.x, toInt demoPenGhost.sprite.Update.y⟩ =
            (demoPenGhost.currentRow, demoPenGhost.currentCol) →
          g'.pNextDecision = demoPenGhost.pNextDecision ∧
            g'.pCurrentDecision = demoPenGhost.pCurrentDecision)) ∧
      ∀ (g1 g2 : Ghost) (d : Decision),
        Ghost.GetNextDecision demoK demoPlayer demoMaze g1 = some (g2, d) →
          g2.pCurrentDecision = g1.pCurrentDecision :=
  ⟨rfl, rfl, rfl,
    Ghost.Update_pipeline_single_entry demoK 16 demoPlayer demoMaze demoPenGhost
      ⟨17, 13, Direction.Up⟩ ⟨16, 13, Direction.Up⟩ rfl rfl rfl⟩

/-! ### The pen release (C7, C8) -/

/-- Claim C7 (pen release timing). First: the first `Ghost::Update` of a freshly Reset ghost
in Chase mode, which is in the pen zone, starts the 5000 ms release timer and leaves the mode
Chase. Second: on a tick where the timer is not done the mode does not become ExitingPen.
Third: on a Chase tick where the ghost's cell is in the pen zone and the started timer is
done, `Ghost::Update` returns with the mode ExitingPen. -/
theorem Ghost.pen_release_timing (K : Externals) (now : Nat) (pPlayer : Player) (pMaze : Maze)
    (g0 g g' : Ghost) :
    ((Blinky.Reset K pMaze g0).1.mode = Mode.Chase →
      Ghost.Update K now pPlayer pMaze (Blinky.Reset K pMaze g0).1 = some g' →
        (Blinky.Reset K pMaze g0).1.IsGhostPenned = true ∧
        (Blinky.Reset K pMaze g0).1.penTimer.IsStarted = false ∧
        g'.penTimer = (Blinky.Reset K pMaze g0).1.penTimer.Start 5000 now ∧
        g'.penTimer.IsStarted = true ∧
        g'.mode = Mode.Chase) ∧
    (g.mode ≠ Mode.ExitingPen → g.penTimer.IsDone now = false →
      Ghost.Update K now pPlayer pMaze g = some g' → g'.mode ≠ Mode.ExitingPen) ∧
    (g.mode = Mode.Chase → g.IsGhostPenned = true → g.penTimer.IsStarted = true →
      g.penTimer.IsDone now = true →
        ∃ g'', Ghost.Update K now pPlayer pMaze g = some g'' ∧ g''.mode = Mode.ExitingPen) := by
  refine ⟨?_, ?_, ?_⟩
  · intro hm hu
    have hU : Ghost.Update K now pPlayer pMaze (Blinky.Reset K pMaze g0).1 =
        Ghost.OnChasing K now pPlayer pMaze (Blinky.Reset K pMaze g0).1 := by
      unfold Ghost.Update
      rw [hm]
    rw [hU] at hu
    have hrel : Ghost.OnChasing.release K now pMaze (Blinky.Reset K pMaze g0).1 =
        { (Blinky.Reset K pMaze g0).1 with penTimer := ⟨true, now, 5000⟩ } := rfl
    unfold Ghost.OnChasing at hu
    dsimp only at hu
    rw [hrel] at hu
    have hm' : ({ (Blinky.Reset K pMaze g0).1 with penTimer := ⟨true, now, 5000⟩ } : Ghost).mode =
        Mode.Chase := hm
    rw [if_pos (by rw [hm']; decide)] at hu
    obtain ⟨a, _, c⟩ := Ghost.motion_frame K pPlayer pMaze _ g' hu
    refine ⟨rfl, rfl, a, ?_, ?_⟩
    · rw [a]; rfl
    · rw [c rfl]; exact hm
  · intro hne hd hu
    unfold Ghost.Update at hu
    split at hu
    · rename_i hm
      exact absurd hm hne
    · have e := Option.some.inj hu
      rw [← e]
      unfold Ghost.OnWarpingOut
      dsimp only
      rename_i hm
      split_ifs <;> simp [hm]
    · have e := Option.some.inj hu
      rw [← e]
      unfold Ghost.OnWarpingIn
      dsimp only
      rename_i hm
      split_ifs <;> simp [hm]
    · rename_i hm
      unfold Ghost.OnChasing at hu
      dsimp only at hu
      have hw := Ghost.release_waits K now pMaze g hd
      split_ifs at hu with hx
      · obtain ⟨_, b, _⟩ := Ghost.motion_frame K pPlayer pMaze _ g' hu
        rcases b with b | b
        · rw [b]; exact hx
        · rw [b]; decide
      · rw [hw] at hx
        exact absurd hne hx
    · have e := Option.some.inj hu
      rw [← e]; exact hne
  · intro hm hp hs hd
    have hU : Ghost.Update K now pPlayer pMaze g = Ghost.OnChasing K now pPlayer pMaze g := by
      unfold Ghost.Update
      rw [hm]
    rw [hU]
    unfold Ghost.OnChasing
    dsimp only
    rw [Ghost.release_fires K now pMaze g hp hs hd]
    exact ⟨_, rfl, rfl⟩

theorem Ghost.pen_release_timing_witness :
    ((Blinky.Reset demoK demoMaze (Ghost.new ⟨0, 0, 0, 0, 0⟩)).1.mode = Mode.Chase ∧
      Ghost.Update demoK 10 demoPlayer demoMaze
          (Blinky.Reset demoK demoMaze (Ghost.new ⟨0, 0, 0, 0, 0⟩)).1 = some demoFreshGhost1 ∧
      demoFreshGhost1.penTimer = (⟨false, 0, 0⟩ : StateTimer).Start 5000 10 ∧
      demoFreshGhost1.mode = Mode.Chase) ∧
    (demoPenGhost.mode ≠ Mode.ExitingPen ∧ demoPenGhost.penTimer.IsDone 4999 = false ∧
      Ghost.Update demoK 4999 demoPlayer demoMaze demoPenGhost = some demoPenGhostNext ∧
      demoPenGhostNext.mode ≠ Mode.ExitingPen) ∧
    (demoPenGhost.mode = Mode.Chase ∧ demoPenGhost.IsGhostPenned = true ∧
      demoPenGhost.penTimer.IsStarted = true ∧ demoPenGhost.penTimer.IsDone 5000 = true ∧
      ∃ g'', Ghost.Update demoK 5000 demoPlayer demoMaze demoPenGhost = some g'' ∧
        g''.mode = Mode.ExitingPen) :=
  ⟨⟨rfl, by with_unfolding_all rfl,
      ((Ghost.pen_release_timing demoK 10 demoPlayer demoMaze (Ghost.new ⟨0, 0, 0, 0, 0⟩)
        demoPenGhost demoFreshGhost1).1 rfl (by with_unfolding_all rfl)).2.2.1,
      ((Ghost.pen_release_timing demoK 10 demoPlayer demoMaze (Ghost.new ⟨0, 0, 0, 0, 0⟩)
        demoPenGhost demoFreshGhost1).1 rfl (by with_unfolding_all rfl)).2.2.2.2⟩,
    ⟨by decide, by decide, by with_unfolding_all rfl,
      (Ghost.pen_release_timing demoK 4999 demoPlayer demoMaze demoPenGhost demoPenGhost
        demoPenGhostNext).2.1 (by decide) (by decide) (by with_unfolding_all rfl)⟩,
    ⟨rfl, by decide, rfl, by decide,
      (Ghost.pen_release_timing demoK 5000 demoPlayer demoMaze demoPenGhost demoPenGhost
        demoPenGhost).2.2 rfl (by decide) rfl (by decide)⟩⟩

/-- Claim C8 as stated fails: the waiting ghost, whose cell (17, 13) is in the pen zone and
whose timer, started at 0, is done at 5000, ends the Chase tick at time 5000 in ExitingPen
at (216, 280), the centre of cell (17, 13), which is not the centre (216, 232) of the pen-exit
cell (Constants::GhostPenRowExit, Constants::GhostPenCol) = (14, 13). -/
theorem Ghost.pen_release_not_at_exit_cell :
    demoPenGhost.mode = Mode.Chase ∧ demoPenGhost.IsGhostPenned = true ∧
      demoPenGhost.penTimer.IsStarted = true ∧ demoPenGhost.penTimer.IsDone 5000 = true ∧
      Ghost.Update demoK 5000 demoPlayer demoMaze demoPenGhost = some demoReleasedGhost ∧
      demoReleasedGhost.mode = Mode.ExitingPen ∧
      demoMaze.GetTileCoordinates Constants.GhostPenRowExit Constants.GhostPenCol = ⟨216, 232⟩ ∧
      demoReleasedGhost.sprite.y = 280 ∧
      demoReleasedGhost.sprite.y ≠
        ((demoMaze.GetTileCoordinates Constants.GhostPenRowExit Constants.GhostPenCol).y : ℚ) :=
  ⟨rfl, by decide, rfl, by decide, by with_unfolding_all rfl, rfl, by decide, rfl,
    by with_unfolding_all decide⟩

/-- Claim C8 as amended: on the Chase tick at which the pen release timer expires (the cell is
in the pen zone, the timer is started and done) `Ghost::Update` returns with the ghost at the
tile centre of the pen start cell (Constants::GhostPenRow, Constants::GhostPenCol) = (17, 13),
with velocity (0, -1.75 * GhostBaseSpeed), the Up animation and the mode ExitingPen; the
recorded cell, both Decisions and the pen timer are unchanged, so the lookahead/commit motion
step is not run on that tick. -/
theorem Ghost.pen_release_step (K : Externals) (now : Nat) (pPlayer : Player) (pMaze : Maze)
    (g : Ghost) (hm : g.mode = Mode.Chase) (hp : g.IsGhostPenned = true)
    (hs : g.penTimer.IsStarted = true) (hd : g.penTimer.IsDone now = true) :
    ∃ g', Ghost.Update K now pPlayer pMaze g = some g' ∧
      g'.sprite.x = (pMaze.GetTileCoordinates Constants.GhostPenRow Constants.GhostPenCol).x ∧
      g'.sprite.y = (pMaze.GetTileCoordinates Constants.GhostPenRow Constants.GhostPenCol).y ∧
      g'.sprite.dx = 0 ∧ g'.sprite.dy = -(7 / 4 * K.GhostBaseSpeed) ∧
      g'.sprite.animation = Constants.AnimationIndexUp ∧
      g'.mode = Mode.ExitingPen ∧
      g'.currentRow = g.currentRow ∧ g'.currentCol = g.currentCol ∧
      g'.pCurrentDecision = g.pCurrentDecision ∧ g'.pNextDecision = g.pNextDecision ∧
      g'.penTimer = g.penTimer := by
  have hU : Ghost.Update K now pPlayer pMaze g = Ghost.OnChasing K now pPlayer pMaze g := by
    unfold Ghost.Update
    rw [hm]
  rw [hU]
  unfold Ghost.OnChasing
  dsimp only
  rw [Ghost.release_fires K now pMaze g hp hs hd]
  refine ⟨_, rfl, rfl, rfl, rfl, ?_, rfl, rfl, rfl, rfl, rfl, rfl, rfl⟩
  show K.GhostBaseSpeed * (-7 / 4) = -(7 / 4 * K.GhostBaseSpeed)
  ring

theorem Ghost.pen_release_step_witness :
    demoPenGhost.mode = Mode.Chase ∧ demoPenGhost.IsGhostPenned = true ∧
      demoPenGhost.penTimer.IsStarted = true ∧ demoPenGhost.penTimer.IsDone 5000 = true ∧
      ∃ g', Ghost.Update demoK 5000 demoPlayer demoMaze demoPenGhost = some g' ∧
        g'.sprite.x =
          (demoMaze.GetTileCoordinates Constants.GhostPenRow Constants.GhostPenCol).x ∧
        g'.sprite.y =
          (demoMaze.GetTileCoordinates Constants.GhostPenRow Constants.GhostPenCol).y ∧
        g'.sprite.dx = 0 ∧ g'.sprite.dy = -(7 / 4 * demoK.GhostBaseSpeed) ∧
        g'.sprite.animation = Constants.AnimationIndexUp ∧
        g'.mode = Mode.ExitingPen ∧
        g'.currentRow = demoPenGhost.currentRow ∧ g'.currentCol = demoPenGhost.currentCol ∧
        g'.pCurrentDecision = demoPenGhost.pCurrentDecision ∧
        g'.pNextDecision = demoPenGhost.pNextDecision ∧
        g'.penTimer = demoPenGhost.penTimer :=
  ⟨rfl, by decide, rfl, by decide,
    Ghost.pen_release_step demoK 5000 demoPlayer demoMaze demoPenGhost rfl (by decide) rfl
      (by decide)⟩

/-! ### Leaving the pen (C9) -/

/-- Claim C9 (ExitingPen completion): in mode ExitingPen `Ghost::Update` returns. If, after
advancing, the sprite is past the centre of the exit cell (GhostPenRowExit, GhostPenCol) =
(14, 13), the ghost ends the tick exactly at that tile's centre, with recorded cell (14, 13),
`nextDecision` cleared, `currentDecision = Decision(14, 13, heading)`, mode Chase and a
horizontal velocity of magnitude 1.75 * GhostBaseSpeed: minus that speed when the player's X is
less than the ghost's X, plus that speed otherwise (equality included), so for a positive
GhostBaseSpeed the sign is negative exactly when the player's X is less than the ghost's X.
On every other ExitingPen tick the mode, the recorded cell and both Decisions are
unchanged. -/
theorem Ghost.exiting_pen_completion (K : Externals) (now : Nat) (pPlayer : Player)
    (pMaze : Maze) (g : Ghost) (hm : g.mode = Mode.ExitingPen) :
    ∃ g', Ghost.Update K now pPlayer pMaze g = some g' ∧
      (pMaze.IsSpritePastCenter Constants.GhostPenRowExit Constants.GhostPenCol
          g.sprite.Update = true →
        g'.sprite.x = (pMaze.GetTileCoordinates 14 13).x ∧
        g'.sprite.y = (pMaze.GetTileCoordinates 14 13).y ∧
        g'.currentRow = 14 ∧ g'.currentCol = 13 ∧
        g'.pNextDecision = none ∧
        g'.pCurrentDecision = some ⟨14, 13, K.CurrentDirection g'.sprite⟩ ∧
        g'.mode = Mode.Chase ∧
        g'.sprite.dy = 0 ∧
        |g'.sprite.dx| = |7 / 4 * K.GhostBaseSpeed| ∧
        (pPlayer.x < g'.sprite.x → g'.sprite.dx = -(7 / 4 * K.GhostBaseSpeed)) ∧
        (¬ pPlayer.x < g'.sprite.x → g'.sprite.dx = 7 / 4 * K.GhostBaseSpeed) ∧
        (0 < K.GhostBaseSpeed → (g'.sprite.dx < 0 ↔ pPlayer.x < g'.sprite.x))) ∧
      (pMaze.IsSpritePastCenter Constants.GhostPenRowExit Constants.GhostPenCol
          g.sprite.Update = false →
        g'.mode = g.mode ∧ g'.currentRow = g.currentRow ∧ g'.currentCol = g.currentCol ∧
        g'.pCurrentDecision = g.pCurrentDecision ∧ g'.pNextDecision = g.pNextDecision) := by
  have hU : Ghost.Update K now pPlayer pMaze g = some (Ghost.OnExitingPen K pPlayer pMaze g) := by
    unfold Ghost.Update
    rw [hm]
  refine ⟨_, hU, ?_, ?_⟩
  · intro hpast
    unfold Ghost.OnExitingPen
    dsimp only
    rw [if_pos hpast]
    dsimp only [Sprite.ResetPosition, Sprite.SetVelocity]
    refine ⟨rfl, rfl, rfl, rfl, rfl, rfl, rfl, rfl, ?_, ?_, ?_, ?_⟩
    · split_ifs
      · rw [show K.GhostBaseSpeed * (7 / 4) * (-1) = -(7 / 4 * K.GhostBaseSpeed) by ring, abs_neg]
      · rw [show K.GhostBaseSpeed * (7 / 4) = 7 / 4 * K.GhostBaseSpeed by ring]
    · intro hlt
      rw [if_pos hlt]
      ring
    · intro hlt
      rw [if_neg hlt]
      ring
    · intro hpos
      split_ifs with hlt
      · constructor
        · intro _; exact hlt
        · intro _; nlinarith
      · constructor
        · intro hneg; exfalso; nlinarith
        · intro h; exact absurd h hlt
  · intro hnot
    unfold Ghost.OnExitingPen
    dsimp only
    rw [if_neg (by rw [hnot]; decide)]
    exact ⟨rfl, rfl, rfl, rfl, rfl⟩

theorem Ghost.exiting_pen_completion_witness :
    demoExitingGhost.mode = Mode.ExitingPen ∧
      demoMaze.IsSpritePastCenter Constants.GhostPenRowExit Constants.GhostPenCol
        demoExitingGhost.sprite.Update = true ∧
      (0 : ℚ) < demoK.GhostBaseSpeed ∧
      ∃ g', Ghost.Update demoK 6000 demoPlayer demoMaze demoExitingGhost = some g' ∧
        g'.mode = Mode.Chase ∧ g'.currentRow = 14 ∧ g'.currentCol = 13 ∧
        (g'.sprite.dx < 0 ↔ demoPlayer.x < g'.sprite.x) :=
  ⟨rfl, by with_unfolding_all decide, by with_unfolding_all decide,
    (Ghost.exiting_pen_completion demoK 6000 demoPlayer demoMaze demoExitingGhost rfl).elim
      (fun g' h =>
        ⟨g', h.1, (h.2.1 (by with_unfolding_all decide)).2.2.2.2.2.2.1,
          (h.2.1 (by with_unfolding_all decide)).2.2.1,
          (h.2.1 (by with_unfolding_all decide)).2.2.2.1,
          (h.2.1 (by with_unfolding_all decide)).2.2.2.2.2.2.2.2.2.2.2
            (by with_unfolding_all decide)⟩)⟩

/-! ### The warp round trip (C10) -/

/-- A Chase tick that ends in WarpingOut halves the velocity. -/
theorem Ghost.Update_warp_entry (K : Externals) (now : Nat) (pPlayer : Player) (pMaze : Maze)
    (g g' : Ghost) (hm : g.mode = Mode.Chase)
    (h : Ghost.Update K now pPlayer pMaze g = some g') (hw : g'.mode = Mode.WarpingOut) :
    g'.sprite.dx = 1 / 2 * g.sprite.dx ∧ g'.sprite.dy = 1 / 2 * g.sprite.dy := by
  have hU : Ghost.Update K now pPlayer pMaze g = Ghost.OnChasing K now pPlayer pMaze g := by
    unfold Ghost.Update
    rw [hm]
  rw [hU] at h
  unfold Ghost.OnChasing at h
  dsimp only at h
  split_ifs at h with hx
  · have hs := Ghost.release_sprite K now pMaze g hx
    have := Ghost.motion_warp K pPlayer pMaze _ g' h (by rw [hs.2, hm]; decide) hw
    rw [hs.1] at this
    exact this
  · have e := Option.some.inj h
    rw [← e] at hw
    have hx' : (Ghost.OnChasing.release K now pMaze g).mode = Mode.ExitingPen := by
      simpa using hx
    rw [hx'] at hw
    exact Mode.noConfusion hw

/-- A tick in WarpingOut or WarpingIn either stays in these modes and keeps the velocity, or
returns to Chase with the velocity doubled. -/
theorem Ghost.Update_warping (K : Externals) (now : Nat) (pPlayer : Player) (pMaze : Maze)
    (g g' : Ghost) (hm : g.mode = Mode.WarpingOut ∨ g.mode = Mode.WarpingIn)
    (h : Ghost.Update K now pPlayer pMaze g = some g') :
    ((g'.mode = Mode.WarpingOut ∨ g'.mode = Mode.WarpingIn) ∧
        g'.sprite.dx = g.sprite.dx ∧ g'.sprite.dy = g.sprite.dy) ∨
      (g'.mode = Mode.Chase ∧ g'.sprite.dx = 2 * g.sprite.dx ∧
        g'.sprite.dy = 2 * g.sprite.dy) := by
  rcases hm with hm | hm
  · have hU : Ghost.Update K now pPlayer pMaze g = some (Ghost.OnWarpingOut K pMaze g) := by
      unfold Ghost.Update
      rw [hm]
    rw [hU] at h
    have e := Option.some.inj h
    rw [← e]
    left
    unfold Ghost.OnWarpingOut
    dsimp only
    split_ifs
    · exact ⟨Or.inr rfl, rfl, rfl⟩
    · exact ⟨Or.inr rfl, rfl, rfl⟩
    · exact ⟨Or.inl hm, rfl, rfl⟩
    · exact ⟨Or.inl hm, rfl, rfl⟩
  · have hU : Ghost.Update K now pPlayer pMaze g = some (Ghost.OnWarpingIn K pMaze g) := by
      unfold Ghost.Update
      rw [hm]
    rw [hU] at h
    have e := Option.some.inj h
    rw [← e]
    unfold Ghost.OnWarpingIn
    dsimp only
    split_ifs
    · right
      exact ⟨rfl, rfl, rfl⟩
    · left
      exact ⟨Or.inr hm, rfl, rfl⟩

/-- The rest of a warp, from a state in WarpingOut or WarpingIn to the first state in Chase:
the velocity doubles once. -/
theorem Ghost.warp_tail (K : Externals) (pMaze : Maze) :
    ∀ (ticks : List Tick) (g1 gEnd : Ghost),
      (g1.mode = Mode.WarpingOut ∨ g1.mode = Mode.WarpingIn) →
      (∀ k, k < ticks.length →
        Ghost.modeAfter K pMaze (ticks.take k) g1 = some Mode.WarpingOut ∨
          Ghost.modeAfter K pMaze (ticks.take k) g1 = some Mode.WarpingIn) →
      Ghost.run K pMaze ticks g1 = some gEnd → gEnd.mode = Mode.Chase →
      gEnd.sprite.dx = 2 * g1.sprite.dx ∧ gEnd.sprite.dy = 2 * g1.sprite.dy := by
  intro ticks
  induction ticks with
  | nil =>
    intro g1 gEnd hw _ hrun hend
    have e := Option.some.inj hrun
    rw [← e] at hend
    rcases hw with hw | hw <;> rw [hw] at hend <;> exact Mode.noConfusion hend
  | cons t ts ih =>
    intro g1 gEnd hw hpre hrun hend
    obtain ⟨g2, hu, hrest⟩ := Ghost.run_cons K pMaze t ts g1 gEnd hrun
    rcases Ghost.Update_warping K t.now t.pPlayer pMaze g1 g2 hw hu with ⟨hw2, hdx, hdy⟩ | ⟨hc, hdx, hdy⟩
    · have := ih g2 gEnd hw2 (fun k hk => by
        have := hpre (k + 1) (by simp; omega)
        rw [List.take_succ_cons, Ghost.modeAfter_cons K pMaze t _ g1 g2 hu] at this
        exact this) hrest hend
      rw [hdx, hdy] at this
      exact this
    · cases ts with
      | nil =>
        have e := Option.some.inj hrest
        rw [← e]
        exact ⟨hdx, hdy⟩
      | cons t2 ts2 =>
        exfalso
        have := hpre 1 (by simp)
        rw [List.take_succ_cons, Ghost.modeAfter_cons K pMaze t _ g1 g2 hu, List.take_zero,
          Ghost.modeAfter_nil, hc] at this
        rcases this with h | h <;> exact Mode.noConfusion (Option.some.inj h)

/-- One complete warp gives back the velocity it started with. -/
theorem Ghost.warp_trip_velocity (K : Externals) (pMaze : Maze) (g gEnd : Ghost)
    (ticks : List Tick) (h : Ghost.IsWarpTrip K pMaze g ticks gEnd) :
    gEnd.sprite.dx = g.sprite.dx ∧ gEnd.sprite.dy = g.sprite.dy := by
  obtain ⟨hm, hlen, hpre, hrun, hend⟩ := h
  cases ticks with
  | nil => simp at hlen
  | cons t ts =>
    obtain ⟨g1, hu, hrest⟩ := Ghost.run_cons K pMaze t ts g gEnd hrun
    have h1 := hpre 1 (by simpa using hlen) (by decide)
    rw [List.take_succ_cons, Ghost.modeAfter_cons K pMaze t _ g g1 hu, List.take_zero,
      Ghost.modeAfter_nil] at h1
    have hw1 : g1.mode = Mode.WarpingOut ∨ g1.mode = Mode.WarpingIn := by
      rcases h1 with h | h
      · exact Or.inl (Option.some.inj h)
      · exact Or.inr (Option.some.inj h)
    have hout : g1.mode = Mode.WarpingOut := by
      have hU : Ghost.Update K t.now t.pPlayer pMaze g = Ghost.OnChasing K t.now t.pPlayer pMaze g := by
        unfold Ghost.Update
        rw [hm]
      rw [hU] at hu
      unfold Ghost.OnChasing at hu
      dsimp only at hu
      split_ifs at hu with hx
      · have hs := Ghost.release_sprite K t.now pMaze g hx
        rcases (Ghost.motion_frame K t.pPlayer pMaze _ g1 hu).2.1 with h | h
        · rw [hs.2, hm] at h
          rcases hw1 with hw | hw <;> rw [hw] at h <;> exact Mode.noConfusion h
        · exact h
      · have e := Option.some.inj hu
        have hx' : (Ghost.OnChasing.release K t.now pMaze g).mode = Mode.ExitingPen := by
          simpa using hx
        rw [e] at hx'
        rcases hw1 with hw | hw <;> rw [hw] at hx' <;> exact Mode.noConfusion hx'
    obtain ⟨a, b⟩ := Ghost.Update_warp_entry K t.now t.pPlayer pMaze g g1 hm hu hout
    obtain ⟨c, d⟩ := Ghost.warp_tail K pMaze ts g1 gEnd hw1 (fun k hk => by
      rcases Nat.eq_zero_or_pos k with hk0 | hk0
      · subst hk0
        rw [List.take_zero, Ghost.modeAfter_nil]
        rcases hw1 with h | h
        · left; rw [h]
        · right; rw [h]
      · have := hpre (k + 1) (by simp; omega) (by omega)
        rw [List.take_succ_cons, Ghost.modeAfter_cons K pMaze t _ g g1 hu] at this
        exact this) hrest hend
    rw [c, d, a, b]
    constructor <;> ring

/-- Claim C10 (the warp round trip restores the velocity). First: for every ghost in Chase,
whatever its velocity, that enters a warp cell and goes through WarpingOut and WarpingIn, the
velocity it has when WarpingIn returns it to Chase is exactly the velocity it entered with.
Second: for any number `n` of complete warps, each entered with the velocity the one before
gave back, the velocity after every one of them is the velocity of the first entry: the
penalty does not compound. -/
theorem Ghost.warp_round_trip (K : Externals) (pMaze : Maze) :
    (∀ (g gEnd : Ghost) (ticks : List Tick), Ghost.IsWarpTrip K pMaze g ticks gEnd →
      gEnd.sprite.dx = g.sprite.dx ∧ gEnd.sprite.dy = g.sprite.dy) ∧
    (∀ (n : Nat) (gIn gOut : Nat → Ghost) (ticks : Nat → List Tick),
      (∀ i, i < n → Ghost.IsWarpTrip K pMaze (gIn i) (ticks i) (gOut i)) →
      (∀ i, i + 1 < n → (gIn (i + 1)).sprite.dx = (gOut i).sprite.dx ∧
        (gIn (i + 1)).sprite.dy = (gOut i).sprite.dy) →
      ∀ i, i < n → (gOut i).sprite.dx = (gIn 0).sprite.dx ∧
        (gOut i).sprite.dy = (gIn 0).sprite.dy) := by
  refine ⟨fun g gEnd ticks h => Ghost.warp_trip_velocity K pMaze g gEnd ticks h, ?_⟩
  intro n gIn gOut ticks htrip hchain i
  induction i with
  | zero =>
    intro h0
    exact Ghost.warp_trip_velocity K pMaze _ _ _ (htrip 0 h0)
  | succ j ih =>
    intro hj
    obtain ⟨a, b⟩ := Ghost.warp_trip_velocity K pMaze _ _ _ (htrip (j + 1) hj)
    obtain ⟨c, d⟩ := hchain j hj
    obtain ⟨e, f⟩ := ih (by omega)
    exact ⟨a.trans (c.trans e), b.trans (d.trans f)⟩

/-- The fast ghost makes one complete warp in 20 ticks. -/
theorem demoWarpGhost_trip :
    Ghost.IsWarpTrip demoK demoMaze demoWarpGhost (demoTicks 20) demoWarpGhost20 := by
  refine ⟨rfl, by decide, ?_, by with_unfolding_all rfl, rfl⟩
  intro k hk hpos
  have hk' : k < 20 := hk
  interval_cases k <;>
    first
      | exact Or.inl (by with_unfolding_all rfl)
      | exact Or.inr (by with_unfolding_all rfl)

theorem Ghost.warp_round_trip_witness :
    Ghost.IsWarpTrip demoK demoMaze demoWarpGhost (demoTicks 20) demoWarpGhost20 ∧
      (demoWarpGhost20.sprite.dx = demoWarpGhost.sprite.dx ∧
        demoWarpGhost20.sprite.dy = demoWarpGhost.sprite.dy) ∧
      ∀ i, i < 3 → demoWarpGhost20.sprite.dx = demoWarpGhost.sprite.dx ∧
        demoWarpGhost20.sprite.dy = demoWarpGhost.sprite.dy :=
  ⟨demoWarpGhost_trip,
    (Ghost.warp_round_trip demoK demoMaze).1 demoWarpGhost demoWarpGhost20 (demoTicks 20)
      demoWarpGhost_trip,
    (Ghost.warp_round_trip demoK demoMaze).2 3 (fun _ => demoWarpGhost)
      (fun _ => demoWarpGhost20) (fun _ => demoTicks 20) (fun _ _ => demoWarpGhost_trip)
      (fun _ _ => ⟨rfl, rfl⟩)⟩

/-! ### The warp modes (C11, C12) -/

/-- Claim C11 (warp-out wraparound): in mode WarpingOut `Ghost::Update` returns. If, after
advancing, the sprite is out of the map bounds, a ghost moving left (DX < 0) is repositioned to
x = mapRect.x + mapRect.w + Width and a ghost moving right (DX > 0) to x = mapRect.x - Width,
in both cases with the Y it has after advancing, the velocity unchanged and the mode WarpingIn.
If the sprite is not out of view, or DX = 0, the mode stays WarpingOut and the sprite is only
advanced, not repositioned. The recorded cell, both Decisions and the pen timer are unchanged
throughout. -/
theorem Ghost.warping_out_wraparound (K : Externals) (now : Nat) (pPlayer : Player)
    (pMaze : Maze) (g : Ghost) (hm : g.mode = Mode.WarpingOut) :
    ∃ g', Ghost.Update K now pPlayer pMaze g = some g' ∧
      (K.IsOutOfView g.sprite.Update pMaze.GetMapBounds = true → g.sprite.dx < 0 →
        g'.sprite.x = (pMaze.GetMapBounds.x : ℚ) + (pMaze.GetMapBounds.w : ℚ) + (K.Width : ℚ) ∧
        g'.sprite.y = g.sprite.Update.y ∧
        g'.sprite.dx = g.sprite.dx ∧ g'.sprite.dy = g.sprite.dy ∧
        g'.mode = Mode.WarpingIn) ∧
      (K.IsOutOfView g.sprite.Update pMaze.GetMapBounds = true → 0 < g.sprite.dx →
        g'.sprite.x = (pMaze.GetMapBounds.x : ℚ) - (K.Width : ℚ) ∧
        g'.sprite.y = g.sprite.Update.y ∧
        g'.sprite.dx = g.sprite.dx ∧ g'.sprite.dy = g.sprite.dy ∧
        g'.mode = Mode.WarpingIn) ∧
      (K.IsOutOfView g.sprite.Update pMaze.GetMapBounds = false ∨ g.sprite.dx = 0 →
        g'.mode = Mode.WarpingOut ∧ g'.sprite = g.sprite.Update) ∧
      g'.currentRow = g.currentRow ∧ g'.currentCol = g.currentCol ∧
      g'.pCurrentDecision = g.pCurrentDecision ∧ g'.pNextDecision = g.pNextDecision ∧
      g'.penTimer = g.penTimer := by
  have hU : Ghost.Update K now pPlayer pMaze g = some (Ghost.OnWarpingOut K pMaze g) := by
    unfold Ghost.Update
    rw [hm]
  refine ⟨_, hU, ?_, ?_, ?_, ?_⟩
  · intro hout hneg
    have hnp : ¬ g.sprite.Update.dx > 0 := by
      show ¬ g.sprite.dx > 0
      exact not_lt.mpr (le_of_lt hneg)
    have hn : g.sprite.Update.dx < 0 := hneg
    unfold Ghost.OnWarpingOut
    dsimp only
    rw [if_pos hout, if_neg hnp, if_pos hn]
    refine ⟨?_, rfl, rfl, rfl, rfl⟩
    simp [Sprite.ResetPosition]
  · intro hout hpos
    have hp : g.sprite.Update.dx > 0 := hpos
    unfold Ghost.OnWarpingOut
    dsimp only
    rw [if_pos hout, if_pos hp]
    refine ⟨?_, rfl, rfl, rfl, rfl⟩
    simp [Sprite.ResetPosition]
  · intro h
    unfold Ghost.OnWarpingOut
    dsimp only
    rcases h with h | h
    · rw [if_neg (by rw [h]; decide)]
      exact ⟨hm, rfl⟩
    · have h1 : ¬ g.sprite.Update.dx > 0 := by
        show ¬ g.sprite.dx > 0
        rw [h]; exact lt_irrefl 0
      have h2 : ¬ g.sprite.Update.dx < 0 := by
        show ¬ g.sprite.dx < 0
        rw [h]; exact lt_irrefl 0
      split_ifs
      · exact ⟨hm, rfl⟩
      · exact ⟨hm, rfl⟩
  · unfold Ghost.OnWarpingOut
    dsimp only
    split_ifs <;> exact ⟨rfl, rfl, rfl, rfl, rfl⟩

theorem Ghost.warping_out_wraparound_witness :
    demoWarpOutGhost.mode = Mode.WarpingOut ∧
      demoK.IsOutOfView demoWarpOutGhost.sprite.Update demoMaze.GetMapBounds = true ∧
      demoWarpOutGhost.sprite.dx < 0 ∧
      ∃ g', Ghost.Update demoK 160 demoPlayer demoMaze demoWarpOutGhost = some g' ∧
        g'.sprite.x = (demoMaze.GetMapBounds.x : ℚ) + (demoMaze.GetMapBounds.w : ℚ) +
          (demoK.Width : ℚ) ∧
        g'.sprite.y = demoWarpOutGhost.sprite.Update.y ∧
        g'.sprite.dx = demoWarpOutGhost.sprite.dx ∧ g'.sprite.dy = demoWarpOutGhost.sprite.dy ∧
        g'.mode = Mode.WarpingIn :=
  ⟨rfl, by with_unfolding_all decide, by with_unfolding_all decide,
    (Ghost.warping_out_wraparound demoK 160 demoPlayer demoMaze demoWarpOutGhost rfl).elim
      (fun g' h =>
        ⟨g', h.1, h.2.1 (by with_unfolding_all decide) (by with_unfolding_all decide)⟩)⟩

/-- Claim C12 (WarpingIn exit condition): in mode WarpingIn `Ghost::Update` returns, and the
ghost is in Chase afterwards exactly when, after advancing, its cell is on row
Constants::WarpRow (17) at column 2 or column 25. On that tick the recorded cell is set to that
cell, `nextDecision` is cleared, `currentDecision = Decision(that cell, heading)` and the
velocity is doubled; on every other WarpingIn tick the mode, the recorded cell, the velocity
and both Decisions are unchanged. -/
theorem Ghost.warping_in_exit (K : Externals) (now : Nat) (pPlayer : Player) (pMaze : Maze)
    (g : Ghost) (hm : g.mode = Mode.WarpingIn) :
    ∃ g', Ghost.Update K now pPlayer pMaze g = some g' ∧
      (g'.mode = Mode.Chase ↔
        (pMaze.GetTileRowCol ⟨toInt g.sprite.Update.x, toInt g.sprite.Update.y⟩).1 = 17 ∧
          ((pMaze.GetTileRowCol ⟨toInt g.sprite.Update.x, toInt g.sprite.Update.y⟩).2 = 2 ∨
            (pMaze.GetTileRowCol ⟨toInt g.sprite.Update.x, toInt g.sprite.Update.y⟩).2 = 25)) ∧
      (g'.mode = Mode.Chase →
        (g'.currentRow, g'.currentCol) =
          pMaze.GetTileRowCol ⟨toInt g.sprite.Update.x, toInt g.sprite.Update.y⟩ ∧
        g'.pNextDecision = none ∧
        g'.pCurrentDecision =
          some ⟨g'.currentRow, g'.currentCol, K.CurrentDirection g'.sprite⟩ ∧
        g'.sprite.dx = 2 * g.sprite.dx ∧ g'.sprite.dy = 2 * g.sprite.dy) ∧
      (g'.mode ≠ Mode.Chase →
        g'.mode = g.mode ∧ g'.currentRow = g.currentRow ∧ g'.currentCol = g.currentCol ∧
        g'.sprite.dx = g.sprite.dx ∧ g'.sprite.dy = g.sprite.dy ∧
        g'.pCurrentDecision = g.pCurrentDecision ∧ g'.pNextDecision = g.pNextDecision) := by
  have hU : Ghost.Update K now pPlayer pMaze g = some (Ghost.OnWarpingIn K pMaze g) := by
    unfold Ghost.Update
    rw [hm]
  refine ⟨_, hU, ?_⟩
  unfold Ghost.OnWarpingIn
  dsimp only
  by_cases hc : (pMaze.GetTileRowCol ⟨toInt g.sprite.Update.x, toInt g.sprite.Update.y⟩).1 =
      Constants.WarpRow ∧
      ((pMaze.GetTileRowCol ⟨toInt g.sprite.Update.x, toInt g.sprite.Update.y⟩).2 = 2 ∨
        (pMaze.GetTileRowCol ⟨toInt g.sprite.Update.x, toInt g.sprite.Update.y⟩).2 = 25)
  · rw [if_pos hc]
    refine ⟨⟨fun _ => hc, fun _ => rfl⟩, fun _ => ⟨rfl, rfl, rfl, rfl, rfl⟩, fun h => absurd rfl h⟩
  · rw [if_neg hc]
    have hne : g.mode ≠ Mode.Chase := by rw [hm]; decide
    refine ⟨⟨fun h => absurd h hne, fun h => absurd h hc⟩, fun h => absurd h hne,
      fun _ => ⟨rfl, rfl, rfl, rfl, rfl, rfl, rfl⟩⟩

theorem Ghost.warping_in_exit_witness :
    demoWarpInGhost.mode = Mode.WarpingIn ∧
      ∃ g', Ghost.Update demoK 320 demoPlayer demoMaze demoWarpInGhost = some g' ∧
        (g'.mode = Mode.Chase ↔
          (demoMaze.GetTileRowCol
              ⟨toInt demoWarpInGhost.sprite.Update.x, toInt demoWarpInGhost.sprite.Update.y⟩).1
            = 17 ∧
          ((demoMaze.GetTileRowCol
              ⟨toInt demoWarpInGhost.sprite.Update.x, toInt demoWarpInGhost.sprite.Update.y⟩).2
            = 2 ∨
            (demoMaze.GetTileRowCol
              ⟨toInt demoWarpInGhost.sprite.Update.x, toInt demoWarpInGhost.sprite.Update.y⟩).2
            = 25)) ∧
        (demoMaze.GetTileRowCol
            ⟨toInt demoWarpInGhost.sprite.Update.x, toInt demoWarpInGhost.sprite.Update.y⟩
          = (17, 25)) :=
  ⟨rfl,
    (Ghost.warping_in_exit demoK 320 demoPlayer demoMaze demoWarpInGhost rfl).elim
      (fun g' h => ⟨g', h.1, h.2.1, by with_unfolding_all rfl⟩)⟩

/-! ### The mode transition relation (C13) -/

/-- The release step leaves the mode alone or sets it to ExitingPen. -/
theorem Ghost.release_mode (K : Externals) (now : Nat) (pMaze : Maze) (g : Ghost) :
    (Ghost.OnChasing.release K now pMaze g).mode = g.mode ∨
      (Ghost.OnChasing.release K now pMaze g).mode = Mode.ExitingPen := by
  unfold Ghost.OnChasing.release
  split_ifs
  · exact Or.inl rfl
  · exact Or.inr rfl
  · exact Or.inl rfl
  · exact Or.inl rfl

/-- The modes one tick can lead to, from each mode. -/
theorem Ghost.Update_mode (K : Externals) (now : Nat) (pPlayer : Player) (pMaze : Maze)
    (g g' : Ghost) (h : Ghost.Update K now pPlayer pMaze g = some g') :
    (g.mode = Mode.Chase →
      g'.mode = Mode.Chase ∨ g'.mode = Mode.WarpingOut ∨ g'.mode = Mode.ExitingPen) ∧
    (g.mode = Mode.ExitingPen → g'.mode = Mode.ExitingPen ∨ g'.mode = Mode.Chase) ∧
    (g.mode = Mode.WarpingOut → g'.mode = Mode.WarpingOut ∨ g'.mode = Mode.WarpingIn) ∧
    (g.mode = Mode.WarpingIn → g'.mode = Mode.WarpingIn ∨ g'.mode = Mode.Chase) ∧
    (g.mode = Mode.Scatter → g'.mode = Mode.Scatter) := by
  refine ⟨?_, ?_, ?_, ?_, ?_⟩
  · intro hm
    have hU : Ghost.Update K now pPlayer pMaze g = Ghost.OnChasing K now pPlayer pMaze g := by
      unfold Ghost.Update
      rw [hm]
    rw [hU] at h
    unfold Ghost.OnChasing at h
    dsimp only at h
    split_ifs at h with hx
    · have hs := Ghost.release_sprite K now pMaze g hx
      rcases (Ghost.motion_frame K pPlayer pMaze _ g' h).2.1 with a | a
      · left; rw [a, hs.2, hm]
      · right; left; exact a
    · have e := Option.some.inj h
      right; right
      rw [← e]
      simpa using hx
  · intro hm
    have hU : Ghost.Update K now pPlayer pMaze g = some (Ghost.OnExitingPen K pPlayer pMaze g) := by
      unfold Ghost.Update
      rw [hm]
    rw [hU] at h
    have e := Option.some.inj h
    rw [← e]
    unfold Ghost.OnExitingPen
    dsimp only
    split_ifs
    · exact Or.inr rfl
    · exact Or.inr rfl
    · exact Or.inl hm
  · intro hm
    rcases Ghost.Update_warping K now pPlayer pMaze g g' (Or.inl hm) h with ⟨a, _⟩ | ⟨a, _⟩
    · exact a
    · exfalso
      have hU : Ghost.Update K now pPlayer pMaze g = some (Ghost.OnWarpingOut K pMaze g) := by
        unfold Ghost.Update
        rw [hm]
      rw [hU] at h
      have e := Option.some.inj h
      rw [← e] at a
      unfold Ghost.OnWarpingOut at a
      dsimp only at a
      split_ifs at a <;> first | exact Mode.noConfusion a | (rw [hm] at a; exact Mode.noConfusion a)
  · intro hm
    rcases Ghost.Update_warping K now pPlayer pMaze g g' (Or.inr hm) h with ⟨a, _⟩ | ⟨a, _⟩
    · rcases a with a | a
      · exfalso
        have hU : Ghost.Update K now pPlayer pMaze g = some (Ghost.OnWarpingIn K pMaze g) := by
          unfold Ghost.Update
          rw [hm]
        rw [hU] at h
        have e := Option.some.inj h
        rw [← e] at a
        unfold Ghost.OnWarpingIn at a
        dsimp only at a
        split_ifs at a
        rw [hm] at a
        exact Mode.noConfusion a
      · exact Or.inl a
    · exact Or.inr a
  · intro hm
    unfold Ghost.Update at h
    rw [hm] at h
    have e := Option.some.inj h
    rw [← e]
    exact hm

/-- Ticks never lead into Scatter. -/
theorem Ghost.run_not_Scatter (K : Externals) (pMaze : Maze) :
    ∀ (ticks : List Tick) (g g' : Ghost), g.mode ≠ Mode.Scatter →
      Ghost.run K pMaze ticks g = some g' → g'.mode ≠ Mode.Scatter := by
  intro ticks
  induction ticks with
  | nil =>
    intro g g' hm h
    have e := Option.some.inj h
    rw [← e]; exact hm
  | cons t ts ih =>
    intro g g' hm h
    obtain ⟨g1, hu, hrest⟩ := Ghost.run_cons K pMaze t ts g g' h
    refine ih g1 g' ?_ hrest
    obtain ⟨a, b, c, d, _⟩ := Ghost.Update_mode K t.now t.pPlayer pMaze g g1 hu
    intro hs
    cases hg : g.mode with
    | Chase => rcases a hg with x | x | x <;> rw [hs] at x <;> exact Mode.noConfusion x
    | Scatter => exact hm hg
    | WarpingOut => rcases c hg with x | x <;> rw [hs] at x <;> exact Mode.noConfusion x
    | WarpingIn => rcases d hg with x | x <;> rw [hs] at x <;> exact Mode.noConfusion x
    | ExitingPen => rcases b hg with x | x <;> rw [hs] at x <;> exact Mode.noConfusion x

/-- Claim C13 (mode transition relation): one `Ghost::Update` that returns can only take Chase
to Chase, WarpingOut or ExitingPen; ExitingPen to ExitingPen or Chase; WarpingOut to WarpingOut
or WarpingIn; WarpingIn to WarpingIn or Chase. Hence ExitingPen is entered only from Chase, and
Scatter is never entered: no state reached by any sequence of ticks from a non-Scatter state
has mode Scatter. -/
theorem Ghost.mode_transitions (K : Externals) (pMaze : Maze) :
    (∀ (now : Nat) (pPlayer : Player) (g g' : Ghost),
      Ghost.Update K now pPlayer pMaze g = some g' →
        (g.mode = Mode.Chase →
          g'.mode = Mode.Chase ∨ g'.mode = Mode.WarpingOut ∨ g'.mode = Mode.ExitingPen) ∧
        (g.mode = Mode.ExitingPen → g'.mode = Mode.ExitingPen ∨ g'.mode = Mode.Chase) ∧
        (g.mode = Mode.WarpingOut → g'.mode = Mode.WarpingOut ∨ g'.mode = Mode.WarpingIn) ∧
        (g.mode = Mode.WarpingIn → g'.mode = Mode.WarpingIn ∨ g'.mode = Mode.Chase) ∧
        (g'.mode = Mode.ExitingPen → g.mode ≠ Mode.ExitingPen → g.mode = Mode.Chase)) ∧
    (∀ (ticks : List Tick) (g g' : Ghost), g.mode ≠ Mode.Scatter →
      Ghost.run K pMaze ticks g = some g' → g'.mode ≠ Mode.Scatter) := by
  refine ⟨?_, Ghost.run_not_Scatter K pMaze⟩
  intro now pPlayer g g' h
  obtain ⟨a, b, c, d, e⟩ := Ghost.Update_mode K now pPlayer pMaze g g' h
  refine ⟨a, b, c, d, ?_⟩
  intro hx hne
  cases hg : g.mode with
  | Chase => rfl
  | Scatter => have := e hg; rw [hx] at this; exact Mode.noConfusion this
  | WarpingOut => rcases c hg with x | x <;> rw [hx] at x <;> exact Mode.noConfusion x
  | WarpingIn => rcases d hg with x | x <;> rw [hx] at x <;> exact Mode.noConfusion x
  | ExitingPen => exact absurd hg hne

theorem Ghost.mode_transitions_witness :
    (Ghost.Update demoK 0 demoPlayer demoMaze demoWarpGhost = some demoWarpGhost1 ∧
      demoWarpGhost.mode = Mode.Chase ∧
      (demoWarpGhost1.mode = Mode.Chase ∨ demoWarpGhost1.mode = Mode.WarpingOut ∨
        demoWarpGhost1.mode = Mode.ExitingPen)) ∧
    (demoWarpGhost.mode ≠ Mode.Scatter ∧
      Ghost.run demoK demoMaze (demoTicks 20) demoWarpGhost = some demoWarpGhost20 ∧
      demoWarpGhost20.mode ≠ Mode.Scatter) :=
  ⟨⟨by with_unfolding_all rfl, rfl,
      ((Ghost.mode_transitions demoK demoMaze).1 0 demoPlayer demoWarpGhost demoWarpGhost1
        (by with_unfolding_all rfl)).1 rfl⟩,
    ⟨by decide, by with_unfolding_all rfl,
      (Ghost.mode_transitions demoK demoMaze).2 (demoTicks 20) demoWarpGhost demoWarpGhost20
        (by decide) (by with_unfolding_all rfl)⟩⟩

/-! ### The distance of the intersection decision (C14) -/

/-- Claim C14 at its failing input: with the player at (264.75, 280), in the tunnel row, and
the ghost heading right toward the intersection (14, 13), the valid candidates are Down, with
tile centre (216, 248), and Right, with tile centre (232, 232). The exact Euclidean distance is
smaller for Right (squares 54025/16 against 54409/16), but `SDL_abs` takes an `int`, so the
differences 48.75 and 32.75 are truncated to 48 and 32, both candidates rank at the square
root of 3328, and `Blinky::MakeBranchDecision` returns Down, the earlier of the two. -/
theorem Blinky.MakeBranchDecision_truncates :
    Blinky.MakeBranchDecision demoK demoGhost 14 13 demoFractionPlayer demoMaze =
        some Direction.Down ∧
      Blinky.IsCandidate demoK demoGhost 14 13 demoMaze Direction.Down ∧
      Blinky.IsCandidate demoK demoGhost 14 13 demoMaze Direction.Right ∧
      Blinky.candidateDistance demoFractionPlayer demoMaze 14 13 Direction.Down = SDL_sqrt 3328 ∧
      Blinky.candidateDistance demoFractionPlayer demoMaze 14 13 Direction.Right = SDL_sqrt 3328 ∧
      Blinky.euclideanSq demoFractionPlayer (demoMaze.GetTileCoordinates 15 13) = 54409 / 16 ∧
      Blinky.euclideanSq demoFractionPlayer (demoMaze.GetTileCoordinates 14 14) = 54025 / 16 ∧
      Blinky.euclideanSq demoFractionPlayer (demoMaze.GetTileCoordinates 14 14) <
        Blinky.euclideanSq demoFractionPlayer (demoMaze.GetTileCoordinates 15 13) :=
  ⟨by with_unfolding_all rfl, by with_unfolding_all decide, by with_unfolding_all decide,
    by with_unfolding_all rfl, by with_unfolding_all rfl,
    by norm_num [Blinky.euclideanSq, demoFractionPlayer, demoMaze],
    by norm_num [Blinky.euclideanSq, demoFractionPlayer, demoMaze],
    by norm_num [Blinky.euclideanSq, demoFractionPlayer, demoMaze]⟩

/-! ### The lookahead (C15, C17) -/

/-- What `Ghost::GetNextDecision` returns, with a non-null current Decision: nothing exactly
when the candidate cell is solid or the decision taken for it fails or is None; otherwise a
Decision at the candidate cell with the direction decided. -/
theorem Ghost.GetNextDecision_cases (K : Externals) (pPlayer : Player) (pMaze : Maze)
    (g : Ghost) (cur : Decision) (hcur : g.pCurrentDecision = some cur) :
    (Ghost.GetNextDecision K pPlayer pMaze g = none ↔
      pMaze.IsTileSolid (Ghost.lookaheadCell pMaze g cur).1 (Ghost.lookaheadCell pMaze g cur).2
          = true ∨
        (pMaze.IsTileIntersection (Ghost.lookaheadCell pMaze g cur).1
            (Ghost.lookaheadCell pMaze g cur).2 = true ∧
          Blinky.MakeBranchDecision K g (Ghost.lookaheadCell pMaze g cur).1
            (Ghost.lookaheadCell pMaze g cur).2 pPlayer pMaze = none) ∨
        (pMaze.IsTileIntersection (Ghost.lookaheadCell pMaze g cur).1
            (Ghost.lookaheadCell pMaze g cur).2 = false ∧
          (Ghost.GetNextDirection g (Ghost.lookaheadCell pMaze g cur).1
              (Ghost.lookaheadCell pMaze g cur).2 pMaze = none ∨
            Ghost.GetNextDirection g (Ghost.lookaheadCell pMaze g cur).1
              (Ghost.lookaheadCell pMaze g cur).2 pMaze = some Direction.None))) ∧
    ∀ (g' : Ghost) (dec : Decision), Ghost.GetNextDecision K pPlayer pMaze g = some (g', dec) →
      pMaze.IsTileSolid (Ghost.lookaheadCell pMaze g cur).1 (Ghost.lookaheadCell pMaze g cur).2
        = false ∧
      dec.row = (Ghost.lookaheadCell pMaze g cur).1 ∧
      dec.col = (Ghost.lookaheadCell pMaze g cur).2 ∧
      dec.direction ≠ Direction.None ∧
      (pMaze.IsTileIntersection (Ghost.lookaheadCell pMaze g cur).1
          (Ghost.lookaheadCell pMaze g cur).2 = true →
        Blinky.MakeBranchDecision K g (Ghost.lookaheadCell pMaze g cur).1
          (Ghost.lookaheadCell pMaze g cur).2 pPlayer pMaze = some dec.direction) ∧
      (pMaze.IsTileIntersection (Ghost.lookaheadCell pMaze g cur).1
          (Ghost.lookaheadCell pMaze g cur).2 = false →
        Ghost.GetNextDirection g (Ghost.lookaheadCell pMaze g cur).1
          (Ghost.lookaheadCell pMaze g cur).2 pMaze = some dec.direction) := by
  obtain ⟨s, t, r, c, md, nx, cu⟩ := g
  dsimp only at hcur
  subst hcur
  unfold Ghost.GetNextDecision Ghost.lookaheadCell Ghost.cell
  dsimp only
  generalize TranslateCell (pMaze.GetTileRowCol ⟨toInt s.x, toInt s.y⟩).1
    (pMaze.GetTileRowCol ⟨toInt s.x, toInt s.y⟩).2 cur.direction = rc
  have hMB : ∀ (r' c' : Nat), Blinky.MakeBranchDecision K
      ⟨s, t, (pMaze.GetTileRowCol ⟨toInt s.x, toInt s.y⟩).1,
        (pMaze.GetTileRowCol ⟨toInt s.x, toInt s.y⟩).2, md, nx, some cur⟩ r' c' pPlayer pMaze =
      Blinky.MakeBranchDecision K ⟨s, t, r, c, md, nx, some cur⟩ r' c' pPlayer pMaze :=
    fun _ _ => rfl
  have hND : ∀ (r' c' : Nat), Ghost.GetNextDirection
      ⟨s, t, (pMaze.GetTileRowCol ⟨toInt s.x, toInt s.y⟩).1,
        (pMaze.GetTileRowCol ⟨toInt s.x, toInt s.y⟩).2, md, nx, some cur⟩ r' c' pMaze =
      Ghost.GetNextDirection ⟨s, t, r, c, md, nx, some cur⟩ r' c' pMaze :=
    fun _ _ => rfl
  rw [hMB, hND]
  by_cases hsol : pMaze.IsTileSolid rc.1 rc.2 = false
  · rw [if_pos hsol]
    by_cases hI : pMaze.IsTileIntersection rc.1 rc.2 = true
    · rw [if_pos hI]
      cases hmb : Blinky.MakeBranchDecision K ⟨s, t, r, c, md, nx, some cur⟩ rc.1 rc.2 pPlayer pMaze with
      | none =>
        dsimp only
        refine ⟨⟨fun _ => Or.inr (Or.inl ⟨hI, rfl⟩), fun _ => rfl⟩, ?_⟩
        intro g' dec h
        exact Option.noConfusion h
      | some d =>
        dsimp only
        have hd : d ≠ Direction.None :=
          (Blinky.MakeBranchDecision_some K _ rc.1 rc.2 pPlayer pMaze d hmb).2.2.1
        rw [if_pos hd]
        constructor
        · constructor
          · intro h; exact Option.noConfusion h
          · rintro (h | ⟨_, h⟩ | ⟨h, _⟩)
            · rw [hsol] at h; exact Bool.noConfusion h
            · exact Option.noConfusion h
            · rw [hI] at h; exact Bool.noConfusion h
        · intro g' dec h
          have e := Option.some.inj h
          have e2 : dec = ⟨rc.1, rc.2, d⟩ := (congrArg Prod.snd e).symm
          rw [e2]
          exact ⟨hsol, rfl, rfl, hd, fun _ => rfl, fun h => by rw [hI] at h; exact Bool.noConfusion h⟩
    · have hI' : pMaze.IsTileIntersection rc.1 rc.2 = false := by simpa using hI
      rw [if_neg hI]
      cases hnd : Ghost.GetNextDirection ⟨s, t, r, c, md, nx, some cur⟩ rc.1 rc.2 pMaze with
      | none =>
        dsimp only
        refine ⟨⟨fun _ => Or.inr (Or.inr ⟨hI', Or.inl rfl⟩), fun _ => rfl⟩, ?_⟩
        intro g' dec h
        exact Option.noConfusion h
      | some d =>
        dsimp only
        by_cases hd : d ≠ Direction.None
        · rw [if_pos hd]
          constructor
          · constructor
            · intro h; exact Option.noConfusion h
            · rintro (h | ⟨h, _⟩ | ⟨_, h | h⟩)
              · rw [hsol] at h; exact Bool.noConfusion h
              · exact absurd h hI
              · exact Option.noConfusion h
              · exact absurd (Option.some.inj h) hd
          · intro g' dec h
            have e := Option.some.inj h
            have e2 : dec = ⟨rc.1, rc.2, d⟩ := (congrArg Prod.snd e).symm
            rw [e2]
            exact ⟨hsol, rfl, rfl, hd, fun h => absurd h hI, fun _ => rfl⟩
        · rw [if_neg hd]
          have hd' : d = Direction.None := by simpa using hd
          refine ⟨⟨fun _ => Or.inr (Or.inr ⟨hI', Or.inr (by rw [hd'])⟩), fun _ => rfl⟩, ?_⟩
          intro g' dec h
          exact Option.noConfusion h
  · rw [if_neg hsol]
    have hsol' : pMaze.IsTileSolid rc.1 rc.2 = true := by simpa using hsol
    refine ⟨⟨fun _ => Or.inl hsol', fun _ => rfl⟩, ?_⟩
    intro g' dec h
    exact Option.noConfusion h

/-- At an intersection `Blinky::MakeBranchDecision` fails exactly when no candidate is
valid. -/
theorem Blinky.MakeBranchDecision_none_iff (K : Externals) (g : Ghost) (nRow nCol : Nat)
    (pPlayer : Player) (pMaze : Maze) (hI : pMaze.IsTileIntersection nRow nCol = true) :
    Blinky.MakeBranchDecision K g nRow nCol pPlayer pMaze = none ↔
      ¬ ∃ d, Blinky.IsCandidate K g nRow nCol pMaze d := by
  constructor
  · intro h hex
    obtain ⟨hs, hv⟩ := Blinky.shortest_valid K g nRow nCol pPlayer pMaze hex
    rw [Blinky.MakeBranchDecision_eq K g nRow nCol pPlayer pMaze hI hs hv] at h
    exact Option.noConfusion h
  · intro hno
    cases hmb : Blinky.MakeBranchDecision K g nRow nCol pPlayer pMaze with
    | none => rfl
    | some d =>
      exact absurd ⟨d, (Blinky.MakeBranchDecision_some K g nRow nCol pPlayer pMaze d hmb).2.2⟩ hno

/-- When `Ghost::GetNextDirection` returns, the current Decision is set and its direction is
not None. -/
theorem Ghost.GetNextDirection_some (g : Ghost) (r c : Nat) (pMaze : Maze) (d : Direction)
    (h : Ghost.GetNextDirection g r c pMaze = some d) :
    ∃ cur, g.pCurrentDecision = some cur ∧ cur.direction ≠ Direction.None := by
  unfold Ghost.GetNextDirection at h
  split at h
  · exact Option.noConfusion h
  · rename_i cur hcur
    refine ⟨cur, hcur, ?_⟩
    intro hN
    dsimp only at h
    rw [hN] at h
    exact Option.noConfusion h

/-- Claim C15 (the lookahead fails fast): with a current Decision whose direction is one of
the four cardinal directions, `Ghost::GetNextDecision` halts on an assertion, returning no
Decision, exactly when the candidate next cell is solid, or it is a non-intersection cell with
no non-solid non-reverse neighbour, or it is an intersection for which
`Blinky::MakeBranchDecision` has no valid candidate; in every other case it returns a Decision,
and a Decision it returns is at the candidate cell with a direction among Up, Down, Left,
Right. -/
theorem Ghost.GetNextDecision_fails_fast (K : Externals) (pPlayer : Player) (pMaze : Maze)
    (g : Ghost) (cur : Decision) (hcur : g.pCurrentDecision = some cur)
    (hdir : cur.direction ≠ Direction.None) :
    (Ghost.GetNextDecision K pPlayer pMaze g = none ↔
      pMaze.IsTileSolid (Ghost.lookaheadCell pMaze g cur).1 (Ghost.lookaheadCell pMaze g cur).2
          = true ∨
        (pMaze.IsTileIntersection (Ghost.lookaheadCell pMaze g cur).1
            (Ghost.lookaheadCell pMaze g cur).2 = false ∧
          ¬ ∃ e, e ≠ Direction.None ∧ e ≠ Opposite cur.direction ∧
            Ghost.IsOpen pMaze (Ghost.lookaheadCell pMaze g cur).1
              (Ghost.lookaheadCell pMaze g cur).2 e) ∨
        (pMaze.IsTileIntersection (Ghost.lookaheadCell pMaze g cur).1
            (Ghost.lookaheadCell pMaze g cur).2 = true ∧
          ¬ ∃ d, Blinky.IsCandidate K g (Ghost.lookaheadCell pMaze g cur).1
            (Ghost.lookaheadCell pMaze g cur).2 pMaze d)) ∧
    (∀ (g' : Ghost) (dec : Decision),
      Ghost.GetNextDecision K pPlayer pMaze g = some (g', dec) →
        (dec.row, dec.col) = Ghost.lookaheadCell pMaze g cur ∧
        (dec.direction = Direction.Up ∨ dec.direction = Direction.Down ∨
          dec.direction = Direction.Left ∨ dec.direction = Direction.Right)) := by
  obtain ⟨h1, h2⟩ := Ghost.GetNextDecision_cases K pPlayer pMaze g cur hcur
  obtain ⟨d0, hd0, hopen, hfirst⟩ := Ghost.GetNextDirection_spec g cur
    (Ghost.lookaheadCell pMaze g cur).1 (Ghost.lookaheadCell pMaze g cur).2 pMaze hcur hdir
  constructor
  · rw [h1]
    constructor
    · rintro (h | ⟨hI, h⟩ | ⟨hI, h | h⟩)
      · exact Or.inl h
      · exact Or.inr (Or.inr ⟨hI, (Blinky.MakeBranchDecision_none_iff K g _ _ pPlayer pMaze hI).1 h⟩)
      · rw [hd0] at h; exact Option.noConfusion h
      · right; left
        refine ⟨hI, ?_⟩
        rintro ⟨e, he1, he2, he3⟩
        rw [hd0] at h
        exact (hfirst e he1 he2 he3).1 (Option.some.inj h)
    · rintro (h | ⟨hI, h⟩ | ⟨hI, h⟩)
      · exact Or.inl h
      · right; right
        refine ⟨hI, Or.inr ?_⟩
        rw [hd0]
        by_cases hN : d0 = Direction.None
        · rw [hN]
        · exact absurd ⟨d0, hN, (hopen hN).1, (hopen hN).2⟩ h
      · exact Or.inr (Or.inl ⟨hI, (Blinky.MakeBranchDecision_none_iff K g _ _ pPlayer pMaze hI).2 h⟩)
  · intro g' dec h
    obtain ⟨_, a, b, c, _⟩ := h2 g' dec h
    refine ⟨by rw [a, b], ?_⟩
    cases hd : dec.direction with
    | Up => exact Or.inl rfl
    | Down => exact Or.inr (Or.inl rfl)
    | Left => exact Or.inr (Or.inr (Or.inl rfl))
    | Right => exact Or.inr (Or.inr (Or.inr rfl))
    | None => exact absurd hd c

theorem Ghost.GetNextDecision_fails_fast_witness :
    demoGhost.pCurrentDecision = some ⟨14, 12, Direction.Right⟩ ∧
      Direction.Right ≠ Direction.None ∧
      Ghost.GetNextDecision demoK demoPlayer demoMaze demoGhost =
        some (demoGhost, ⟨14, 13, Direction.Down⟩) ∧
      ((14, 13) = Ghost.lookaheadCell demoMaze demoGhost ⟨14, 12, Direction.Right⟩ ∧
        (Direction.Down = Direction.Up ∨ Direction.Down = Direction.Down ∨
          Direction.Down = Direction.Left ∨ Direction.Down = Direction.Right)) :=
  ⟨rfl, by decide, by with_unfolding_all rfl,
    (Ghost.GetNextDecision_fails_fast demoK demoPlayer demoMaze demoGhost
      ⟨14, 12, Direction.Right⟩ rfl (by decide)).2 demoGhost ⟨14, 13, Direction.Down⟩
      (by with_unfolding_all rfl)⟩

/-- Claim C17 (no decision leads into a wall): every Decision (r, c, d) that
`Ghost::GetNextDecision` returns, through the intersection branch or the non-intersection
branch, has (r, c) non-solid and the neighbour of (r, c) in direction d non-solid. -/
theorem Ghost.GetNextDecision_not_into_wall (K : Externals) (pPlayer : Player) (pMaze : Maze)
    (g g' : Ghost) (dec : Decision)
    (h : Ghost.GetNextDecision K pPlayer pMaze g = some (g', dec)) :
    pMaze.IsTileSolid dec.row dec.col = false ∧
      pMaze.IsTileSolid (TranslateCell dec.row dec.col dec.direction).1
        (TranslateCell dec.row dec.col dec.direction).2 = false := by
  cases hcur : g.pCurrentDecision with
  | none =>
    exfalso
    unfold Ghost.GetNextDecision at h
    dsimp only at h
    rw [hcur] at h
    exact Option.noConfusion h
  | some cur =>
    obtain ⟨a, b, c, d, e, f⟩ := (Ghost.GetNextDecision_cases K pPlayer pMaze g cur hcur).2 g' dec h
    rw [b, c]
    refine ⟨a, ?_⟩
    by_cases hI : pMaze.IsTileIntersection (Ghost.lookaheadCell pMaze g cur).1
        (Ghost.lookaheadCell pMaze g cur).2 = true
    · exact (Blinky.MakeBranchDecision_some K g _ _ pPlayer pMaze dec.direction (e hI)).2.2.2.1
    · have hI' : pMaze.IsTileIntersection (Ghost.lookaheadCell pMaze g cur).1
          (Ghost.lookaheadCell pMaze g cur).2 = false := by simpa using hI
      have hnd := f hI'
      obtain ⟨cur', hc', hdir⟩ := Ghost.GetNextDirection_some g _ _ pMaze dec.direction hnd
      obtain ⟨d0, hd0, hopen, _⟩ := Ghost.GetNextDirection_spec g cur' _ _ pMaze hc' hdir
      rw [hd0] at hnd
      have e0 : d0 = dec.direction := Option.some.inj hnd
      rw [← e0]
      rw [← e0] at d
      exact (hopen d).2

theorem Ghost.GetNextDecision_not_into_wall_witness :
    Ghost.GetNextDecision demoK demoPlayer demoMaze demoGhost =
        some (demoGhost, ⟨14, 13, Direction.Down⟩) ∧
      demoMaze.IsTileSolid 14 13 = false ∧
      demoMaze.IsTileSolid (TranslateCell 14 13 Direction.Down).1
        (TranslateCell 14 13 Direction.Down).2 = false :=
  ⟨by with_unfolding_all rfl,
    Ghost.GetNextDecision_not_into_wall demoK demoPlayer demoMaze demoGhost demoGhost
      ⟨14, 13, Direction.Down⟩ (by with_unfolding_all rfl)⟩

/-! ### The None direction at the velocity assignment (C16) -/

/-- Claim C16 as stated fails: on the Chase tick of the stopped ghost, whose cell is unchanged
and whose current Decision has the direction None, `Ghost::OnChasing` calls
`UpdateAnimation(Direction::None)`; the call returns normally without changing the ghost, and
so does the tick. -/
theorem Ghost.UpdateAnimation_None_returns :
    demoStoppedGhost.mode = Mode.Chase ∧ demoStoppedGhost.IsStopped = true ∧
      demoStoppedGhost.pCurrentDecision = some ⟨14, 12, Direction.None⟩ ∧
      Ghost.UpdateAnimation demoK demoStoppedGhost Direction.None = demoStoppedGhost ∧
      Ghost.Update demoK 0 demoPlayer demoMaze demoStoppedGhost = some demoStoppedGhost :=
  ⟨rfl, by with_unfolding_all decide, rfl, rfl, by with_unfolding_all rfl⟩

/-- Claim C16 as amended: a None direction reaching the velocity-assignment step does not halt
execution: `Ghost::UpdateAnimation(Direction::None)` returns normally and leaves the ghost,
its velocity and its animation included, unchanged. -/
theorem Ghost.UpdateAnimation_None (K : Externals) (g : Ghost) :
    Ghost.UpdateAnimation K g Direction.None = g ∧
      (Ghost.UpdateAnimation K g Direction.None).sprite.dx = g.sprite.dx ∧
      (Ghost.UpdateAnimation K g Direction.None).sprite.dy = g.sprite.dy ∧
      (Ghost.UpdateAnimation K g Direction.None).sprite.animation = g.sprite.animation :=
  ⟨rfl, rfl, rfl, rfl⟩

/-! ### Reset (C18) -/

/-- Claim C18 (`Blinky::Reset` postcondition): after Reset the recorded cell is
(GhostPenRow, GhostPenCol) = (17, 13), the position is that tile's centre, the velocity is
(0, -1.75 * GhostBaseSpeed), `nextDecision` is cleared,
`currentDecision = Decision(17, 13, heading)`, the pen timer is reset and not started, and the
call returns true. -/
theorem Blinky.Reset_postcondition (K : Externals) (pMaze : Maze) (g : Ghost) :
    (Blinky.Reset K pMaze g).1.currentRow = 17 ∧
      (Blinky.Reset K pMaze g).1.currentCol = 13 ∧
      (Blinky.Reset K pMaze g).1.sprite.x =
        (pMaze.GetTileCoordinates Constants.GhostPenRow Constants.GhostPenCol).x ∧
      (Blinky.Reset K pMaze g).1.sprite.y =
        (pMaze.GetTileCoordinates Constants.GhostPenRow Constants.GhostPenCol).y ∧
      (Blinky.Reset K pMaze g).1.sprite.dx = 0 ∧
      (Blinky.Reset K pMaze g).1.sprite.dy = -(7 / 4 * K.GhostBaseSpeed) ∧
      (Blinky.Reset K pMaze g).1.pNextDecision = none ∧
      (Blinky.Reset K pMaze g).1.pCurrentDecision =
        some ⟨17, 13, K.CurrentDirection (Blinky.Reset K pMaze g).1.sprite⟩ ∧
      (Blinky.Reset K pMaze g).1.penTimer = g.penTimer.Reset ∧
      (Blinky.Reset K pMaze g).1.penTimer.IsStarted = false ∧
      (Blinky.Reset K pMaze g).2 = true := by
  refine ⟨rfl, rfl, rfl, rfl, rfl, ?_, rfl, rfl, rfl, rfl, rfl⟩
  show K.GhostBaseSpeed * (-7 / 4) = -(7 / 4 * K.GhostBaseSpeed)
  ring

/-! ### Motion while penned (C19) -/

/-- The else-branch of the stop test leaves the sprite where it is. -/
theorem Ghost.advance_position (K : Externals) (pPlayer : Player) (pMaze : Maze)
    (g2 g' : Ghost) (cur : Decision)
    (h : Ghost.OnChasing.advance K pPlayer pMaze g2 cur = some g') :
    g'.sprite.x = g2.sprite.x ∧ g'.sprite.y = g2.sprite.y := by
  unfold Ghost.OnChasing.advance at h
  dsimp only at h
  split at h
  · exact Option.noConfusion h
  · rename_i g3 hg3
    have h3 : g3.sprite = g2.sprite := by
      split at hg3
      · split at hg3
        · exact Option.noConfusion hg3
        · rename_i g1 d1 hgd
          have := Ghost.GetNextDecision_ghost K pPlayer pMaze g2 g1 d1 hgd
          have e := Option.some.inj hg3
          rw [← e, this]
      · have e := Option.some.inj hg3
        rw [← e]
    split at h
    · split at h
      · exact Option.noConfusion h
      · split at h
        · have e := Option.some.inj h
          rw [← e]
          dsimp only [Sprite.SetVelocity]
          rw [h3]
          exact ⟨rfl, rfl⟩
        · have e := Option.some.inj h
          rw [← e]
          dsimp only
          rw [h3]
          exact ⟨rfl, rfl⟩
    · split at h
      · have e := Option.some.inj h
        rw [← e, ← h3]
        cases cur.direction <;> exact ⟨rfl, rfl⟩
      · have e := Option.some.inj h
        rw [← e, h3]
        exact ⟨rfl, rfl⟩

/-- Claim C19 as stated fails: the first Chase tick of the freshly Reset ghost, at time 10
with its release timer not yet started, let alone elapsed, moves it from y = 280, where Reset
placed it, to y = 278.25. -/
theorem Ghost.penned_ghost_moves :
    demoFreshGhost.mode = Mode.Chase ∧ demoFreshGhost.IsGhostPenned = true ∧
      demoFreshGhost.penTimer.IsDone 10 = false ∧
      Ghost.Update demoK 10 demoPlayer demoMaze demoFreshGhost = some demoFreshGhost1 ∧
      demoFreshGhost1.penTimer.IsDone 10 = false ∧
      demoFreshGhost.sprite.y = 280 ∧ demoFreshGhost1.sprite.y = 1113 / 4 ∧
      demoFreshGhost1.sprite.y ≠ demoFreshGhost.sprite.y :=
  ⟨rfl, by decide, by decide, by with_unfolding_all rfl, by decide, by with_unfolding_all rfl,
    rfl, by with_unfolding_all decide⟩

/-- Claim C19 as amended: from a fresh Reset until the release timer elapses (and on any Chase
tick on which the timer is not done), a `Ghost::Update` in Chase mode that returns moves the
ghost as the chase logic does anywhere: when the stop step fires the tick ends at the centre
of the recorded cell with velocity (0, 0), and otherwise at the position advanced by the
velocity. The ghost is not held where Reset placed it. -/
theorem Ghost.penned_chase_motion (K : Externals) (now : Nat) (pPlayer : Player)
    (pMaze : Maze) (g g' : Ghost) (cur : Decision) (hm : g.mode = Mode.Chase)
    (hd : g.penTimer.IsDone now = false) (hcur : g.pCurrentDecision = some cur)
    (hu : Ghost.Update K now pPlayer pMaze g = some g') :
    (pMaze.IsSpritePastCenter g.currentRow g.currentCol g.sprite.Update = true ∧
        cur.direction ≠ K.CurrentDirection g.sprite.Update →
      g'.sprite.x = (pMaze.GetTileCoordinates g.currentRow g.currentCol).x ∧
      g'.sprite.y = (pMaze.GetTileCoordinates g.currentRow g.currentCol).y ∧
      g'.sprite.dx = 0 ∧ g'.sprite.dy = 0) ∧
    (¬ (pMaze.IsSpritePastCenter g.currentRow g.currentCol g.sprite.Update = true ∧
        cur.direction ≠ K.CurrentDirection g.sprite.Update) →
      g'.sprite.x = g.sprite.x + g.sprite.dx ∧ g'.sprite.y = g.sprite.y + g.sprite.dy) := by
  have hU : Ghost.Update K now pPlayer pMaze g = Ghost.OnChasing K now pPlayer pMaze g := by
    unfold Ghost.Update
    rw [hm]
  rw [hU] at hu
  have hw := Ghost.release_waits K now pMaze g hd
  have hx : (Ghost.OnChasing.release K now pMaze g).mode ≠ Mode.ExitingPen := by
    rw [hw, hm]; decide
  have hs := Ghost.release_sprite K now pMaze g hx
  have hr := Ghost.release_decisions K now pMaze g
  unfold Ghost.OnChasing at hu
  dsimp only at hu
  rw [if_pos hx] at hu
  generalize Ghost.OnChasing.release K now pMaze g = g1 at hu hs hr
  obtain ⟨s1, t1, r1, c1, md1, nx1, cu1⟩ := g1
  dsimp only at hs hr
  obtain ⟨hs1, _⟩ := hs
  obtain ⟨hr1, _, hr3, hr4⟩ := hr
  subst hs1 hr3 hr4
  rw [hcur] at hr1
  subst hr1
  unfold Ghost.OnChasing.motion at hu
  dsimp only at hu
  constructor
  · intro hstop
    rw [if_pos hstop] at hu
    have e := Option.some.inj hu
    rw [← e]
    exact ⟨rfl, rfl, rfl, rfl⟩
  · intro hno
    rw [if_neg hno] at hu
    exact Ghost.advance_position K pPlayer pMaze _ g' cur hu

theorem Ghost.penned_chase_motion_witness :
    demoFreshGhost.mode = Mode.Chase ∧ demoFreshGhost.penTimer.IsDone 10 = false ∧
      demoFreshGhost.pCurrentDecision = some ⟨17, 13, Direction.Up⟩ ∧
      Ghost.Update demoK 10 demoPlayer demoMaze demoFreshGhost = some demoFreshGhost1 ∧
      ¬ (demoMaze.IsSpritePastCenter demoFreshGhost.currentRow demoFreshGhost.currentCol
          demoFreshGhost.sprite.Update = true ∧
        Direction.Up ≠ demoK.CurrentDirection demoFreshGhost.sprite.Update) ∧
      (demoFreshGhost1.sprite.x = demoFreshGhost.sprite.x + demoFreshGhost.sprite.dx ∧
        demoFreshGhost1.sprite.y = demoFreshGhost.sprite.y + demoFreshGhost.sprite.dy) :=
  ⟨rfl, by decide, by with_unfolding_all rfl, by with_unfolding_all rfl,
    by with_unfolding_all decide,
    (Ghost.penned_chase_motion demoK 10 demoPlayer demoMaze demoFreshGhost demoFreshGhost1
      ⟨17, 13, Direction.Up⟩ rfl (by decide) (by with_unfolding_all rfl)
      (by with_unfolding_all rfl)).2 (by with_unfolding_all decide)⟩

/-! ### Scatter (C20) -/

/-- Claim C20 (Scatter is a no-op): `Ghost::Update` on a ghost whose mode is Scatter returns
the ghost as it was: position, velocity, recorded cell, mode, both Decisions and the pen timer
are all unchanged. -/
theorem Ghost.Update_Scatter (K : Externals) (now : Nat) (pPlayer : Player) (pMaze : Maze)
    (g : Ghost) (hm : g.mode = Mode.Scatter) :
    Ghost.Update K now pPlayer pMaze g = some g := by
  unfold Ghost.Update
  rw [hm]

theorem Ghost.Update_Scatter_witness :
    demoScatterGhost.mode = Mode.Scatter ∧
      Ghost.Update demoK 0 demoPlayer demoMaze demoScatterGhost = some demoScatterGhost :=
  ⟨rfl, Ghost.Update_Scatter demoK 0 demoPlayer demoMaze demoScatterGhost rfl⟩

/-! ### The end-to-end scenario (C21) -/

/-- At an intersection with a valid candidate `Blinky::MakeBranchDecision` returns a valid
candidate that no valid candidate beats on distance. -/
theorem Blinky.MakeBranchDecision_argmin (K : Externals) (g : Ghost) (nRow nCol : Nat)
    (pPlayer : Player) (pMaze : Maze) (hI : pMaze.IsTileIntersection nRow nCol = true)
    (hex : ∃ d, Blinky.IsCandidate K g nRow nCol pMaze d)
    (hreal : ∀ e, Blinky.IsCandidate K g nRow nCol pMaze e →
      ¬ (Blinky.candidateDistance pPlayer pMaze nRow nCol e).IsNaN) :
    ∃ d, Blinky.MakeBranchDecision K g nRow nCol pPlayer pMaze = some d ∧
      Blinky.IsCandidate K g nRow nCol pMaze d ∧
      ∀ e, Blinky.IsCandidate K g nRow nCol pMaze e →
        (Blinky.candidateDistance pPlayer pMaze nRow nCol d).radicand ≤
          (Blinky.candidateDistance pPlayer pMaze nRow nCol e).radicand := by
  obtain ⟨hs, hv, hbest⟩ := Blinky.shortest_best K g nRow nCol pPlayer pMaze hex hreal
  have hcand := (Blinky.evaluate_valid K g pPlayer pMaze nRow nCol _ hs).1 hv
  have hdist := Blinky.evaluate_distance K g pPlayer pMaze nRow nCol _ hs hv
  refine ⟨Direction.ofIndex (Blinky.shortest K g nRow nCol pPlayer pMaze),
    Blinky.MakeBranchDecision_eq K g nRow nCol pPlayer pMaze hI hs hv, hcand, ?_⟩
  intro e he
  have hlt := Direction.toIndex_lt e he.1
  have hev : (Blinky.evaluate K g pPlayer pMaze e.toIndex
      (Blinky.options nRow nCol e.toIndex)).valid = true := by
    rw [Blinky.evaluate_valid K g pPlayer pMaze nRow nCol _ hlt, Direction.ofIndex_toIndex]
    exact he
  have h1 := (hbest e.toIndex hlt hev).1
  have h2 := Blinky.evaluate_distance K g pPlayer pMaze nRow nCol _ hlt hev
  rw [Direction.ofIndex_toIndex] at h2
  dsimp only at h1
  rw [hdist, h2] at h1
  exact h1.2

/-- Claim C21 (end-to-end scenario): at the intersection tile (10, 10), with the current
heading Right, the neighbours Up, Down and Right open, Left excluded as the reverse, and the
candidate distances d(Up) = 8, d(Down) = 3, d(Right) = 6 (the square roots of 64, 9 and 36),
`Blinky::MakeBranchDecision` returns Down, and its valid candidates are exactly Up, Down and
Right. The code reads the player's pixel position only, never the player's tile. -/
theorem Blinky.MakeBranchDecision_scenario (K : Externals) (g : Ghost) (pPlayer : Player)
    (pMaze : Maze) (hI : pMaze.IsTileIntersection 10 10 = true)
    (hh : K.CurrentDirection g.sprite = Direction.Right)
    (hU : Ghost.IsOpen pMaze 10 10 Direction.Up) (hD : Ghost.IsOpen pMaze 10 10 Direction.Down)
    (hR : Ghost.IsOpen pMaze 10 10 Direction.Right)
    (dU : Blinky.candidateDistance pPlayer pMaze 10 10 Direction.Up = SDL_sqrt 64)
    (dD : Blinky.candidateDistance pPlayer pMaze 10 10 Direction.Down = SDL_sqrt 9)
    (dR : Blinky.candidateDistance pPlayer pMaze 10 10 Direction.Right = SDL_sqrt 36) :
    Blinky.MakeBranchDecision K g 10 10 pPlayer pMaze = some Direction.Down ∧
      ∀ d, Blinky.IsCandidate K g 10 10 pMaze d ↔
        d = Direction.Up ∨ d = Direction.Down ∨ d = Direction.Right := by
  have hDc : Blinky.IsCandidate K g 10 10 pMaze Direction.Down :=
    ⟨by decide, hD, by rw [hh]; decide⟩
  have hUc : Blinky.IsCandidate K g 10 10 pMaze Direction.Up :=
    ⟨by decide, hU, by rw [hh]; decide⟩
  have hRc : Blinky.IsCandidate K g 10 10 pMaze Direction.Right :=
    ⟨by decide, hR, by rw [hh]; decide⟩
  have hL : ¬ Blinky.IsCandidate K g 10 10 pMaze Direction.Left := by
    intro h
    exact h.2.2 (by rw [hh]; rfl)
  have hreal : ∀ e, Blinky.IsCandidate K g 10 10 pMaze e →
      ¬ (Blinky.candidateDistance pPlayer pMaze 10 10 e).IsNaN := by
    intro e he
    cases e with
    | Up => rw [dU]; decide
    | Down => rw [dD]; decide
    | Left => exact absurd he hL
    | Right => rw [dR]; decide
    | None => exact absurd rfl he.1
  obtain ⟨d, hd, hc, hmin⟩ := Blinky.MakeBranchDecision_argmin K g 10 10 pPlayer pMaze hI
    ⟨Direction.Down, hDc⟩ hreal
  have hle := hmin Direction.Down hDc
  rw [dD] at hle
  refine ⟨?_, fun e => ?_⟩
  swap
  · cases e with
    | Up => exact ⟨fun _ => Or.inl rfl, fun _ => hUc⟩
    | Down => exact ⟨fun _ => Or.inr (Or.inl rfl), fun _ => hDc⟩
    | Left => exact ⟨fun h => absurd h hL, fun h => by rcases h with h | h | h <;> cases h⟩
    | Right => exact ⟨fun _ => Or.inr (Or.inr rfl), fun _ => hRc⟩
    | None => exact ⟨fun h => absurd rfl h.1, fun h => by rcases h with h | h | h <;> cases h⟩
  rw [hd]
  cases d with
  | Up => rw [dU] at hle; exact absurd hle (by decide)
  | Down => rfl
  | Left => exact absurd hc hL
  | Right => rw [dR] at hle; exact absurd hle (by decide)
  | None => exact absurd rfl hc.1

theorem Blinky.MakeBranchDecision_scenario_witness :
    scenarioMaze.GetTileRowCol ⟨toInt scenarioPlayer.x, toInt scenarioPlayer.y⟩ = (10, 5) ∧
      scenarioMaze.IsTileIntersection 10 10 = true ∧
      demoK.CurrentDirection scenarioGhost.sprite = Direction.Right ∧
      Ghost.IsOpen scenarioMaze 10 10 Direction.Up ∧
      Ghost.IsOpen scenarioMaze 10 10 Direction.Down ∧
      Ghost.IsOpen scenarioMaze 10 10 Direction.Right ∧
      Blinky.candidateDistance scenarioPlayer scenarioMaze 10 10 Direction.Up = SDL_sqrt 64 ∧
      Blinky.candidateDistance scenarioPlayer scenarioMaze 10 10 Direction.Down = SDL_sqrt 9 ∧
      Blinky.candidateDistance scenarioPlayer scenarioMaze 10 10 Direction.Right = SDL_sqrt 36 ∧
      Blinky.MakeBranchDecision demoK scenarioGhost 10 10 scenarioPlayer scenarioMaze =
        some Direction.Down ∧
      ∀ d, Blinky.IsCandidate demoK scenarioGhost 10 10 scenarioMaze d ↔
        d = Direction.Up ∨ d = Direction.Down ∨ d = Direction.Right :=
  ⟨by with_unfolding_all rfl, by decide, by with_unfolding_all rfl, by decide, by decide,
    by decide, by with_unfolding_all rfl, by with_unfolding_all rfl, by with_unfolding_all rfl,
    Blinky.MakeBranchDecision_scenario demoK scenarioGhost scenarioPlayer scenarioMaze
      (by decide) (by with_unfolding_all rfl) (by decide) (by decide) (by decide)
      (by with_unfolding_all rfl) (by with_unfolding_all rfl) (by with_unfolding_all rfl)⟩

/-! ### The pen zone (C22) -/

/-- Outside the pen zone the release step changes nothing. -/
theorem Ghost.release_not_penned (K : Externals) (now : Nat) (pMaze : Maze) (g : Ghost)
    (h : g.IsGhostPenned = false) : Ghost.OnChasing.release K now pMaze g = g := by
  unfold Ghost.OnChasing.release
  rw [if_neg (by rw [h]; decide)]

/-- A Chase tick of a ghost outside the pen zone does not end in ExitingPen. -/
theorem Ghost.Update_not_penned (K : Externals) (now : Nat) (pPlayer : Player) (pMaze : Maze)
    (g g' : Ghost) (hm : g.mode = Mode.Chase) (hp : g.IsGhostPenned = false)
    (h : Ghost.Update K now pPlayer pMaze g = some g') :
    Ghost.OnChasing.motion K pPlayer pMaze g = some g' ∧ g'.mode ≠ Mode.ExitingPen := by
  unfold Ghost.Update at h
  rw [hm] at h
  dsimp only at h
  unfold Ghost.OnChasing at h
  dsimp only at h
  rw [Ghost.release_not_penned K now pMaze g hp, if_pos (by rw [hm]; decide)] at h
  refine ⟨h, ?_⟩
  rcases (Ghost.motion_frame K pPlayer pMaze g g' h).2.1 with e | e
  · rw [e, hm]; decide
  · rw [e]; decide

/-- Claim C22 (pen-zone test): `Ghost::IsGhostPenned` is true exactly when
10 < currentCol < 17 and 15 < currentRow < 18. The cell where `Blinky::Reset` places the
ghost, (17, 13), is penned. The ExitingPen tick that completes the exit records the cell
(14, 13), which is not penned: on the next tick, whatever the clock, the release step changes
nothing and the tick does not end in ExitingPen. -/
theorem Ghost.IsGhostPenned_zone (K : Externals) (now : Nat) (pPlayer : Player) (pMaze : Maze)
    (g : Ghost) :
    (g.IsGhostPenned = true ↔
      10 < g.currentCol ∧ g.currentCol < 17 ∧ 15 < g.currentRow ∧ g.currentRow < 18) ∧
    ((Blinky.Reset K pMaze g).1.currentRow = 17 ∧ (Blinky.Reset K pMaze g).1.currentCol = 13 ∧
      (Blinky.Reset K pMaze g).1.IsGhostPenned = true) ∧
    (g.mode = Mode.ExitingPen → (Ghost.OnExitingPen K pPlayer pMaze g).mode = Mode.Chase →
      Ghost.Update K now pPlayer pMaze g = some (Ghost.OnExitingPen K pPlayer pMaze g) ∧
      (Ghost.OnExitingPen K pPlayer pMaze g).currentRow = 14 ∧
      (Ghost.OnExitingPen K pPlayer pMaze g).currentCol = 13 ∧
      (Ghost.OnExitingPen K pPlayer pMaze g).IsGhostPenned = false ∧
      ∀ later p2,
        Ghost.OnChasing.release K later pMaze (Ghost.OnExitingPen K pPlayer pMaze g) =
          Ghost.OnExitingPen K pPlayer pMaze g ∧
        ∀ g2, Ghost.Update K later p2 pMaze (Ghost.OnExitingPen K pPlayer pMaze g) = some g2 →
          g2.mode ≠ Mode.ExitingPen) := by
  refine ⟨?_, ⟨rfl, rfl, rfl⟩, ?_⟩
  · unfold Ghost.IsGhostPenned
    simp only [Bool.and_eq_true, decide_eq_true_eq, gt_iff_lt]
    tauto
  · intro hm hc
    have hexit : (Ghost.OnExitingPen K pPlayer pMaze g).currentRow = 14 ∧
        (Ghost.OnExitingPen K pPlayer pMaze g).currentCol = 13 := by
      unfold Ghost.OnExitingPen at hc ⊢
      dsimp only at hc ⊢
      split_ifs at hc ⊢
      · exact ⟨rfl, rfl⟩
      · exact ⟨rfl, rfl⟩
      · exact absurd (hm.symm.trans hc) (by decide)
    have hnp : (Ghost.OnExitingPen K pPlayer pMaze g).IsGhostPenned = false := by
      unfold Ghost.IsGhostPenned
      rw [hexit.1, hexit.2]
      rfl
    refine ⟨by unfold Ghost.Update; rw [hm], hexit.1, hexit.2, hnp, fun later p2 => ⟨?_, ?_⟩⟩
    · exact Ghost.release_not_penned K later pMaze _ hnp
    · intro g2 h2
      exact (Ghost.Update_not_penned K later p2 pMaze _ g2 hc hnp h2).2

theorem Ghost.IsGhostPenned_zone_witness :
    demoExitingGhost.mode = Mode.ExitingPen ∧
      (Ghost.OnExitingPen demoK demoPlayer demoMaze demoExitingGhost).mode = Mode.Chase ∧
      demoFreshGhost.IsGhostPenned = true ∧
      (Ghost.OnExitingPen demoK demoPlayer demoMaze demoExitingGhost).IsGhostPenned = false ∧
      ∃ g2, Ghost.Update demoK 12000 demoPlayer demoMaze
          (Ghost.OnExitingPen demoK demoPlayer demoMaze demoExitingGhost) = some g2 ∧
        g2.mode = Mode.Chase :=
  ⟨rfl, by with_unfolding_all rfl,
    (Ghost.IsGhostPenned_zone demoK 6000 demoPlayer demoMaze (Ghost.new ⟨0, 0, 0, 0, 0⟩)).2.1.2.2,
    ((Ghost.IsGhostPenned_zone demoK 6000 demoPlayer demoMaze demoExitingGhost).2.2 rfl
      (by with_unfolding_all rfl)).2.2.2.1,
    ⟨_, by with_unfolding_all rfl, by with_unfolding_all rfl⟩⟩

/-! ### The corridor invariant (C23) -/

theorem Direction.toIndex_injective (a b : Direction) (h : a.toIndex = b.toIndex) : a = b := by
  cases a <;> cases b <;> first | rfl | exact absurd h (by decide)

/-- A cell with fewer than three non-solid neighbours, one of which is in the direction `o`,
has at most one non-solid neighbour in another direction. -/
theorem Ghost.corridor_unique (pMaze : Maze) (r c : Nat) (o e1 e2 : Direction)
    (ho : o ≠ Direction.None) (hrev : Ghost.IsOpen pMaze r c o)
    (hfew : Ghost.openCount pMaze r c < 3)
    (h1 : e1 ≠ Direction.None ∧ e1 ≠ o ∧ Ghost.IsOpen pMaze r c e1)
    (h2 : e2 ≠ Direction.None ∧ e2 ≠ o ∧ Ghost.IsOpen pMaze r c e2) : e1 = e2 := by
  obtain ⟨a1, b1, c1⟩ := h1
  obtain ⟨a2, b2, c2⟩ := h2
  unfold Ghost.openCount at hfew
  by_contra hne
  cases o <;> cases e1 <;> cases e2 <;>
    first
      | exact absurd rfl ho
      | exact absurd rfl a1
      | exact absurd rfl a2
      | exact absurd rfl b1
      | exact absurd rfl b2
      | exact absurd rfl hne
      | (simp only [List.filter, hrev, c1, c2, decide_True] at hfew
         split at hfew <;> simp at hfew)

/-- The loop of `Ghost::GetNextDirection` over any enumeration `l` of directions: it returns
the only direction of `l` that passes its test. -/
theorem Ghost.GetNextDirection.loop_unique (opp r c : Nat) (pMaze : Maze) (e : Direction)
    (he : e.toIndex ≠ opp ∧ Ghost.IsOpen pMaze r c e) :
    ∀ l : List Direction, e ∈ l →
      (∀ d, d ∈ l → d.toIndex ≠ opp ∧ Ghost.IsOpen pMaze r c d → d = e) →
      Ghost.GetNextDirection.loop opp r c pMaze l = e := by
  intro l
  induction l with
  | nil => intro h _; exact absurd h (List.not_mem_nil e)
  | cons d rest ih =>
    intro h huniq
    unfold Ghost.GetNextDirection.loop
    split_ifs with hd
    · exact huniq d (List.mem_cons_self d rest) hd
    · rcases List.mem_cons.1 h with h | h
      · rw [h] at he
        exact absurd he hd
      · exact ih h (fun x hx => huniq x (List.mem_cons_of_mem d hx))

/-- The loop of `Ghost::GetNextDirection` over any enumeration `l` of directions: it returns
None when no direction of `l` passes its test. -/
theorem Ghost.GetNextDirection.loop_none (opp r c : Nat) (pMaze : Maze) :
    ∀ l : List Direction,
      (∀ d, d ∈ l → ¬ (d.toIndex ≠ opp ∧ Ghost.IsOpen pMaze r c d)) →
      Ghost.GetNextDirection.loop opp r c pMaze l = Direction.None := by
  intro l
  induction l with
  | nil => intro _; rfl
  | cons d rest ih =>
    intro hnone
    unfold Ghost.GetNextDirection.loop
    split_ifs with hd
    · exact absurd hd (hnone d (List.mem_cons_self d rest))
    · exact ih (fun x hx => hnone x (List.mem_cons_of_mem d hx))

/-- The members of a reordering of the enumeration Up, Down, Left, Right are the four
cardinal directions. -/
theorem Direction.mem_enumeration (l : List Direction)
    (hl : l.Perm [Direction.Up, Direction.Down, Direction.Left, Direction.Right])
    (d : Direction) : d ∈ l ↔ d ≠ Direction.None := by
  rw [hl.mem_iff]
  cases d <;> simp

/-- Claim C23 as stated fails: in the concrete level the cell (14, 1) has a single non-solid
neighbour, (14, 2). A ghost in (14, 2) whose current Decision heads Left has it as candidate
cell and enters it from the non-solid cell (14, 2), yet no neighbour other than the reverse
one is non-solid, and `Ghost::GetNextDirection` returns None. -/
theorem Ghost.GetNextDirection_dead_end :
    demoMaze.IsTileSolid 14 1 = false ∧
      Ghost.lookaheadCell demoMaze demoDeadEndGhost ⟨14, 2, Direction.Left⟩ = (14, 1) ∧
      demoDeadEndGhost.pCurrentDecision = some ⟨14, 2, Direction.Left⟩ ∧
      Ghost.openCount demoMaze 14 1 = 1 ∧
      Ghost.IsOpen demoMaze 14 1 (Opposite Direction.Left) ∧
      (¬ ∃ e, e ≠ Direction.None ∧ e ≠ Opposite Direction.Left ∧ Ghost.IsOpen demoMaze 14 1 e) ∧
      Ghost.GetNextDirection demoDeadEndGhost 14 1 demoMaze = some Direction.None :=
  ⟨by decide, by with_unfolding_all rfl, rfl, by decide, by decide,
    by rintro ⟨e, h1, h2, h3⟩; cases e <;> revert h1 h2 h3 <;> decide, by decide⟩

/-- Claim C23 as amended: a candidate cell with fewer than three non-solid cardinal
neighbours, entered from a non-solid cell, has at most one non-solid neighbour other than the
reverse one. When it has one, `Ghost::GetNextDirection` returns that neighbour's direction,
and so does its loop over any reordering of the enumeration Up, Down, Left, Right; when it has
none, the call and the loop over any reordering return None. -/
theorem Ghost.GetNextDirection_corridor (g : Ghost) (cur : Decision) (r c : Nat) (pMaze : Maze)
    (hcur : g.pCurrentDecision = some cur) (hdir : cur.direction ≠ Direction.None)
    (hfew : Ghost.openCount pMaze r c < 3)
    (hrev : Ghost.IsOpen pMaze r c (Opposite cur.direction)) :
    (∀ e1 e2,
      e1 ≠ Direction.None ∧ e1 ≠ Opposite cur.direction ∧ Ghost.IsOpen pMaze r c e1 →
      e2 ≠ Direction.None ∧ e2 ≠ Opposite cur.direction ∧ Ghost.IsOpen pMaze r c e2 →
      e1 = e2) ∧
    (∀ e, e ≠ Direction.None ∧ e ≠ Opposite cur.direction ∧ Ghost.IsOpen pMaze r c e →
      Ghost.GetNextDirection g r c pMaze = some e ∧
      ∀ l : List Direction,
        l.Perm [Direction.Up, Direction.Down, Direction.Left, Direction.Right] →
        Ghost.GetNextDirection.loop (Opposite cur.direction).toIndex r c pMaze l = e) ∧
    ((¬ ∃ e, e ≠ Direction.None ∧ e ≠ Opposite cur.direction ∧ Ghost.IsOpen pMaze r c e) →
      Ghost.GetNextDirection g r c pMaze = some Direction.None ∧
      ∀ l : List Direction,
        l.Perm [Direction.Up, Direction.Down, Direction.Left, Direction.Right] →
        Ghost.GetNextDirection.loop (Opposite cur.direction).toIndex r c pMaze l =
          Direction.None) := by
  have hopp : Opposite cur.direction ≠ Direction.None := by
    cases hd : cur.direction <;> first | exact absurd hd hdir | (intro h; cases h)
  have hcall : Ghost.GetNextDirection g r c pMaze =
      some (Ghost.GetNextDirection.loop (Opposite cur.direction).toIndex r c pMaze
        [Direction.Up, Direction.Down, Direction.Left, Direction.Right]) := by
    unfold Ghost.GetNextDirection
    rw [hcur]
    dsimp only
    rw [if_pos]
    intro h
    exact hopp (Direction.toIndex_injective _ _ h)
  have huniq := Ghost.corridor_unique pMaze r c (Opposite cur.direction)
  refine ⟨fun e1 e2 h1 h2 => huniq e1 e2 hopp hrev hfew h1 h2, fun e he => ?_, fun hno => ?_⟩
  · have hloop : ∀ l : List Direction,
        l.Perm [Direction.Up, Direction.Down, Direction.Left, Direction.Right] →
        Ghost.GetNextDirection.loop (Opposite cur.direction).toIndex r c pMaze l = e := by
      intro l hl
      apply Ghost.GetNextDirection.loop_unique
      · exact ⟨fun h => he.2.1 (Direction.toIndex_injective _ _ h), he.2.2⟩
      · exact (Direction.mem_enumeration l hl e).2 he.1
      · intro d hd hP
        exact huniq d e hopp hrev hfew
          ⟨(Direction.mem_enumeration l hl d).1 hd, fun h => hP.1 (by rw [h]), hP.2⟩ he
    exact ⟨by rw [hcall, hloop _ (List.Perm.refl _)], hloop⟩
  · have hloop : ∀ l : List Direction,
        l.Perm [Direction.Up, Direction.Down, Direction.Left, Direction.Right] →
        Ghost.GetNextDirection.loop (Opposite cur.direction).toIndex r c pMaze l =
          Direction.None := by
      intro l hl
      apply Ghost.GetNextDirection.loop_none
      intro d hd hP
      exact hno ⟨d, (Direction.mem_enumeration l hl d).1 hd,
        fun h => hP.1 (by rw [h]), hP.2⟩
    exact ⟨by rw [hcall, hloop _ (List.Perm.refl _)], hloop⟩

theorem Ghost.GetNextDirection_corridor_witness :
    demoGhost.pCurrentDecision = some ⟨14, 12, Direction.Right⟩ ∧
      Ghost.openCount demoMaze 14 11 < 3 ∧
      Ghost.IsOpen demoMaze 14 11 (Opposite Direction.Right) ∧
      Ghost.IsOpen demoMaze 14 11 Direction.Right ∧
      Ghost.GetNextDirection demoGhost 14 11 demoMaze = some Direction.Right ∧
      Ghost.GetNextDirection.loop (Opposite Direction.Right).toIndex 14 11 demoMaze
        [Direction.Right, Direction.Left, Direction.Down, Direction.Up] = Direction.Right :=
  ⟨rfl, by decide, by decide, by decide,
    ((Ghost.GetNextDirection_corridor demoGhost ⟨14, 12, Direction.Right⟩ 14 11 demoMaze rfl
      (by decide) (by decide) (by decide)).2.1 Direction.Right
        ⟨by decide, by decide, by decide⟩).1,
    by decide⟩

/-! ### The stop-and-snap step (C24) -/

/-- A Chase tick on which the release step does not fire is the motion step applied to the
state that the release step leaves. -/
theorem Ghost.Update_Chase_motion (K : Externals) (now : Nat) (pPlayer : Player) (pMaze : Maze)
    (g : Ghost) (hm : g.mode = Mode.Chase)
    (hr : (Ghost.OnChasing.release K now pMaze g).mode ≠ Mode.ExitingPen) :
    Ghost.Update K now pPlayer pMaze g =
      Ghost.OnChasing.motion K pPlayer pMaze (Ghost.OnChasing.release K now pMaze g) := by
  unfold Ghost.Update
  rw [hm]
  dsimp only
  unfold Ghost.OnChasing
  dsimp only
  rw [if_pos hr]

/-- Claim C24 (stop-and-snap step): on a Chase tick on which the pen release does not fire,
if after advancing the sprite is past the centre of (currentRow, currentCol) and
`currentDecision`'s direction differs from the sprite's instantaneous direction, then
`Ghost::Update` returns, the position is exactly that cell's centre, the velocity is (0, 0),
and the mode, the recorded cell, `currentDecision` and `nextDecision` are unchanged. -/
theorem Ghost.stop_and_snap (K : Externals) (now : Nat) (pPlayer : Player) (pMaze : Maze)
    (g : Ghost) (cur : Decision) (hm : g.mode = Mode.Chase)
    (hr : (Ghost.OnChasing.release K now pMaze g).mode ≠ Mode.ExitingPen)
    (hc : g.pCurrentDecision = some cur)
    (hpast : pMaze.IsSpritePastCenter g.currentRow g.currentCol g.sprite.Update = true)
    (hdir : cur.direction ≠ K.CurrentDirection g.sprite.Update) :
    ∃ g', Ghost.Update K now pPlayer pMaze g = some g' ∧
      g'.sprite.x = (pMaze.GetTileCoordinates g.currentRow g.currentCol).x ∧
      g'.sprite.y = (pMaze.GetTileCoordinates g.currentRow g.currentCol).y ∧
      g'.sprite.dx = 0 ∧ g'.sprite.dy = 0 ∧ g'.IsStopped = true ∧
      g'.mode = g.mode ∧ g'.currentRow = g.currentRow ∧ g'.currentCol = g.currentCol ∧
      g'.pCurrentDecision = g.pCurrentDecision ∧ g'.pNextDecision = g.pNextDecision := by
  have hU := Ghost.Update_Chase_motion K now pPlayer pMaze g hm hr
  obtain ⟨hs, hmode⟩ := Ghost.release_sprite K now pMaze g hr
  obtain ⟨d1, d2, d3, d4⟩ := Ghost.release_decisions K now pMaze g
  generalize Ghost.OnChasing.release K now pMaze g = g1 at hU hs hmode d1 d2 d3 d4
  obtain ⟨s, t, r, c, md, nx, cu⟩ := g1
  dsimp only at hs hmode d1 d2 d3 d4
  subst hs hmode d1 d2 d3 d4
  rw [hU]
  unfold Ghost.OnChasing.motion
  dsimp only
  rw [hc]
  dsimp only
  rw [if_pos ⟨hpast, hdir⟩]
  refine ⟨_, rfl, rfl, rfl, rfl, rfl, ?_, rfl, rfl, rfl, rfl, rfl⟩
  simp [Ghost.IsStopped, Ghost.Stop, Sprite.SetVelocity]

theorem Ghost.stop_and_snap_witness :
    cornerGhost9.mode = Mode.Chase ∧
      cornerMaze.IsSpritePastCenter cornerGhost9.currentRow cornerGhost9.currentCol
        cornerGhost9.sprite.Update = true ∧
      Direction.Up ≠ demoK.CurrentDirection cornerGhost9.sprite.Update ∧
      Ghost.Update demoK 144 scenarioPlayer cornerMaze cornerGhost9 = some cornerGhost10 ∧
      ∃ g', Ghost.Update demoK 144 scenarioPlayer cornerMaze cornerGhost9 = some g' ∧
        g'.sprite.x = (cornerMaze.GetTileCoordinates 10 10).x ∧
        g'.sprite.y = (cornerMaze.GetTileCoordinates 10 10).y ∧
        g'.sprite.dx = 0 ∧ g'.sprite.dy = 0 ∧ g'.IsStopped = true ∧
        g'.mode = Mode.Chase ∧ g'.currentRow = 10 ∧ g'.currentCol = 10 ∧
        g'.pCurrentDecision = some ⟨10, 10, Direction.Up⟩ ∧
        g'.pNextDecision = some ⟨9, 10, Direction.Down⟩ :=
  ⟨rfl, by with_unfolding_all rfl, by with_unfolding_all decide, by with_unfolding_all rfl,
    Ghost.stop_and_snap demoK 144 scenarioPlayer cornerMaze cornerGhost9 ⟨10, 10, Direction.Up⟩
      rfl (by with_unfolding_all decide) rfl (by with_unfolding_all rfl)
      (by with_unfolding_all decide)⟩

/-! ### The promotion and the turn (C25, C26) -/

/-- The else-branch of the stop test is the lookahead followed by the rest. -/
theorem Ghost.OnChasing.advance_eq (K : Externals) (pPlayer : Player) (pMaze : Maze)
    (g2 : Ghost) (cur : Decision) :
    Ghost.OnChasing.advance K pPlayer pMaze g2 cur =
      match Ghost.OnChasing.lookahead K pPlayer pMaze g2 with
      | none => none
      | some g3 => Ghost.OnChasing.enter K pMaze g3 cur := rfl

/-- What the lookahead leaves: the sprite, the mode and the current Decision as they were; a
cached `nextDecision` and the recorded cell as they were; and after computing a null
`nextDecision`, the recorded cell is the cell of the position. -/
theorem Ghost.OnChasing.lookahead_spec (K : Externals) (pPlayer : Player) (pMaze : Maze)
    (g2 g3 : Ghost) (h : Ghost.OnChasing.lookahead K pPlayer pMaze g2 = some g3) :
    g3.sprite = g2.sprite ∧ g3.mode = g2.mode ∧ g3.penTimer = g2.penTimer ∧
      g3.pCurrentDecision = g2.pCurrentDecision ∧ g3.pNextDecision ≠ none ∧
      (g2.pNextDecision ≠ none → g3 = g2) ∧
      (g2.pNextDecision = none → (g3.currentRow, g3.currentCol) = Ghost.cell pMaze g3) := by
  unfold Ghost.OnChasing.lookahead at h
  split at h
  · rename_i hn
    split at h
    · exact Option.noConfusion h
    · rename_i g1 d1 hgd
      have hg := Ghost.GetNextDecision_ghost K pPlayer pMaze g2 g1 d1 hgd
      have e := Option.some.inj h
      rw [← e, hg]
      exact ⟨rfl, rfl, rfl, rfl, by simp, fun hne => absurd hn hne, fun _ => rfl⟩
  · rename_i d hd
    have e := Option.some.inj h
    rw [← e]
    exact ⟨rfl, rfl, rfl, rfl, by rw [hd]; simp, fun _ => rfl, fun hn => by rw [hd] at hn; cases hn⟩

/-- A Chase tick on which the release step does not fire and the stop test fails is the
else-branch applied to the state after advancing. -/
theorem Ghost.Update_Chase_advance (K : Externals) (now : Nat) (pPlayer : Player) (pMaze : Maze)
    (g : Ghost) (cur : Decision) (hm : g.mode = Mode.Chase)
    (hr : (Ghost.OnChasing.release K now pMaze g).mode ≠ Mode.ExitingPen)
    (hc : g.pCurrentDecision = some cur)
    (helse : ¬ (pMaze.IsSpritePastCenter g.currentRow g.currentCol g.sprite.Update = true ∧
      cur.direction ≠ K.CurrentDirection g.sprite.Update)) :
    Ghost.Update K now pPlayer pMaze g =
        Ghost.OnChasing.advance K pPlayer pMaze (Ghost.afterAdvance K now pMaze g) cur ∧
      (Ghost.afterAdvance K now pMaze g).sprite = g.sprite.Update ∧
      (Ghost.afterAdvance K now pMaze g).mode = g.mode ∧
      (Ghost.afterAdvance K now pMaze g).currentRow = g.currentRow ∧
      (Ghost.afterAdvance K now pMaze g).currentCol = g.currentCol ∧
      (Ghost.afterAdvance K now pMaze g).pCurrentDecision = g.pCurrentDecision ∧
      (Ghost.afterAdvance K now pMaze g).pNextDecision = g.pNextDecision := by
  obtain ⟨hs, hmode⟩ := Ghost.release_sprite K now pMaze g hr
  obtain ⟨d1, d2, d3, d4⟩ := Ghost.release_decisions K now pMaze g
  have hU : Ghost.Update K now pPlayer pMaze g =
      Ghost.OnChasing.motion K pPlayer pMaze (Ghost.OnChasing.release K now pMaze g) := by
    unfold Ghost.Update
    rw [hm]
    dsimp only
    unfold Ghost.OnChasing
    dsimp only
    rw [if_pos hr]
  unfold Ghost.afterAdvance
  generalize Ghost.OnChasing.release K now pMaze g = g1 at hU hs hmode d1 d2 d3 d4
  obtain ⟨s, t, r, c, md, nx, cu⟩ := g1
  dsimp only at hs hmode d1 d2 d3 d4 ⊢
  subst hs hmode d1 d2 d3 d4
  refine ⟨?_, rfl, rfl, rfl, rfl, rfl, rfl⟩
  rw [hU]
  unfold Ghost.OnChasing.motion
  dsimp only
  rw [hc]
  dsimp only
  rw [if_neg helse]


/-- Claim C25 (promotion on entering a new cell): on a Chase tick on which the pen release
does not fire and the stop test fails, if the cell computed from the ghost's position differs
from the recorded cell when the code compares them, that is after the lookahead, then
`nextDecision` was already cached before the tick, `Ghost::Update` returns, and the tick ends
with the recorded cell equal to the new cell, `currentDecision` equal to that `nextDecision`
and `nextDecision` null. The mode becomes WarpingOut, with the velocity halved, exactly when
the new cell is on row 17 at column 1 or 26; otherwise it stays Chase with the velocity
unchanged. -/
theorem Ghost.promotion (K : Externals) (now : Nat) (pPlayer : Player) (pMaze : Maze)
    (g g3 : Ghost) (cur : Decision) (hm : g.mode = Mode.Chase)
    (hr : (Ghost.OnChasing.release K now pMaze g).mode ≠ Mode.ExitingPen)
    (hc : g.pCurrentDecision = some cur)
    (helse : ¬ (pMaze.IsSpritePastCenter g.currentRow g.currentCol g.sprite.Update = true ∧
      cur.direction ≠ K.CurrentDirection g.sprite.Update))
    (hl : Ghost.OnChasing.lookahead K pPlayer pMaze (Ghost.afterAdvance K now pMaze g) = some g3)
    (hnew : Ghost.cell pMaze g3 ≠ (g3.currentRow, g3.currentCol)) :
    ∃ next g', g.pNextDecision = some next ∧
      (g3.currentRow, g3.currentCol) = (g.currentRow, g.currentCol) ∧
      Ghost.cell pMaze g3 = pMaze.GetTileRowCol ⟨toInt g.sprite.Update.x, toInt g.sprite.Update.y⟩ ∧
      Ghost.Update K now pPlayer pMaze g = some g' ∧
      (g'.currentRow, g'.currentCol) = Ghost.cell pMaze g3 ∧
      g'.pCurrentDecision = some next ∧ g'.pNextDecision = none ∧
      (g'.mode = Mode.WarpingOut ↔
        (Ghost.cell pMaze g3).1 = 17 ∧
          ((Ghost.cell pMaze g3).2 = 1 ∨ (Ghost.cell pMaze g3).2 = 26)) ∧
      (g'.mode = Mode.WarpingOut →
        g'.sprite.dx = 1 / 2 * g.sprite.dx ∧ g'.sprite.dy = 1 / 2 * g.sprite.dy) ∧
      (g'.mode ≠ Mode.WarpingOut →
        g'.mode = Mode.Chase ∧ g'.sprite.dx = g.sprite.dx ∧ g'.sprite.dy = g.sprite.dy) := by
  obtain ⟨hU, a1, a2, a3, a4, a5, a6⟩ :=
    Ghost.Update_Chase_advance K now pPlayer pMaze g cur hm hr hc helse
  obtain ⟨b1, b2, _, b4, b5, b6, b7⟩ :=
    Ghost.OnChasing.lookahead_spec K pPlayer pMaze _ g3 hl
  have hcached : (Ghost.afterAdvance K now pMaze g).pNextDecision ≠ none := by
    intro hn
    exact hnew (b7 hn).symm
  have h3 := b6 hcached
  rw [a6] at hcached
  obtain ⟨next, hnext⟩ := Option.ne_none_iff_exists'.1 hcached
  rw [Ghost.OnChasing.advance_eq, hl] at hU
  dsimp only at hU
  have hcellne : (pMaze.GetTileRowCol ⟨toInt g3.sprite.x, toInt g3.sprite.y⟩).1 ≠ g3.currentRow ∨
      (pMaze.GetTileRowCol ⟨toInt g3.sprite.x, toInt g3.sprite.y⟩).2 ≠ g3.currentCol := by
    by_contra hcon
    push_neg at hcon
    exact hnew (Prod.ext hcon.1 hcon.2)
  have hn3 : g3.pNextDecision = some next := by rw [h3, a6, hnext]
  refine ⟨next, ?_⟩
  unfold Ghost.OnChasing.enter at hU
  dsimp only at hU
  rw [if_pos hcellne, hn3] at hU
  dsimp only at hU
  have hsprite : g3.sprite = g.sprite.Update := b1.trans a1
  have hmode : g3.mode = Mode.Chase := (b2.trans a2).trans hm
  have hwarp : ∀ g4 : Ghost, g4.sprite = g3.sprite →
      (g4.IsGhostWarpingOut pMaze = true ↔
        (Ghost.cell pMaze g3).1 = 17 ∧
          ((Ghost.cell pMaze g3).2 = 1 ∨ (Ghost.cell pMaze g3).2 = 26)) := by
    intro g4 h4
    unfold Ghost.IsGhostWarpingOut Ghost.cell
    rw [h4]
    simp [Constants.WarpRow, Constants.WarpColGhostLeft, Constants.WarpColGhostRight]
  split_ifs at hU with hw
  · refine ⟨_, hnext, ?_, ?_, hU, rfl, rfl, rfl, ?_, ?_, ?_⟩
    · rw [h3, a3, a4]
    · unfold Ghost.cell; rw [hsprite]
    · exact ⟨fun _ => (hwarp _ rfl).1 hw, fun _ => rfl⟩
    · intro _
      dsimp only [Sprite.SetVelocity]
      rw [hsprite]
      exact ⟨rfl, rfl⟩
    · intro hne
      exact absurd rfl hne
  · refine ⟨_, hnext, ?_, ?_, hU, rfl, rfl, rfl, ?_, ?_, ?_⟩
    · rw [h3, a3, a4]
    · unfold Ghost.cell; rw [hsprite]
    · constructor
      · intro h
        dsimp only at h
        rw [hmode] at h
        cases h
      · intro h
        exact absurd ((hwarp _ rfl).2 h) hw
    · intro h
      dsimp only at h
      rw [hmode] at h
      cases h
    · intro _
      dsimp only
      rw [hsprite]
      exact ⟨hmode, rfl, rfl⟩

theorem Ghost.promotion_witness :
    (cornerGhost4.mode = Mode.Chase ∧
      Ghost.cell cornerMaze (Ghost.afterAdvance demoK 64 cornerMaze cornerGhost4) = (10, 10) ∧
      (cornerGhost4.currentRow, cornerGhost4.currentCol) = (10, 9) ∧
      ∃ next g', cornerGhost4.pNextDecision = some next ∧
        Ghost.Update demoK 64 scenarioPlayer cornerMaze cornerGhost4 = some g' ∧
        (g'.currentRow, g'.currentCol) = (10, 10) ∧
        g'.pCurrentDecision = some next ∧ g'.pNextDecision = none ∧ g'.mode = Mode.Chase ∧
        g'.sprite.dx = 7 / 4 ∧ g'.sprite.dy = 0) ∧
    (demoWarpGhost.mode = Mode.Chase ∧
      Ghost.cell demoMaze (Ghost.afterAdvance demoK 0 demoMaze demoWarpGhost) = (17, 1) ∧
      (demoWarpGhost.currentRow, demoWarpGhost.currentCol) = (17, 2) ∧
      ∃ next g', demoWarpGhost.pNextDecision = some next ∧
        Ghost.Update demoK 0 demoPlayer demoMaze demoWarpGhost = some g' ∧
        (g'.currentRow, g'.currentCol) = (17, 1) ∧
        g'.pCurrentDecision = some next ∧ g'.pNextDecision = none ∧
        g'.mode = Mode.WarpingOut ∧ g'.sprite.dx = 1 / 2 * (-14) ∧ g'.sprite.dy = 1 / 2 * 0) :=
  ⟨⟨rfl, by with_unfolding_all rfl, rfl,
    (Ghost.promotion demoK 64 scenarioPlayer cornerMaze cornerGhost4
      (Ghost.afterAdvance demoK 64 cornerMaze cornerGhost4) ⟨10, 9, Direction.Right⟩ rfl
      (by with_unfolding_all decide) rfl (by with_unfolding_all decide)
      (by with_unfolding_all rfl) (by with_unfolding_all decide)).elim
      (fun next h => h.elim (fun g' h =>
        ⟨next, g', h.1, h.2.2.2.1, h.2.2.2.2.1.trans (by with_unfolding_all rfl),
          h.2.2.2.2.2.1, h.2.2.2.2.2.2.1,
          (h.2.2.2.2.2.2.2.2.2 (fun hw =>
            absurd (h.2.2.2.2.2.2.2.1.1 hw) (by with_unfolding_all decide))).1,
          (h.2.2.2.2.2.2.2.2.2 (fun hw =>
            absurd (h.2.2.2.2.2.2.2.1.1 hw) (by with_unfolding_all decide))).2.1,
          (h.2.2.2.2.2.2.2.2.2 (fun hw =>
            absurd (h.2.2.2.2.2.2.2.1.1 hw) (by with_unfolding_all decide))).2.2⟩))⟩,
    ⟨rfl, by with_unfolding_all rfl, rfl,
    (Ghost.promotion demoK 0 demoPlayer demoMaze demoWarpGhost
      (Ghost.afterAdvance demoK 0 demoMaze demoWarpGhost) ⟨17, 2, Direction.Left⟩ rfl
      (by with_unfolding_all decide) rfl (by with_unfolding_all decide)
      (by with_unfolding_all rfl) (by with_unfolding_all decide)).elim
      (fun next h => h.elim (fun g' h =>
        ⟨next, g', h.1, h.2.2.2.1, h.2.2.2.2.1.trans (by with_unfolding_all rfl),
          h.2.2.2.2.2.1, h.2.2.2.2.2.2.1,
          h.2.2.2.2.2.2.2.1.2 (by with_unfolding_all decide),
          (h.2.2.2.2.2.2.2.2.1
            (h.2.2.2.2.2.2.2.1.2 (by with_unfolding_all decide))).1,
          (h.2.2.2.2.2.2.2.2.1
            (h.2.2.2.2.2.2.2.1.2 (by with_unfolding_all decide))).2⟩))⟩⟩

/-- Advancing a sprite whose velocity is (0, 0) leaves it as it is. -/
theorem Sprite.Update_stopped (s : Sprite) (hx : s.dx = 0) (hy : s.dy = 0) : s.Update = s := by
  obtain ⟨x, y, dx, dy, a⟩ := s
  dsimp only at hx hy
  subst hx hy
  simp [Sprite.Update]

/-- The velocity that `Ghost::UpdateAnimation` sets for each of the four directions. -/
theorem Ghost.UpdateAnimation_velocity (K : Externals) (g : Ghost) (d : Direction) :
    (d = Direction.Up →
      (Ghost.UpdateAnimation K g d).sprite.dx = 0 ∧
      (Ghost.UpdateAnimation K g d).sprite.dy = -(7 / 4 * K.GhostBaseSpeed)) ∧
    (d = Direction.Down →
      (Ghost.UpdateAnimation K g d).sprite.dx = 0 ∧
      (Ghost.UpdateAnimation K g d).sprite.dy = 7 / 4 * K.GhostBaseSpeed) ∧
    (d = Direction.Left →
      (Ghost.UpdateAnimation K g d).sprite.dx = -(7 / 4 * K.GhostBaseSpeed) ∧
      (Ghost.UpdateAnimation K g d).sprite.dy = 0) ∧
    (d = Direction.Right →
      (Ghost.UpdateAnimation K g d).sprite.dx = 7 / 4 * K.GhostBaseSpeed ∧
      (Ghost.UpdateAnimation K g d).sprite.dy = 0) ∧
    (Ghost.UpdateAnimation K g d).sprite.x = g.sprite.x ∧
    (Ghost.UpdateAnimation K g d).sprite.y = g.sprite.y := by
  refine ⟨?_, ?_, ?_, ?_, ?_, ?_⟩
  · intro h; subst h
    simp only [Ghost.UpdateAnimation, Sprite.SetVelocity, Sprite.SetAnimation]
    constructor
    · trivial
    · ring
  · intro h; subst h
    simp only [Ghost.UpdateAnimation, Sprite.SetVelocity, Sprite.SetAnimation]
    constructor
    · trivial
    · ring
  · intro h; subst h
    simp only [Ghost.UpdateAnimation, Sprite.SetVelocity, Sprite.SetAnimation]
    constructor
    · ring
    · trivial
  · intro h; subst h
    simp only [Ghost.UpdateAnimation, Sprite.SetVelocity, Sprite.SetAnimation]
    constructor
    · ring
    · trivial
  · cases d <;> rfl
  · cases d <;> rfl

/-- Claim C26 (turn after stopping): on a Chase tick on which the pen release does not fire
and the stop test fails, if the ghost is stopped and the cell computed from its position is
the recorded cell when the code compares them, that is after the lookahead, then
`Ghost::Update` returns and the velocity is set from `currentDecision`'s direction: Up gives
(0, -s), Down (0, +s), Left (-s, 0), Right (+s, 0) with s = 1.75 * GhostBaseSpeed. So for
each of the four directions the velocity is axis-aligned with magnitude |s|, and for a
positive GhostBaseSpeed it points in `currentDecision`'s direction. The position, the mode,
the recorded cell and `currentDecision` are those of before the turn. -/
theorem Ghost.turn_after_stopping (K : Externals) (now : Nat) (pPlayer : Player) (pMaze : Maze)
    (g g3 : Ghost) (cur : Decision) (hm : g.mode = Mode.Chase)
    (hr : (Ghost.OnChasing.release K now pMaze g).mode ≠ Mode.ExitingPen)
    (hc : g.pCurrentDecision = some cur)
    (helse : ¬ (pMaze.IsSpritePastCenter g.currentRow g.currentCol g.sprite.Update = true ∧
      cur.direction ≠ K.CurrentDirection g.sprite.Update))
    (hl : Ghost.OnChasing.lookahead K pPlayer pMaze (Ghost.afterAdvance K now pMaze g) = some g3)
    (hsame : Ghost.cell pMaze g3 = (g3.currentRow, g3.currentCol))
    (hstop : g.IsStopped = true) :
    ∃ g', Ghost.Update K now pPlayer pMaze g = some g' ∧
      (cur.direction = Direction.Up →
        g'.sprite.dx = 0 ∧ g'.sprite.dy = -(7 / 4 * K.GhostBaseSpeed)) ∧
      (cur.direction = Direction.Down →
        g'.sprite.dx = 0 ∧ g'.sprite.dy = 7 / 4 * K.GhostBaseSpeed) ∧
      (cur.direction = Direction.Left →
        g'.sprite.dx = -(7 / 4 * K.GhostBaseSpeed) ∧ g'.sprite.dy = 0) ∧
      (cur.direction = Direction.Right →
        g'.sprite.dx = 7 / 4 * K.GhostBaseSpeed ∧ g'.sprite.dy = 0) ∧
      (cur.direction ≠ Direction.None →
        (g'.sprite.dx = 0 ∨ g'.sprite.dy = 0) ∧
        |g'.sprite.dx| + |g'.sprite.dy| = |7 / 4 * K.GhostBaseSpeed|) ∧
      (0 < K.GhostBaseSpeed →
        (cur.direction = Direction.Up → g'.sprite.dy < 0) ∧
        (cur.direction = Direction.Down → 0 < g'.sprite.dy) ∧
        (cur.direction = Direction.Left → g'.sprite.dx < 0) ∧
        (cur.direction = Direction.Right → 0 < g'.sprite.dx)) ∧
      g'.sprite.x = g.sprite.x ∧ g'.sprite.y = g.sprite.y ∧ g'.mode = Mode.Chase ∧
      (g'.currentRow, g'.currentCol) = Ghost.cell pMaze g ∧
      g'.pCurrentDecision = some cur := by
  obtain ⟨hU, a1, a2, a3, a4, a5, a6⟩ :=
    Ghost.Update_Chase_advance K now pPlayer pMaze g cur hm hr hc helse
  obtain ⟨b1, b2, _, b4, b5, b6, b7⟩ :=
    Ghost.OnChasing.lookahead_spec K pPlayer pMaze _ g3 hl
  have hzero : g.sprite.dx = 0 ∧ g.sprite.dy = 0 := by
    unfold Ghost.IsStopped at hstop
    simpa using hstop
  have hpos : g.sprite.Update = g.sprite := Sprite.Update_stopped g.sprite hzero.1 hzero.2
  have hsprite : g3.sprite = g.sprite := (b1.trans a1).trans hpos
  have hstop3 : g3.IsStopped = true := by
    unfold Ghost.IsStopped at hstop ⊢
    rw [hsprite]
    exact hstop
  have hcell : ¬ ((pMaze.GetTileRowCol ⟨toInt g3.sprite.x, toInt g3.sprite.y⟩).1 ≠ g3.currentRow ∨
      (pMaze.GetTileRowCol ⟨toInt g3.sprite.x, toInt g3.sprite.y⟩).2 ≠ g3.currentCol) := by
    unfold Ghost.cell at hsame
    rw [hsame]
    simp
  rw [Ghost.OnChasing.advance_eq, hl] at hU
  dsimp only at hU
  unfold Ghost.OnChasing.enter at hU
  dsimp only at hU
  rw [if_neg hcell, if_pos hstop3] at hU
  obtain ⟨vU, vD, vL, vR, vx, vy⟩ := Ghost.UpdateAnimation_velocity K g3 cur.direction
  obtain ⟨u1, _, u3, u4, u5, _⟩ := Ghost.UpdateAnimation_decisions K g3 cur.direction
  refine ⟨_, hU, vU, vD, vL, vR, ?_, ?_, ?_, ?_, ?_, ?_, ?_⟩
  · intro hN
    have hcases : cur.direction = Direction.Up ∨ cur.direction = Direction.Down ∨
        cur.direction = Direction.Left ∨ cur.direction = Direction.Right := by
      cases hd : cur.direction <;> first | exact absurd hd hN | simp
    rcases hcases with hd | hd | hd | hd
    · rw [(vU hd).1, (vU hd).2]; exact ⟨Or.inl rfl, by simp⟩
    · rw [(vD hd).1, (vD hd).2]; exact ⟨Or.inl rfl, by simp⟩
    · rw [(vL hd).1, (vL hd).2]; exact ⟨Or.inr rfl, by simp⟩
    · rw [(vR hd).1, (vR hd).2]; exact ⟨Or.inr rfl, by simp⟩
  · intro hG
    refine ⟨fun hd => ?_, fun hd => ?_, fun hd => ?_, fun hd => ?_⟩
    · rw [(vU hd).2]; linarith
    · rw [(vD hd).2]; linarith
    · rw [(vL hd).1]; linarith
    · rw [(vR hd).1]; linarith
  · rw [vx, hsprite]
  · rw [vy, hsprite]
  · rw [u5, b2, a2, hm]
  · rw [u3, u4, ← hsame]
    unfold Ghost.cell
    rw [hsprite]
  · rw [u1, b4, a5, hc]

theorem Ghost.turn_after_stopping_witness :
    cornerGhost10.mode = Mode.Chase ∧ cornerGhost10.IsStopped = true ∧
      cornerGhost10.pCurrentDecision = some ⟨10, 10, Direction.Up⟩ ∧
      (0 : ℚ) < demoK.GhostBaseSpeed ∧
      Ghost.Update demoK 160 scenarioPlayer cornerMaze cornerGhost10 = some cornerGhost11 ∧
      ∃ g', Ghost.Update demoK 160 scenarioPlayer cornerMaze cornerGhost10 = some g' ∧
        g'.sprite.dx = 0 ∧ g'.sprite.dy = -(7 / 4 * demoK.GhostBaseSpeed) ∧ g'.sprite.dy < 0 :=
  ⟨rfl, by with_unfolding_all decide, rfl, by with_unfolding_all decide,
    by with_unfolding_all rfl,
    (Ghost.turn_after_stopping demoK 160 scenarioPlayer cornerMaze cornerGhost10
      (Ghost.afterAdvance demoK 160 cornerMaze cornerGhost10) ⟨10, 10, Direction.Up⟩ rfl
      (by with_unfolding_all decide) rfl (by with_unfolding_all decide)
      (by with_unfolding_all rfl) (by with_unfolding_all rfl)
      (by with_unfolding_all decide)).elim
      (fun g' h => ⟨g', h.1, (h.2.1 rfl).1, (h.2.1 rfl).2,
        (h.2.2.2.2.2.2.1 (by with_unfolding_all decide)).1 rfl⟩)⟩

/-! ### The planned path (C27) -/

/-- Which direction a Decision returned by `Ghost::GetNextDecision` is never the opposite of:
in the non-intersection branch the current Decision's direction, in the intersection branch
the heading `CurrentDirection()`. So when the heading is the current Decision's direction the
planned move never leads back. -/
theorem Ghost.GetNextDecision_reverse_of (K : Externals) (pPlayer : Player) (pMaze : Maze)
    (g g' : Ghost) (cur dec : Decision) (hcur : g.pCurrentDecision = some cur)
    (h : Ghost.GetNextDecision K pPlayer pMaze g = some (g', dec)) :
    (pMaze.IsTileIntersection dec.row dec.col = false →
      dec.direction ≠ Opposite cur.direction) ∧
    (pMaze.IsTileIntersection dec.row dec.col = true →
      dec.direction ≠ Opposite (K.CurrentDirection g.sprite)) ∧
    (K.CurrentDirection g.sprite = cur.direction → dec.direction ≠ Opposite cur.direction) := by
  obtain ⟨_, hr, hcol, hN, hI, hC⟩ :=
    (Ghost.GetNextDecision_cases K pPlayer pMaze g cur hcur).2 g' dec h
  rw [hr, hcol]
  have hcorr : pMaze.IsTileIntersection (Ghost.lookaheadCell pMaze g cur).1
      (Ghost.lookaheadCell pMaze g cur).2 = false → dec.direction ≠ Opposite cur.direction := by
    intro hf
    have hgd := hC hf
    obtain ⟨cur', hc', hd'⟩ := Ghost.GetNextDirection_some g _ _ pMaze _ hgd
    rw [hcur] at hc'
    have hcc : cur = cur' := Option.some.inj hc'
    subst hcc
    obtain ⟨d, h1, h2, _⟩ := Ghost.GetNextDirection_spec g cur _ _ pMaze hcur hd'
    rw [hgd] at h1
    have hdd : dec.direction = d := Option.some.inj h1
    rw [← hdd] at h2
    exact (h2 hN).1
  have hint : pMaze.IsTileIntersection (Ghost.lookaheadCell pMaze g cur).1
      (Ghost.lookaheadCell pMaze g cur).2 = true →
      dec.direction ≠ Opposite (K.CurrentDirection g.sprite) := by
    intro ht
    exact (Blinky.MakeBranchDecision_some K g _ _ pPlayer pMaze _ (hI ht)).2.2.2.2
  refine ⟨hcorr, hint, fun hh => ?_⟩
  cases hb : pMaze.IsTileIntersection (Ghost.lookaheadCell pMaze g cur).1
      (Ghost.lookaheadCell pMaze g cur).2 with
  | false => exact hcorr hb
  | true => rw [← hh]; exact hint hb

/-- Claim C27 fails in the intersection branch. In the corner level the ghost runs right
along row 10 into the corner cell (10, 10), where its current Decision becomes Up while it is
still heading right. On the next tick `Ghost::GetNextDecision` looks ahead to the
intersection (9, 10), and `Blinky::MakeBranchDecision` excludes the opposite of the heading,
Left, not the opposite of the current Decision's direction: it returns Down, the opposite of
Up, which leads back into (10, 10), the cell nearest the player. The ghost then enters
(9, 10), stops at its centre and turns Down. -/
theorem Ghost.GetNextDecision_doubles_back :
    Ghost.run demoK cornerMaze (cornerTicks 5) cornerGhost = some cornerGhost5 ∧
      cornerGhost5.pCurrentDecision = some ⟨10, 10, Direction.Up⟩ ∧
      demoK.CurrentDirection (Ghost.afterAdvance demoK 80 cornerMaze cornerGhost5).sprite =
        Direction.Right ∧
      Ghost.lookaheadCell cornerMaze (Ghost.afterAdvance demoK 80 cornerMaze cornerGhost5)
        ⟨10, 10, Direction.Up⟩ = (9, 10) ∧
      cornerMaze.IsTileIntersection 9 10 = true ∧
      (Ghost.GetNextDecision demoK scenarioPlayer cornerMaze
        (Ghost.afterAdvance demoK 80 cornerMaze cornerGhost5)).map Prod.snd =
          some ⟨9, 10, Direction.Down⟩ ∧
      Direction.Down = Opposite Direction.Up ∧
      TranslateCell 9 10 Direction.Down = (10, 10) ∧
      (Ghost.run demoK cornerMaze (cornerTicks 6) cornerGhost).map
          (fun g => (g.pCurrentDecision, g.pNextDecision)) =
        some (some ⟨10, 10, Direction.Up⟩, some ⟨9, 10, Direction.Down⟩) ∧
      (Ghost.run demoK cornerMaze (cornerTicks 16) cornerGhost).map
          (fun g => (g.currentRow, g.currentCol, g.sprite.dy, g.pCurrentDecision)) =
        some (9, 10, -7 / 4, some ⟨9, 10, Direction.Down⟩) ∧
      (Ghost.run demoK cornerMaze (cornerTicks 22) cornerGhost).map
          (fun g => (g.currentRow, g.currentCol, g.sprite.dy, g.pCurrentDecision)) =
        some (9, 10, 7 / 4, some ⟨9, 10, Direction.Down⟩) :=
  ⟨by with_unfolding_all rfl, rfl, by with_unfolding_all rfl, by with_unfolding_all rfl,
    by with_unfolding_all rfl, by with_unfolding_all rfl, rfl, by with_unfolding_all rfl,
    by with_unfolding_all rfl, by with_unfolding_all rfl, by with_unfolding_all rfl⟩

/-! ### The re-entry cells (C28) -/

/-- The state that `Ghost::OnWarpingIn` hands back to Chase: the position is in the cell
(17, 2) or (17, 25), that cell is the recorded cell, and the lookahead is cleared. -/
theorem Ghost.OnWarpingIn_handover (K : Externals) (pMaze : Maze) (g : Ghost)
    (hm : g.mode = Mode.WarpingIn) (hc : (Ghost.OnWarpingIn K pMaze g).mode = Mode.Chase) :
    (Ghost.cell pMaze (Ghost.OnWarpingIn K pMaze g) = (17, 2) ∨
        Ghost.cell pMaze (Ghost.OnWarpingIn K pMaze g) = (17, 25)) ∧
      ((Ghost.OnWarpingIn K pMaze g).currentRow, (Ghost.OnWarpingIn K pMaze g).currentCol) =
        Ghost.cell pMaze (Ghost.OnWarpingIn K pMaze g) ∧
      (Ghost.OnWarpingIn K pMaze g).pNextDecision = none := by
  unfold Ghost.OnWarpingIn at hc ⊢
  dsimp only at hc ⊢
  split_ifs at hc ⊢ with h
  · unfold Ghost.cell
    dsimp only [Sprite.SetVelocity, Sprite.Update]
    dsimp only [Sprite.Update] at h
    obtain ⟨h1, h2⟩ := h
    refine ⟨?_, rfl, rfl⟩
    rcases h2 with h2 | h2
    · left
      exact Prod.ext h1 h2
    · right
      exact Prod.ext h1 h2
  · exact absurd (hm.symm.trans hc) (by decide)

/-- Claim C28 (the re-entry cells are not warp-out cells): for a ghost whose position is in
the cell (17, 2) or (17, 25), `Ghost::IsGhostWarpingOut` is false. The state with which
`Ghost::OnWarpingIn` hands control back to Chase is in one of these two cells, so it does not
satisfy the warp-out test, and the tick that follows, if it returns, ends in Chase, not in
WarpingOut. -/
theorem Ghost.reentry_not_warping_out (K : Externals) (pMaze : Maze) (g : Ghost) :
    (Ghost.cell pMaze g = (17, 2) ∨ Ghost.cell pMaze g = (17, 25) →
      g.IsGhostWarpingOut pMaze = false) ∧
    (g.mode = Mode.WarpingIn → (Ghost.OnWarpingIn K pMaze g).mode = Mode.Chase →
      (Ghost.cell pMaze (Ghost.OnWarpingIn K pMaze g) = (17, 2) ∨
        Ghost.cell pMaze (Ghost.OnWarpingIn K pMaze g) = (17, 25)) ∧
      (Ghost.OnWarpingIn K pMaze g).IsGhostWarpingOut pMaze = false ∧
      ∀ now pPlayer g2,
        Ghost.Update K now pPlayer pMaze (Ghost.OnWarpingIn K pMaze g) = some g2 →
          g2.mode = Mode.Chase) := by
  have hcell : ∀ g0 : Ghost, Ghost.cell pMaze g0 = (17, 2) ∨ Ghost.cell pMaze g0 = (17, 25) →
      g0.IsGhostWarpingOut pMaze = false := by
    intro g0 h
    unfold Ghost.cell at h
    unfold Ghost.IsGhostWarpingOut
    dsimp only
    rcases h with h | h <;> rw [h] <;> rfl
  refine ⟨hcell g, fun hm hc => ?_⟩
  obtain ⟨h1, h2, h3⟩ := Ghost.OnWarpingIn_handover K pMaze g hm hc
  refine ⟨h1, hcell _ h1, fun now pPlayer g2 hu => ?_⟩
  have hnp : (Ghost.OnWarpingIn K pMaze g).IsGhostPenned = false := by
    have hr := congrArg Prod.fst h2
    have hcol := congrArg Prod.snd h2
    dsimp only at hr hcol
    unfold Ghost.IsGhostPenned
    rw [hr, hcol]
    rcases h1 with h | h <;> rw [h] <;> rfl
  unfold Ghost.Update at hu
  rw [hc] at hu
  dsimp only at hu
  unfold Ghost.OnChasing at hu
  dsimp only at hu
  rw [Ghost.release_not_penned K now pMaze _ hnp, if_pos (by rw [hc]; decide)] at hu
  rw [(Ghost.motion_frame K pPlayer pMaze _ g2 hu).2.2 h3, hc]

theorem Ghost.reentry_not_warping_out_witness :
    demoWarpInGhost.mode = Mode.WarpingIn ∧
      (Ghost.OnWarpingIn demoK demoMaze demoWarpInGhost).mode = Mode.Chase ∧
      Ghost.cell demoMaze (Ghost.OnWarpingIn demoK demoMaze demoWarpInGhost) = (17, 25) ∧
      (Ghost.OnWarpingIn demoK demoMaze demoWarpInGhost).IsGhostWarpingOut demoMaze = false ∧
      ∃ g2, Ghost.Update demoK 0 demoPlayer demoMaze
          (Ghost.OnWarpingIn demoK demoMaze demoWarpInGhost) = some g2 ∧ g2.mode = Mode.Chase :=
  ⟨rfl, by with_unfolding_all rfl, by with_unfolding_all rfl,
    ((Ghost.reentry_not_warping_out demoK demoMaze demoWarpInGhost).2 rfl
      (by with_unfolding_all rfl)).2.1,
    ⟨_, by with_unfolding_all rfl, by with_unfolding_all rfl⟩⟩

end PacManClone
